import Mathlib

/-!
# BeamFactory (Rigs of Rods): truck slot registry, stream table and sleep/wake graph

A shallow embedding of `source/main/physics/BeamFactory.cpp`.

* A `Beam*` stored in the `trucks` array owns its object, so a slot is an
  `Option (Beam Box)`: `none` is the null pointer, `some b` is a pointer to the
  object `b`.  The address that `new Beam` returned is kept in `Beam.addr`; the
  stream table stores non-owning pointers, that is, bare addresses (`0` is the
  null pointer), and pointer comparisons compare addresses.
* `int` values are `Int`; loop counters that start at `0` are `Nat`.
* Everything the translation unit takes from headers and libraries that are
  not part of the file (the capacity `MAX_TRUCKS`, the enumerator `AIRPLANE`,
  `Ogre::AxisAlignedBox::intersects`, `gEnv->frameListener`) is a field of `Env`.
* Calls into collaborators whose effect is only observable from outside
  (GUI refresh, focus notification, stream removal, construction and
  destruction of a `Beam`) are appended to the `events` trace, oldest first.
* The two recursive graph walks take a fuel argument; `none` means the fuel
  ran out.  The lemmas `checkForActive_isSome` and
  `recursiveActivation_isSome` show that `free_truck + 1` is always enough.
-/

namespace RoR

/-- Address of a `Beam` object; `0` is the null pointer. -/
abbrev BeamPtr := Nat

/-- Modelled from the spec: the truck state enumerators of `BeamData.h`, which
is not part of the translation unit.  Only their order is used: the leading
("active") state lies below `DESACTIVATED`, and
`DESACTIVATED < MAYSLEEP < GOSLEEP < SLEEPING`.  The remaining enumerators
(`NETWORKED`, `NETWORKED_INVALID`, `RECYCLE`) are any other integers, since
`Beam.state` ranges over all of `Int`. -/
def ACTIVATED : Int := 0

/-- Modelled from the spec: enumerator "not leading but active". -/
def DESACTIVATED : Int := 1

/-- Modelled from the spec: enumerator "active but wanting to sleep". -/
def MAYSLEEP : Int := 2

/-- Modelled from the spec: enumerator "ordered to sleep". -/
def GOSLEEP : Int := 3

/-- Modelled from the spec: enumerator "sleeping". -/
def SLEEPING : Int := 4

/-- The attributes of a `Beam` that `BeamFactory.cpp` reads or writes. -/
structure Beam (Box : Type) where
  /-- the address of this object (the value of the pointer to it) -/
  addr : BeamPtr
  trucknum : Int
  state : Int
  sleepcount : Int
  driveable : Int
  disableDrag : Bool
  networked : Bool
  sourceid : Int
  streamid : Int
  predictedBoundingBox : Box
  predictedCollisionBoundingBoxes : List Box
deriving DecidableEq, Repr

/-- Observable calls into collaborators, in program order. -/
inductive Event where
  /-- The call `new Beam(truck_num, ..., networked, ...)` returned `p` -/
  | newBeam (p : BeamPtr) (truck_num : Int) (networked : Bool)
  /-- The statement `delete b` -/
  | deleteBeam (p : BeamPtr)
  /-- The call `GUI_MainMenu::triggerUpdateVehicleList()` -/
  | triggerUpdateVehicleList
  /-- The call `RoR::MainThread::ChangedCurrentVehicle(previous, current)` -/
  | ChangedCurrentVehicle (previous current : BeamPtr)
  /-- The call `NetworkStreamManager::removeStream(sourceid, streamid)` -/
  | removeStream (sourceid : Int) (streamid : Nat)
  /-- The call `trucks[simulatedTruck]->frameStep(dt)` on the pointer `p` -/
  | frameStep (p : BeamPtr)
  /-- The call `b->deleteNetTruck()` on the pointer `p` -/
  | deleteNetTruck (p : BeamPtr)
deriving DecidableEq, Repr

/-- What the translation unit takes from outside. -/
structure Env (Box : Type) where
  MAX_TRUCKS : Nat
  AIRPLANE : Int
  /-- The method `Ogre::AxisAlignedBox::intersects`, receiver first -/
  intersects : Box → Box → Bool
  /-- Whether `gEnv->frameListener` is not null -/
  frameListener : Bool
  /-- The method `CacheSystem::checkResourceLoaded` on the asset name of a registration -/
  checkResourceLoaded : String → Bool
  /-- What `Beam::deleteNetTruck` (in `Beam.cpp`, not part of the translation
  unit) does to the object it is called on -/
  deleteNetTruck : Beam Box → Beam Box

/-- The fields of a `stream_reg_t` registration record that the factory reads. -/
structure stream_reg_t where
  sourceid : Int
  streamid : Int
  name : String
deriving DecidableEq, Repr

/-- The fields of a `stream_del_t` deletion record that the factory reads;
`streamid = -1` means every stream of the source. -/
structure stream_del_t where
  sourceid : Int
  streamid : Int
deriving DecidableEq, Repr

/-- The type `std::map<int, std::map<unsigned int, Beam*>>`, entries in key order. -/
abbrev Streams := List (Int × List (Nat × BeamPtr))

/-- The members of `BeamFactory` (and the global `simulatedTruck`) that the
functions below use. -/
structure BeamFactory (Box : Type) where
  trucks : List (Option (Beam Box))
  free_truck : Int
  current_truck : Int
  previous_truck : Int
  forcedActive : Bool
  simulatedTruck : Int
  streamables : Streams
  events : List Event
deriving DecidableEq, Repr

variable {Box : Type}

/-- The value of a `Beam*`: the address of the object, `0` for null. -/
def ptrOf (b : Option (Beam Box)) : BeamPtr :=
  match b with
  | none => 0
  | some x => x.addr

/-- Conversion of an `int` to `unsigned int` (the key type of the inner map). -/
def toUnsigned (x : Int) : Nat := (x % 4294967296).toNat

/-! ### `std::map` on key-ordered association lists -/

/-- The lookup `m.find(k)`: the mapped value, `none` for `end()`. -/
def mapFind {κ V : Type} [DecidableEq κ] (m : List (κ × V)) (k : κ) : Option V :=
  match m with
  | [] => none
  | (k1, v1) :: rest => if k = k1 then some v1 else mapFind rest k

/-- The assignment `m[k] = v`: overwrite the entry, or insert it at its place in key order. -/
def mapSet {κ V : Type} [DecidableEq κ] [LT κ] [DecidableRel (fun a b : κ => a < b)]
    (m : List (κ × V)) (k : κ) (v : V) : List (κ × V) :=
  match m with
  | [] => [(k, v)]
  | (k1, v1) :: rest =>
    if k = k1 then (k, v) :: rest
    else if k < k1 then (k, v) :: (k1, v1) :: rest
    else (k1, v1) :: mapSet rest k v

/-- The call `m.erase(it)` for the iterator at key `k`. -/
def mapErase {κ V : Type} [DecidableEq κ] (m : List (κ × V)) (k : κ) : List (κ × V) :=
  match m with
  | [] => []
  | (k1, v1) :: rest => if k = k1 then rest else (k1, v1) :: mapErase rest k

/-- The nested assignment `streamables[a][b] = p`; `operator[]` creates the
inner map when the outer key is new. -/
def streamsSet (m : Streams) (a : Int) (b : Nat) (p : BeamPtr) : Streams :=
  mapSet m a (mapSet ((mapFind m a).getD []) b p)

/-- The entry stored in the stream table under `(source_id, stream_id)`, if any. -/
def streamEntry (m : Streams) (source_id : Int) (stream_id : Nat) : Option BeamPtr :=
  (mapFind m source_id).bind (fun inner => mapFind inner stream_id)

/-- Modelled from the spec: the `Beam` constructor (`Beam.cpp` is not part of
the translation unit).  The new object lives at the address `p` that `new`
returned, its id is the slot index it was given and it carries the `networked`
flag it was given; every other attribute is whatever the constructor computes
from the remaining arguments, supplied here as `proto`. -/
def newBeam (p : BeamPtr) (proto : Beam Box) (truck_num : Int) (networked : Bool) : Beam Box :=
  { proto with addr := p, trucknum := truck_num, networked := networked }

/-- Modelled from the spec: `Beam::desactivate` (`Beam.cpp` is not part of the
translation unit), "force out of dormancy (mark active, clear the leading
designation)": the state becomes `DESACTIVATED` ("not leading but active") and
the sleep counter restarts. -/
def Beam.desactivate (b : Beam Box) : Beam Box :=
  { b with state := DESACTIVATED, sleepcount := 0 }

/-- The test written out at both places where the sleep graph asks whether a
truck may be woken or put to sleep: `SLEEPING`, `MAYSLEEP`, `GOSLEEP`, or
`DESACTIVATED` with `sleepcount >= 5`. -/
def Beam.dormantEligible (b : Beam Box) : Bool :=
  b.state == SLEEPING || b.state == MAYSLEEP || b.state == GOSLEEP ||
    (b.state == DESACTIVATED && decide (5 ≤ b.sleepcount))

/-- The first `(source, stream)` entry, in iteration order of the two nested
maps, whose pointer equals `p`. -/
def findStream (m : Streams) (p : BeamPtr) : Option (Int × Nat) :=
  match m with
  | [] => none
  | (src, inner) :: rest =>
    match inner.find? (fun e => e.2 == p) with
    | some e => some (src, e.1)
    | none => findStream rest p

/-- The call `it1->second.erase(it2)` for the entry `(src, k)`. -/
def streamsErase (m : Streams) (src : Int) (k : Nat) : Streams :=
  match m with
  | [] => []
  | (a, inner) :: rest =>
    if a = src then (a, mapErase inner k) :: rest else (a, inner) :: streamsErase rest src k

namespace BeamFactory

/-- The constructor: every slot null, no focus, mark at `0`, empty table. -/
def init (env : Env Box) : BeamFactory Box :=
  { trucks := List.replicate env.MAX_TRUCKS none
    free_truck := 0
    current_truck := -1
    previous_truck := -1
    forcedActive := false
    simulatedTruck := 0
    streamables := []
    events := [] }

/-- The array read `trucks[t]`. -/
def truckAt (s : BeamFactory Box) (t : Int) : Option (Beam Box) :=
  if t < 0 then none else s.trucks.getD t.toNat none

/-- The array write `trucks[t] = b`. -/
def setTruck (s : BeamFactory Box) (t : Int) (b : Option (Beam Box)) : BeamFactory Box :=
  if t < 0 then s else { s with trucks := s.trucks.set t.toNat b }

/-- Append one observable call to the trace. -/
def emit (s : BeamFactory Box) (e : Event) : BeamFactory Box :=
  { s with events := s.events ++ [e] }

/-- Embedding of `BeamFactory::getTruck`. -/
def getTruck (s : BeamFactory Box) (number : Int) : Option (Beam Box) :=
  if 0 ≤ number ∧ number < s.free_truck then s.truckAt number else none

/-- Embedding of `BeamFactory::getFreeTruckSlot`: the first `t < MAX_TRUCKS` with
`!trucks[t] && t >= free_truck`; on a hit the mark moves to `t + 1`. -/
def getFreeTruckSlot (env : Env Box) (s : BeamFactory Box) : Int × BeamFactory Box :=
  match (List.range env.MAX_TRUCKS).find?
      (fun (t : Nat) => (s.truckAt (t : Int)).isNone && decide (s.free_truck ≤ (t : Int))) with
  | some t =>
    ((t : Int), if s.free_truck ≤ (t : Int) then { s with free_truck := (t : Int) + 1 } else s)
  | none => (-1, s)

/-- Embedding of `BeamFactory::_deleteTruck`.  The wait on the worker changes no member. -/
def _deleteTruck (b : Option (Beam Box)) (s : BeamFactory Box) : BeamFactory Box :=
  match b with
  | none => s
  | some x =>
    ((s.setTruck x.trucknum none).emit (Event.deleteBeam x.addr)).emit
      Event.triggerUpdateVehicleList

/-- Embedding of `BeamFactory::removeBeam`. -/
def removeBeam (b : Option (Beam Box)) (s : BeamFactory Box) : Bool × BeamFactory Box :=
  match findStream s.streamables (ptrOf b) with
  | some (src, k) =>
    let s1 := s.emit (Event.removeStream src k)
    let s2 := _deleteTruck b s1
    let s3 := { s2 with streamables := streamsErase s2.streamables src k }
    (true, s3.emit Event.triggerUpdateVehicleList)
  | none => (false, s)

/-- The first statement of `setCurrentTruck`: the truck in focus, if
`current_truck` names a live slot, is desactivated. -/
def desactivateCurrent (s : BeamFactory Box) : BeamFactory Box :=
  if 0 ≤ s.current_truck ∧ s.current_truck < s.free_truck then
    match s.truckAt s.current_truck with
    | some b => s.setTruck s.current_truck (some b.desactivate)
    | none => s
  else s

/-- The last statement of `setCurrentTruck`: with a frame listener present,
`ChangedCurrentVehicle` is called with the pointers in the slots
`previous_truck` and `current_truck`, null for a negative index. -/
def notifyCurrentVehicle (env : Env Box) (s : BeamFactory Box) : BeamFactory Box :=
  if env.frameListener then
    if 0 ≤ s.previous_truck ∧ 0 ≤ s.current_truck then
      s.emit (Event.ChangedCurrentVehicle (ptrOf (s.truckAt s.previous_truck))
        (ptrOf (s.truckAt s.current_truck)))
    else if 0 ≤ s.previous_truck then
      s.emit (Event.ChangedCurrentVehicle (ptrOf (s.truckAt s.previous_truck)) 0)
    else if 0 ≤ s.current_truck then
      s.emit (Event.ChangedCurrentVehicle 0 (ptrOf (s.truckAt s.current_truck)))
    else s.emit (Event.ChangedCurrentVehicle 0 0)
  else s

/-- Embedding of `BeamFactory::setCurrentTruck`. -/
def setCurrentTruck (env : Env Box) (new_truck : Int) (s : BeamFactory Box) : BeamFactory Box :=
  let s1 := desactivateCurrent s
  notifyCurrentVehicle env
    { s1 with previous_truck := s1.current_truck, current_truck := new_truck }

/-- Embedding of `BeamFactory::removeTruck(int)`.  The guard lets
`truck == free_truck` through; when that index is `MAX_TRUCKS` the source reads
`trucks[MAX_TRUCKS]`, one past the array, which has no defined behaviour.  This
function gives the behaviour of the calls whose reads stay inside the array,
which `removeTruckInBounds` singles out. -/
def removeTruck (env : Env Box) (truck : Int) (s : BeamFactory Box) : BeamFactory Box :=
  if truck < 0 ∨ truck > s.free_truck then s
  else
    let s1 := if s.current_truck = truck then setCurrentTruck env (-1) s else s
    let r := removeBeam (s1.truckAt truck) s1
    if r.1 then r.2 else _deleteTruck (r.2.truckAt truck) r.2

/-- Whether the reads `trucks[truck]` of `removeTruck(truck)` stay inside the
array `trucks[0 .. MAX_TRUCKS)`: the call returns at its guard, or `truck` is
an index of the array. -/
def removeTruckInBounds (env : Env Box) (truck : Int) (s : BeamFactory Box) : Bool :=
  decide (truck < 0 ∨ truck > s.free_truck ∨ truck < (env.MAX_TRUCKS : Int))

/-- Whether the write `trucks[b->trucknum] = 0` of `_deleteTruck(b)` stays
inside the array: `b` is null, or its id is an index of the array. -/
def _deleteTruckInBounds (env : Env Box) (b : Option (Beam Box)) : Bool :=
  match b with
  | none => true
  | some x => decide (0 ≤ x.trucknum ∧ x.trucknum < (env.MAX_TRUCKS : Int))

/-- Embedding of `BeamFactory::createLocal`; `p` is the address `new Beam` returns.  The
result is the returned pointer. -/
def createLocal (env : Env Box) (p : BeamPtr) (proto : Beam Box) (s : BeamFactory Box) :
    BeamPtr × BeamFactory Box :=
  let r := getFreeTruckSlot env s
  if r.1 = -1 then (0, r.2)
  else
    let b := newBeam p proto r.1 false
    let s1 := r.2.emit (Event.newBeam p r.1 false)
    let s2 := s1.setTruck r.1 (some b)
    let s3 := { s2 with streamables := streamsSet s2.streamables (-1) (toUnsigned (10 + r.1)) p }
    (p, s3.emit Event.triggerUpdateVehicleList)

/-- Embedding of `BeamFactory::createRemoteInstance`; `p` is the address `new Beam` returns.
The result is the returned pointer. -/
def createRemoteInstance (env : Env Box) (p : BeamPtr) (proto : Beam Box) (reg : stream_reg_t)
    (s : BeamFactory Box) : BeamPtr × BeamFactory Box :=
  if !env.checkResourceLoaded reg.name then
    (0, { s with streamables :=
            streamsSet s.streamables reg.sourceid (toUnsigned reg.streamid) 0 })
  else
    let r := getFreeTruckSlot env s
    if r.1 = -1 then (0, r.2)
    else
      let b := newBeam p proto r.1 true
      let s1 := r.2.emit (Event.newBeam p r.1 true)
      let s2 := s1.setTruck r.1
        (some { b with sourceid := reg.sourceid, streamid := reg.streamid })
      let s3 := { s2 with streamables :=
                    streamsSet s2.streamables reg.sourceid (toUnsigned reg.streamid) p }
      (p, s3.emit Event.triggerUpdateVehicleList)

/-- Embedding of `BeamFactory::getBeam`; the result is the returned pointer. -/
def getBeam (s : BeamFactory Box) (source_id stream_id : Int) : BeamPtr :=
  match mapFind s.streamables source_id with
  | some inner =>
    if !inner.isEmpty then
      match mapFind inner (toUnsigned stream_id) with
      | some p => if p ≠ 0 then p else 0
      | none => 0
    else 0
  | none => 0

/-- Embedding of `BeamFactory::predictTruckIntersectionCollAABB` on the two objects. -/
def predictIntersectionColl (env : Env Box) (a b : Beam Box) : Bool :=
  if a.predictedCollisionBoundingBoxes.isEmpty && b.predictedCollisionBoundingBoxes.isEmpty then
    env.intersects a.predictedBoundingBox b.predictedBoundingBox
  else if a.predictedCollisionBoundingBoxes.isEmpty then
    b.predictedCollisionBoundingBoxes.any (fun it => env.intersects it a.predictedBoundingBox)
  else if b.predictedCollisionBoundingBoxes.isEmpty then
    a.predictedCollisionBoundingBoxes.any (fun it => env.intersects it b.predictedBoundingBox)
  else
    a.predictedCollisionBoundingBoxes.any (fun it_a =>
      b.predictedCollisionBoundingBoxes.any (fun it_b => env.intersects it_a it_b))

/-- Embedding of `BeamFactory::predictTruckIntersectionCollAABB(a, b)` on slot indices; both
slots are occupied at every call site. -/
def predictTruckIntersectionCollAABB (env : Env Box) (s : BeamFactory Box) (a b : Nat) : Bool :=
  match s.truckAt (a : Int), s.truckAt (b : Int) with
  | some x, some y => predictIntersectionColl env x y
  | _, _ => false

/-- Embedding of `BeamFactory::checkForActive(j, sleepy)`; the bitset is the list of set
indices.  The result is the return value and the bitset on return. -/
def checkForActive (env : Env Box) (s : BeamFactory Box) :
    Nat → Nat → List Nat → Option (Bool × List Nat)
  | 0, _, _ => none
  | fuel + 1, j, sleepy =>
    let sleepy1 := j :: sleepy
    match (List.range s.free_truck.toNat).find? (fun (t : Nat) =>
        (s.truckAt (t : Int)).isSome && !sleepy1.contains t &&
          predictTruckIntersectionCollAABB env s t j) with
    | none => some (false, sleepy1)
    | some t =>
      match s.truckAt (t : Int) with
      | some b =>
        if b.dormantEligible then checkForActive env s fuel t sleepy1 else some (true, sleepy1)
      | none => some (true, sleepy1)

/-- The body of the `if` in the loop of `recursiveActivation`, up to the
recursive call: truck `t` (the object `b`) is desactivated, and when
`getTruck(simulatedTruck)` is not null the `disableDrag` of truck `t` becomes
`getTruck(simulatedTruck)->driveable == AIRPLANE`. -/
def wakeTruck (env : Env Box) (s : BeamFactory Box) (t : Nat) (b : Beam Box) : BeamFactory Box :=
  let s1 := s.setTruck (t : Int) (some b.desactivate)
  match s1.getTruck s1.simulatedTruck with
  | some sim =>
    match s1.truckAt (t : Int) with
    | some b1 =>
      s1.setTruck (t : Int) (some { b1 with disableDrag := decide (sim.driveable = env.AIRPLANE) })
    | none => s1
  | none => s1

/-- One iteration of the loop of `recursiveActivation(j)` at index `t`;
`recurse` is the recursive call. -/
def recursiveActivationStep (env : Env Box)
    (recurse : Nat → BeamFactory Box → Option (BeamFactory Box))
    (j : Nat) (s : BeamFactory Box) (t : Nat) : Option (BeamFactory Box) :=
  if t = j then some s
  else
    match s.truckAt (t : Int) with
    | none => some s
    | some b =>
      if b.dormantEligible && predictTruckIntersectionCollAABB env s t j then
        recurse t (wakeTruck env s t b)
      else some s

/-- Embedding of `BeamFactory::recursiveActivation(j)`. -/
def recursiveActivation (env : Env Box) :
    Nat → Nat → BeamFactory Box → Option (BeamFactory Box)
  | 0, _, _ => none
  | fuel + 1, j, s =>
    match s.truckAt (j : Int) with
    | none => some s
    | some bj =>
      if bj.state > DESACTIVATED then some s
      else
        (List.range s.free_truck.toNat).foldlM
          (recursiveActivationStep env (recursiveActivation env fuel) j) s

/-- One iteration of the inner loop of `checkSleepingState`: a live truck whose
bit is set goes to `GOSLEEP`. -/
def putToSleepStep (sleepy : List Nat) (s : BeamFactory Box) (i : Nat) : BeamFactory Box :=
  match s.truckAt (i : Int) with
  | some b =>
    if sleepy.contains i then s.setTruck (i : Int) (some { b with state := GOSLEEP }) else s
  | none => s

/-- The inner loop of `checkSleepingState`, over all indices below the mark. -/
def putToSleep (sleepy : List Nat) (s : BeamFactory Box) : BeamFactory Box :=
  (List.range s.free_truck.toNat).foldl (putToSleepStep sleepy) s

/-- One iteration of the first loop of `checkSleepingState`. -/
def wakeStep (env : Env Box) (fuel : Nat) (s : BeamFactory Box) (t : Nat) :
    Option (BeamFactory Box) :=
  match s.truckAt (t : Int) with
  | some b =>
    if b.state ≤ DESACTIVATED ∧ ((t : Int) = s.simulatedTruck ∨ b.sleepcount ≤ 7) then
      recursiveActivation env fuel t s
    else some s
  | none => some s

/-- One iteration of the second loop of `checkSleepingState`. -/
def sleepStep (env : Env Box) (fuel : Nat) (s : BeamFactory Box) (t : Nat) :
    Option (BeamFactory Box) :=
  match s.truckAt (t : Int) with
  | some b =>
    if b.state = MAYSLEEP then
      match checkForActive env s fuel t [] with
      | none => none
      | some (true, _) => some s
      | some (false, sleepy) => some (putToSleep sleepy s)
    else some s
  | none => some s

/-- The first statement of `checkSleepingState`: `disableDrag` of
`getTruck(simulatedTruck)`, when that is not null, is cleared. -/
def clearDisableDrag (s : BeamFactory Box) : BeamFactory Box :=
  match s.getTruck s.simulatedTruck with
  | some sim => s.setTruck s.simulatedTruck (some { sim with disableDrag := false })
  | none => s

/-- Embedding of `BeamFactory::checkSleepingState`. -/
def checkSleepingState (env : Env Box) (fuel : Nat) (s : BeamFactory Box) :
    Option (BeamFactory Box) :=
  let s0 := clearDisableDrag s
  match (List.range s0.free_truck.toNat).foldlM (wakeStep env fuel) s0 with
  | none => none
  | some s1 =>
    if !s1.forcedActive then (List.range s1.free_truck.toNat).foldlM (sleepStep env fuel) s1
    else some s1

/-- The loop of `findTruckInsideBox` over the remaining indices, with the
current value of `id`; `inside b` stands for
`collisions->isInside(b->nodes[0].AbsPosition, inst, box)`. -/
def findTruckInsideBoxLoop (inside : Beam Box → Bool) (s : BeamFactory Box) :
    List Nat → Int → Int
  | [], id => id
  | t :: rest, id =>
    match s.truckAt (t : Int) with
    | none => findTruckInsideBoxLoop inside s rest id
    | some b =>
      if inside b then
        if id = -1 then findTruckInsideBoxLoop inside s rest (t : Int) else -1
      else findTruckInsideBoxLoop inside s rest id

/-- Embedding of `BeamFactory::findTruckInsideBox`; the collision query for the
given `inst` and `box`, applied to the reference position of a truck, is the
parameter `inside`. -/
def findTruckInsideBox (inside : Beam Box → Bool) (s : BeamFactory Box) : Int :=
  findTruckInsideBoxLoop inside s (List.range s.free_truck.toNat) (-1)

/-- Embedding of `BeamFactory::localUserAttributesChanged`: when the table has
an entry for source `-1`, the assignment
`streamables[new_id][0] = streamables[-1][0]`; reading `streamables[-1][0]`
with `operator[]` creates that entry, null, when it is missing. -/
def localUserAttributesChanged (new_id : Int) (s : BeamFactory Box) : BeamFactory Box :=
  match mapFind s.streamables (-1) with
  | some _ =>
    let v := (streamEntry s.streamables (-1) 0).getD 0
    let m1 := streamsSet s.streamables (-1) 0 v
    { s with streamables := streamsSet m1 new_id 0 v }
  | none => s

/-- The slot that owns the object at address `p`, if any. -/
def slotOf (s : BeamFactory Box) (p : BeamPtr) : Option Nat :=
  (List.range s.trucks.length).find? (fun (t : Nat) =>
    match s.truckAt (t : Int) with
    | some b => b.addr == p
    | none => false)

/-- Embedding of `BeamFactory::removeInstance(Beam*)`: null is ignored, otherwise
`deleteNetTruck` is called on the object (the call `_deleteTruck(b)` is
commented out in the source).  A pointer that no slot owns is dangling; the
call is then undefined and is modelled as changing nothing. -/
def removeInstanceBeam (env : Env Box) (s : BeamFactory Box) (p : BeamPtr) : BeamFactory Box :=
  if p = 0 then s
  else
    match slotOf s p with
    | some t =>
      match s.truckAt (t : Int) with
      | some b =>
        (s.setTruck (t : Int) (some (env.deleteNetTruck b))).emit (Event.deleteNetTruck p)
      | none => s
    | none => s

/-- Embedding of `BeamFactory::removeInstance(stream_del_t*)`. -/
def removeInstance (env : Env Box) (del : stream_del_t) (s : BeamFactory Box) :
    BeamFactory Box :=
  match mapFind s.streamables del.sourceid with
  | none => s
  | some inner =>
    if inner.isEmpty then s
    else if del.streamid = -1 then
      inner.foldl (fun acc e => removeInstanceBeam env acc e.2) s
    else
      match mapFind inner (toUnsigned del.streamid) with
      | some p => removeInstanceBeam env s p
      | none => s

/-- The test of the selection loop of `calcPhysics` at index `t`: the slot is
occupied and `trucks[t]->state <= DESACTIVATED`. -/
def activeOrBetterAt (s : BeamFactory Box) (t : Nat) : Bool :=
  match s.truckAt (t : Int) with
  | some b => decide (b.state ≤ DESACTIVATED)
  | none => false

/-- The value that `calcPhysics` gives to `simulatedTruck`: `current_truck`,
and when that is `-1` the first index below the mark whose slot is occupied by
a truck with `state <= DESACTIVATED` (still `-1` when there is none). -/
def selectSimulatedTruck (s : BeamFactory Box) : Int :=
  if s.current_truck = -1 then
    match (List.range s.free_truck.toNat).find? (activeOrBetterAt s) with
    | some t => (t : Int)
    | none => -1
  else s.current_truck

/-- Embedding of `BeamFactory::calcPhysics`, as far as it reads or writes the
factory: the choice of `simulatedTruck` and the call of `frameStep` on
`trucks[simulatedTruck]` when `0 <= simulatedTruck < free_truck`.  The frame
counter, the clock, the replay and the per-truck calls of the last loop
(`calcNetwork`, `engine->update`, `sendStreamData`) belong to collaborators. -/
def calcPhysics (s : BeamFactory Box) : BeamFactory Box :=
  let s1 := { s with simulatedTruck := selectSimulatedTruck s }
  if 0 ≤ s1.simulatedTruck ∧ s1.simulatedTruck < s1.free_truck then
    s1.emit (Event.frameStep (ptrOf (s1.truckAt s1.simulatedTruck)))
  else s1

end BeamFactory

/-! ### Operation sequences on the registry -/

/-- The operations that allocate, populate and release slots. -/
inductive Op (Box : Type) where
  | createLocal (p : BeamPtr) (proto : Beam Box)
  | createRemoteInstance (p : BeamPtr) (proto : Beam Box) (reg : stream_reg_t)
  | removeTruck (truck : Int)
  | _deleteTruck (b : Option (Beam Box))

/-- The state after one operation. -/
def Op.apply (env : Env Box) (s : BeamFactory Box) : Op Box → BeamFactory Box
  | Op.createLocal p proto => (BeamFactory.createLocal env p proto s).2
  | Op.createRemoteInstance p proto reg => (BeamFactory.createRemoteInstance env p proto reg s).2
  | Op.removeTruck truck => BeamFactory.removeTruck env truck s
  | Op._deleteTruck b => BeamFactory._deleteTruck b s

/-- The state after a sequence of operations, first operation first. -/
def run (env : Env Box) (s : BeamFactory Box) (ops : List (Op Box)) : BeamFactory Box :=
  ops.foldl (Op.apply env) s

/-- Whether the operation, called in state `s`, keeps the array accesses that
depend on its argument inside `trucks[0 .. MAX_TRUCKS)`. -/
def Op.inBounds (env : Env Box) (s : BeamFactory Box) : Op Box → Bool
  | Op.createLocal _ _ => true
  | Op.createRemoteInstance _ _ _ => true
  | Op.removeTruck truck => BeamFactory.removeTruckInBounds env truck s
  | Op._deleteTruck b => BeamFactory._deleteTruckInBounds env b

/-- Whether every operation of the sequence, run from `s`, stays inside the
array: the sequences on which the source has defined behaviour. -/
def inBounds (env : Env Box) (s : BeamFactory Box) : List (Op Box) → Bool
  | [] => true
  | o :: rest => o.inBounds env s && inBounds env (o.apply env s) rest

/-- The slot index that the operation obtains from `getFreeTruckSlot` in state
`s`; `none` when it does not call the allocator or the allocator returns `-1`. -/
def Op.allocates (env : Env Box) (s : BeamFactory Box) : Op Box → Option Int
  | Op.createLocal _ _ =>
    if (BeamFactory.getFreeTruckSlot env s).1 = -1 then none
    else some (BeamFactory.getFreeTruckSlot env s).1
  | Op.createRemoteInstance _ _ reg =>
    if !env.checkResourceLoaded reg.name then none
    else if (BeamFactory.getFreeTruckSlot env s).1 = -1 then none
    else some (BeamFactory.getFreeTruckSlot env s).1
  | Op.removeTruck _ => none
  | Op._deleteTruck _ => none

/-- No operation of the sequence, run from `s`, allocates slot `i`. -/
def noAlloc (env : Env Box) (s : BeamFactory Box) (ops : List (Op Box)) (i : Int) : Prop :=
  match ops with
  | [] => True
  | o :: rest => o.allocates env s ≠ some i ∧ noAlloc env (o.apply env s) rest i

/-- The number of successful allocations in the sequence, run from `s`. -/
def allocations (env : Env Box) (s : BeamFactory Box) (ops : List (Op Box)) : Nat :=
  match ops with
  | [] => 0
  | o :: rest =>
    (if (o.allocates env s).isSome then 1 else 0) + allocations env (o.apply env s) rest

/-- The occupied slots whose instance carries the stream key `(sourceid, streamid)`. -/
def carriers (s : BeamFactory Box) (sourceid streamid : Int) : List Nat :=
  (List.range s.trucks.length).filter (fun (t : Nat) =>
    match s.truckAt (t : Int) with
    | some b => decide (b.sourceid = sourceid) && decide (b.streamid = streamid)
    | none => false)

/-- Is the event a "current vehicle changed" notification? -/
def Event.isChangedCurrentVehicle : Event → Bool
  | Event.ChangedCurrentVehicle _ _ => true
  | _ => false

/-- The high-water mark invariant: the array has `MAX_TRUCKS` slots, the mark
lies in `[0, MAX_TRUCKS]`, and every slot at or above the mark is empty. -/
def HighWater (env : Env Box) (s : BeamFactory Box) : Prop :=
  s.trucks.length = env.MAX_TRUCKS ∧ 0 ≤ s.free_truck ∧ s.free_truck ≤ (env.MAX_TRUCKS : Int) ∧
    ∀ t : Int, s.free_truck ≤ t → s.truckAt t = none

/-- The id invariant: an occupied slot `i` holds an instance whose id is `i`. -/
def IdsMatch (s : BeamFactory Box) : Prop :=
  ∀ (i : Int) (b : Beam Box), s.truckAt i = some b → b.trucknum = i

/-- A transition that occupies no slot: the mark and the array size stay, and
an instance found in a slot afterwards was in that slot before, with the same
id. -/
def Releases (s s2 : BeamFactory Box) : Prop :=
  s2.free_truck = s.free_truck ∧ s2.trucks.length = s.trucks.length ∧
    ∀ (i : Int) (b2 : Beam Box), s2.truckAt i = some b2 →
      ∃ b, s.truckAt i = some b ∧ b2.trucknum = b.trucknum

/-- A transition that occupies slot `t` with the new instance `b`: `t` is the
least empty slot at or above the mark, the mark moves past it, and no other
slot changes. -/
def Allocates (env : Env Box) (s s2 : BeamFactory Box) (t : Nat) (b : Beam Box) : Prop :=
  t < env.MAX_TRUCKS ∧ s.free_truck ≤ (t : Int) ∧ s.truckAt (t : Int) = none ∧
    (∀ u : Nat, u < t → s.free_truck ≤ (u : Int) → s.truckAt (u : Int) ≠ none) ∧
    s2.trucks = s.trucks.set t (some b) ∧ s2.free_truck = (t : Int) + 1 ∧ b.trucknum = (t : Int)

/-! ### Relations between registry states used for the sleep graph -/

/-- Two trucks have the same predicted volumes. -/
def Beam.sameBoxes (b b2 : Beam Box) : Prop :=
  b2.predictedBoundingBox = b.predictedBoundingBox ∧
    b2.predictedCollisionBoundingBoxes = b.predictedCollisionBoundingBoxes

/-- Same predicted volumes and the same answer to the dormancy test. -/
def Beam.sameGraph (b b2 : Beam Box) : Prop :=
  b2.dormantEligible = b.dormantEligible ∧ b.sameBoxes b2

/-- Same predicted volumes, state and sleep counter. -/
def Beam.sameState (b b2 : Beam Box) : Prop :=
  b2.state = b.state ∧ b2.sleepcount = b.sleepcount ∧ b.sameBoxes b2

/-- Either unchanged, or a dormant-eligible truck that has been desactivated. -/
def Beam.wakes (b b2 : Beam Box) : Prop :=
  b2 = b ∨ (b.dormantEligible = true ∧ b2.state = DESACTIVATED ∧ b2.sleepcount = 0 ∧
    b.sameBoxes b2)

/-- Either unchanged, or a dormant-eligible truck whose state was set to `GOSLEEP`. -/
def Beam.sleeps (b b2 : Beam Box) : Prop :=
  b2 = b ∨ (b.dormantEligible = true ∧ b2 = { b with state := GOSLEEP })

/-- A relation on trucks, lifted to slots: both empty, or both occupied by
related trucks. -/
def SlotRel (R : Beam Box → Beam Box → Prop) (o o2 : Option (Beam Box)) : Prop :=
  match o, o2 with
  | none, none => True
  | some b, some b2 => R b b2
  | _, _ => False

/-- A relation on trucks, lifted to registry states with the same mark, the
same stepped truck and the same force-all-active flag. -/
def Lifted (R : Beam Box → Beam Box → Prop) (s s2 : BeamFactory Box) : Prop :=
  s2.free_truck = s.free_truck ∧ s2.simulatedTruck = s.simulatedTruck ∧
    s2.forcedActive = s.forcedActive ∧ ∀ t : Int, SlotRel R (s.truckAt t) (s2.truckAt t)

/-- No dormant-eligible live truck other than `j` has a predicted volume
intersecting that of `j`. -/
def Closed (env : Env Box) (s : BeamFactory Box) (j : Nat) : Prop :=
  ∀ t : Nat, (t : Int) < s.free_truck → t ≠ j → ∀ bt : Beam Box, s.truckAt (t : Int) = some bt →
    bt.dormantEligible = true → BeamFactory.predictTruckIntersectionCollAABB env s t j = false

/-- What a call `recursiveActivation(j)` that takes `s` to `s2` achieves: trucks
are only woken; if the call got past its guard, `j` has no dormant-eligible
neighbour left; and neither has any truck that the call changed. -/
def WakeSpec (env : Env Box) (j : Nat) (s s2 : BeamFactory Box) : Prop :=
  Lifted Beam.wakes s s2 ∧
    ((∃ bj : Beam Box, s.truckAt (j : Int) = some bj ∧ bj.state ≤ DESACTIVATED) →
      Closed env s2 j) ∧
    ∀ t : Nat, s2.truckAt (t : Int) ≠ s.truckAt (t : Int) → Closed env s2 t

/-- The condition under which the first loop of `checkSleepingState` starts a
recursive activation at slot `j`. -/
def SourceNow (s : BeamFactory Box) (j : Nat) : Prop :=
  ∃ b : Beam Box, s.truckAt (j : Int) = some b ∧ b.state ≤ DESACTIVATED ∧
    ((j : Int) = s.simulatedTruck ∨ b.sleepcount ≤ 7)

/-- Every truck that would start a recursive activation has no dormant-eligible
neighbour left. -/
def WakeClosed (env : Env Box) (s : BeamFactory Box) : Prop :=
  ∀ j : Nat, (j : Int) < s.free_truck → SourceNow s j → Closed env s j

/-- Every live `MAYSLEEP` truck is one for which `checkForActive` returns true. -/
def SleepStable (env : Env Box) (fuel : Nat) (s : BeamFactory Box) : Prop :=
  ∀ t : Nat, (t : Int) < s.free_truck → ∀ b : Beam Box, s.truckAt (t : Int) = some b →
    b.state = MAYSLEEP → ∃ sl, BeamFactory.checkForActive env s fuel t [] = some (true, sl)

/-- Truck `t` is a live dormant-eligible truck other than `u` whose predicted
volume intersects that of `u`: the test under which the loop of
`recursiveActivation(u)` wakes `t`. -/
def WakeEdge (env : Env Box) (s : BeamFactory Box) (u t : Nat) : Prop :=
  t ≠ u ∧ (t : Int) < s.free_truck ∧ ∃ b : Beam Box, s.truckAt (t : Int) = some b ∧
    b.dormantEligible = true ∧ BeamFactory.predictTruckIntersectionCollAABB env s t u = true

/-- Truck `t` is reachable from `j` by a chain of predicted-volume intersections
all of whose members after `j` are live and dormant-eligible in `s`. -/
inductive WakeReach (env : Env Box) (s : BeamFactory Box) (j : Nat) : Nat → Prop where
  | direct (t : Nat) : WakeEdge env s j t → WakeReach env s j t
  | next (u t : Nat) : WakeReach env s j u → WakeEdge env s u t → WakeReach env s j t

/-- The number of indices below the mark whose bit is not set in `sleepy`. -/
def unvisited (s : BeamFactory Box) (sleepy : List Nat) : Nat :=
  (List.range s.free_truck.toNat).countP (fun (t : Nat) => !sleepy.contains t)

/-- The number of live dormant-eligible trucks below the mark. -/
def dormantCount (s : BeamFactory Box) : Nat :=
  (List.range s.free_truck.toNat).countP (fun (t : Nat) =>
    match s.truckAt (t : Int) with
    | some b => b.dormantEligible
    | none => false)

/-- The number of occupied slots below the mark. -/
def liveCount (s : BeamFactory Box) : Nat :=
  (List.range s.free_truck.toNat).countP (fun (t : Nat) => (s.truckAt (t : Int)).isSome)

/-! ### The worker handoff -/

/-- The two threads of a factory in `THREAD_MULTI` mode. -/
inductive Tid where
  | orchestrator
  | worker
deriving DecidableEq, Repr

/-- Program points of `threadstart`: the statement of the body of its
`while (1)` loop that the worker executes next. -/
inductive WorkerPc where
  /-- Statement `MUTEX_LOCK(&bf->work_done_mutex)` -/
  | lockWork
  /-- Statement `MUTEX_LOCK(&bf->thread_done_mutex)` -/
  | lockDone
  /-- Statement `bf->thread_done = true` -/
  | setDone
  /-- Statement `MUTEX_UNLOCK(&bf->thread_done_mutex)` -/
  | unlockDone
  /-- Statement `pthread_cond_signal(&bf->thread_done_cv)` -/
  | signalDone
  /-- The test of `while (!bf->work_done)` -/
  | testWork
  /-- Inside `pthread_cond_wait(&bf->work_done_cv, &bf->work_done_mutex)`: the
  mutex has been released and is taken again before the call returns -/
  | waitWork
  /-- Statement `bf->work_done = false` -/
  | clearWork
  /-- Statement `MUTEX_UNLOCK(&bf->work_done_mutex)` -/
  | unlockWork
  /-- Statements `truck = bf->getTruck(simulatedTruck); if (truck)` -/
  | readTruck
  /-- Inside `truck->threadentry()`: the worker is stepping the truck -/
  | threadentry
deriving DecidableEq, Repr

/-- Modelled from the spec: the tick of the orchestrator as far as the handoff
goes (the code of the tick is not in this file): "Prepare", then "Signal
start", then "Wait for sync" before it touches the designated instance, tick
after tick.  The statements of the three phases are those of
`_WorkerPrepareStart`, `_WorkerSignalStart` and `_WorkerWaitForSync` in
`THREAD_MULTI` mode; the access behind the barrier is, in this file, the
`trucks[b->trucknum] = 0; delete b;` of `_deleteTruck`. -/
inductive OrchPc where
  /-- In `_WorkerPrepareStart`: `MUTEX_LOCK(&thread_done_mutex)` -/
  | prepareLock
  /-- In `_WorkerPrepareStart`: `thread_done = false` -/
  | prepareSet
  /-- In `_WorkerPrepareStart`: `MUTEX_UNLOCK(&thread_done_mutex)` -/
  | prepareUnlock
  /-- In `_WorkerSignalStart`: `MUTEX_LOCK(&work_done_mutex)` -/
  | startLock
  /-- In `_WorkerSignalStart`: `work_done = true` -/
  | startSet
  /-- In `_WorkerSignalStart`: `MUTEX_UNLOCK(&work_done_mutex)` -/
  | startUnlock
  /-- In `_WorkerSignalStart`: `pthread_cond_signal(&work_done_cv)` -/
  | startSignal
  /-- In `_WorkerWaitForSync`: `MUTEX_LOCK(&thread_done_mutex)` -/
  | syncLock
  /-- In `_WorkerWaitForSync`: the test of `while (!thread_done)` -/
  | syncTest
  /-- In `_WorkerWaitForSync`: inside `pthread_cond_wait(&thread_done_cv,
  &thread_done_mutex)`, the mutex released and to be taken again -/
  | syncWait
  /-- In `_WorkerWaitForSync`: `MUTEX_UNLOCK(&thread_done_mutex)` -/
  | syncUnlock
  /-- Past the barrier: the orchestrator accesses the designated instance -/
  | touch
deriving DecidableEq, Repr

/-- The handoff state of a factory in `THREAD_MULTI` mode: the two flags, the
owner of each of the two mutexes, and where each thread is. -/
structure Handoff where
  thread_done : Bool
  work_done : Bool
  thread_done_mutex : Option Tid
  work_done_mutex : Option Tid
  worker : WorkerPc
  orchestrator : OrchPc
deriving DecidableEq, Repr

/-- The handoff state when the constructor returns: `thread_done(true)`,
`work_done(false)`, both mutexes free, the worker thread created by
`pthread_create` and about to enter its loop, the orchestrator before its
first tick. -/
def Handoff.start : Handoff :=
  { thread_done := true
    work_done := false
    thread_done_mutex := none
    work_done_mutex := none
    worker := WorkerPc.lockWork
    orchestrator := OrchPc.prepareLock }

/-- One statement of the worker, `threadstart`; `none` when the worker is
blocked on a mutex.  `truck` is the pointer that `bf->getTruck(simulatedTruck)`
returns.  A thread inside `pthread_cond_wait` may return as soon as it can take
the mutex again (a wakeup without a signal is allowed), and a signal changes
nothing else. -/
def threadstartStep (truck : BeamPtr) (h : Handoff) : Option Handoff :=
  match h.worker with
  | WorkerPc.lockWork =>
    if h.work_done_mutex = none then
      some { h with work_done_mutex := some Tid.worker, worker := WorkerPc.lockDone }
    else none
  | WorkerPc.lockDone =>
    if h.thread_done_mutex = none then
      some { h with thread_done_mutex := some Tid.worker, worker := WorkerPc.setDone }
    else none
  | WorkerPc.setDone => some { h with thread_done := true, worker := WorkerPc.unlockDone }
  | WorkerPc.unlockDone => some { h with thread_done_mutex := none, worker := WorkerPc.signalDone }
  | WorkerPc.signalDone => some { h with worker := WorkerPc.testWork }
  | WorkerPc.testWork =>
    if h.work_done then some { h with worker := WorkerPc.clearWork }
    else some { h with work_done_mutex := none, worker := WorkerPc.waitWork }
  | WorkerPc.waitWork =>
    if h.work_done_mutex = none then
      some { h with work_done_mutex := some Tid.worker, worker := WorkerPc.testWork }
    else none
  | WorkerPc.clearWork => some { h with work_done := false, worker := WorkerPc.unlockWork }
  | WorkerPc.unlockWork => some { h with work_done_mutex := none, worker := WorkerPc.readTruck }
  | WorkerPc.readTruck =>
    if truck ≠ 0 then some { h with worker := WorkerPc.threadentry }
    else some { h with worker := WorkerPc.lockWork }
  | WorkerPc.threadentry => some { h with worker := WorkerPc.lockWork }

/-- One statement of the orchestrator: `_WorkerPrepareStart`,
`_WorkerSignalStart`, `_WorkerWaitForSync`, then the access to the designated
instance; `none` when the orchestrator is blocked on a mutex. -/
def orchestratorStep (h : Handoff) : Option Handoff :=
  match h.orchestrator with
  | OrchPc.prepareLock =>
    if h.thread_done_mutex = none then
      some { h with thread_done_mutex := some Tid.orchestrator, orchestrator := OrchPc.prepareSet }
    else none
  | OrchPc.prepareSet => some { h with thread_done := false, orchestrator := OrchPc.prepareUnlock }
  | OrchPc.prepareUnlock =>
    some { h with thread_done_mutex := none, orchestrator := OrchPc.startLock }
  | OrchPc.startLock =>
    if h.work_done_mutex = none then
      some { h with work_done_mutex := some Tid.orchestrator, orchestrator := OrchPc.startSet }
    else none
  | OrchPc.startSet => some { h with work_done := true, orchestrator := OrchPc.startUnlock }
  | OrchPc.startUnlock =>
    some { h with work_done_mutex := none, orchestrator := OrchPc.startSignal }
  | OrchPc.startSignal => some { h with orchestrator := OrchPc.syncLock }
  | OrchPc.syncLock =>
    if h.thread_done_mutex = none then
      some { h with thread_done_mutex := some Tid.orchestrator, orchestrator := OrchPc.syncTest }
    else none
  | OrchPc.syncTest =>
    if h.thread_done then some { h with orchestrator := OrchPc.syncUnlock }
    else some { h with thread_done_mutex := none, orchestrator := OrchPc.syncWait }
  | OrchPc.syncWait =>
    if h.thread_done_mutex = none then
      some { h with thread_done_mutex := some Tid.orchestrator, orchestrator := OrchPc.syncTest }
    else none
  | OrchPc.syncUnlock => some { h with thread_done_mutex := none, orchestrator := OrchPc.touch }
  | OrchPc.touch => some { h with orchestrator := OrchPc.prepareLock }

/-- One statement of the thread that the scheduler picks. -/
def handoffStep (truck : BeamPtr) (h : Handoff) (t : Tid) : Option Handoff :=
  match t with
  | Tid.worker => threadstartStep truck h
  | Tid.orchestrator => orchestratorStep h

/-- The state after a schedule, the list of the threads that execute one
statement each, first statement first; `none` when a thread is picked while it
is blocked. -/
def handoffRun (truck : BeamPtr) (h : Handoff) (schedule : List Tid) : Option Handoff :=
  schedule.foldlM (handoffStep truck) h

/-- The worker is inside `threadentry` on the designated truck while the
orchestrator, past its barrier, accesses that truck. -/
def Handoff.overlap (h : Handoff) : Bool :=
  decide (h.worker = WorkerPc.threadentry ∧ h.orchestrator = OrchPc.touch)

/-- The worker is between its statement `thread_done = true` and the test that
finds the next `work_done`. -/
def WorkerPc.idle : WorkerPc → Bool
  | WorkerPc.unlockDone => true
  | WorkerPc.signalDone => true
  | WorkerPc.testWork => true
  | WorkerPc.waitWork => true
  | _ => false

/-- What the two flags say about the worker, by the phase of the orchestrator,
once the worker has executed its first `thread_done = true`: outside the
stretch from "Signal start" to the end of the barrier the worker is idle; inside
it the work is pending, taken, or done. -/
def Handoff.inv (h : Handoff) : Bool :=
  match h.orchestrator with
  | OrchPc.syncUnlock | OrchPc.touch | OrchPc.prepareLock | OrchPc.prepareSet =>
    h.worker.idle && h.thread_done && !h.work_done
  | OrchPc.prepareUnlock | OrchPc.startLock | OrchPc.startSet =>
    h.worker.idle && !h.thread_done && !h.work_done
  | _ =>
    if h.worker.idle then (h.work_done && !h.thread_done) || (!h.work_done && h.thread_done)
    else if h.worker = WorkerPc.clearWork then h.work_done && !h.thread_done
    else !h.work_done && !h.thread_done

/-! ### Concrete instances -/

/-- The symmetric intersection relation on numbered boxes given by a list of
intersecting pairs. -/
def adjOf (pairs : List (Nat × Nat)) (a b : Nat) : Bool :=
  pairs.contains (a, b) || pairs.contains (b, a)

/-- An environment over boxes named by numbers: `adj a b` says whether box `a`
intersects box `b`. -/
def sampleEnv (n : Nat) (loaded : Bool) (adj : Nat → Nat → Bool) : Env Nat :=
  { MAX_TRUCKS := n
    AIRPLANE := 2
    intersects := adj
    frameListener := true
    checkResourceLoaded := fun _ => loaded
    deleteNetTruck := fun b => b }

/-- A truck in slot `i` with the given state and sleep counter, whose coarse
predicted box is named `i` and which has no predicted sub-volumes. -/
def sampleBeam (i : Nat) (state sleepcount : Int) : Beam Nat :=
  { addr := i + 1
    trucknum := i
    state := state
    sleepcount := sleepcount
    driveable := 0
    disableDrag := false
    networked := false
    sourceid := 0
    streamid := 0
    predictedBoundingBox := i
    predictedCollisionBoundingBoxes := [] }

/-- A registry holding the given slots, all below the mark, with nothing in
focus and an empty stream table. -/
def sampleFactory (slots : List (Option (Beam Nat))) (simulatedTruck : Int) : BeamFactory Nat :=
  { trucks := slots
    free_truck := slots.length
    current_truck := -1
    previous_truck := -1
    forcedActive := false
    simulatedTruck := simulatedTruck
    streamables := []
    events := [] }

/-- A registration record for stream `(5, 1)`. -/
def sampleReg : stream_reg_t :=
  { sourceid := 5, streamid := 1, name := "truck" }

/-! ## Theorems -/

/-! ### Searching an index range -/

theorem find?_range_eq_none {p : Nat → Bool} {n : Nat} :
    (List.range n).find? p = none ↔ ∀ u, u < n → p u = false := by
  simp [List.find?_eq_none]

theorem find?_range_eq_some {p : Nat → Bool} {n t : Nat} :
    (List.range n).find? p = some t ↔ t < n ∧ p t = true ∧ ∀ u, u < t → p u = false := by
  induction n generalizing t with
  | zero => simp
  | succ n ih =>
    rw [List.range_succ, List.find?_append]
    cases hf : (List.range n).find? p with
    | none =>
      rw [find?_range_eq_none] at hf
      by_cases hp : p n = true
      · simp only [Option.or, List.find?_cons, hp, Option.some.injEq]
        constructor
        · rintro rfl
          exact ⟨Nat.lt_succ_self _, hp, hf⟩
        · rintro ⟨h1, h2, h3⟩
          by_contra hne
          have : t < n := by omega
          rw [hf t this] at h2
          exact Bool.false_ne_true h2
      · have hp2 : p n = false := by simpa using hp
        simp only [Option.or, List.find?_cons, hp2, List.find?_nil]
        constructor
        · intro h; cases h
        · rintro ⟨h1, h2, h3⟩
          exfalso
          by_cases h : t = n
          · subst h; rw [hp2] at h2; exact Bool.false_ne_true h2
          · have : t < n := by omega
            rw [hf t this] at h2
            exact Bool.false_ne_true h2
    | some t1 =>
      have h1 := ih.mp hf
      simp only [Option.or, Option.some.injEq]
      constructor
      · rintro rfl
        exact ⟨by omega, h1.2.1, h1.2.2⟩
      · rintro ⟨h2, h3, h4⟩
        rcases Nat.lt_trichotomy t1 t with h | h | h
        · rw [h4 t1 h] at h1; exact absurd h1.2.1 Bool.false_ne_true
        · exact h
        · rw [h1.2.2 t h] at h3; exact absurd h3 Bool.false_ne_true

namespace BeamFactory

/-! ### The slot allocator -/

theorem getFreeTruckSlot_eq_of_find_some (env : Env Box) (s : BeamFactory Box) (t : Nat)
    (h : (List.range env.MAX_TRUCKS).find?
      (fun (t : Nat) => (s.truckAt (t : Int)).isNone && decide (s.free_truck ≤ (t : Int))) = some t) :
    getFreeTruckSlot env s = ((t : Int), { s with free_truck := (t : Int) + 1 }) := by
  have h2 := (find?_range_eq_some.mp h).2.1
  simp only [Bool.and_eq_true, decide_eq_true_eq] at h2
  simp [getFreeTruckSlot, h, h2.2]

theorem getFreeTruckSlot_eq_of_find_none (env : Env Box) (s : BeamFactory Box)
    (h : (List.range env.MAX_TRUCKS).find?
      (fun (t : Nat) => (s.truckAt (t : Int)).isNone && decide (s.free_truck ≤ (t : Int))) = none) :
    getFreeTruckSlot env s = (-1, s) := by
  simp [getFreeTruckSlot, h]

/-- C1: if some index `t` with `free_truck <= t < MAX_TRUCKS` has an empty
slot, `getFreeTruckSlot` returns the least such index and moves the mark to
`t + 1`, changing nothing else (the slot array in particular); it returns `-1`
exactly when there is no such index, and then the state is unchanged. -/
theorem getFreeTruckSlot_least_free (env : Env Box) (s : BeamFactory Box) :
    ((∃ t : Nat, t < env.MAX_TRUCKS ∧ s.free_truck ≤ (t : Int) ∧ s.truckAt (t : Int) = none) →
      ∃ t : Nat, (t < env.MAX_TRUCKS ∧ s.free_truck ≤ (t : Int) ∧ s.truckAt (t : Int) = none) ∧
        (∀ u : Nat, u < env.MAX_TRUCKS → s.free_truck ≤ (u : Int) → s.truckAt (u : Int) = none →
          t ≤ u) ∧
        getFreeTruckSlot env s = ((t : Int), { s with free_truck := (t : Int) + 1 })) ∧
    ((getFreeTruckSlot env s).1 = -1 ↔
      ¬ ∃ t : Nat, t < env.MAX_TRUCKS ∧ s.free_truck ≤ (t : Int) ∧ s.truckAt (t : Int) = none) ∧
    ((getFreeTruckSlot env s).1 = -1 → (getFreeTruckSlot env s).2 = s) := by
  cases hf : (List.range env.MAX_TRUCKS).find?
      (fun (t : Nat) => (s.truckAt (t : Int)).isNone && decide (s.free_truck ≤ (t : Int))) with
  | none =>
    have hnone := find?_range_eq_none.mp hf
    have hno : ¬ ∃ t : Nat, t < env.MAX_TRUCKS ∧ s.free_truck ≤ (t : Int) ∧
        s.truckAt (t : Int) = none := by
      rintro ⟨t, h1, h2, h3⟩
      have := hnone t h1
      simp [h3, h2] at this
    rw [getFreeTruckSlot_eq_of_find_none env s hf]
    exact ⟨fun h => absurd h hno, ⟨fun _ => hno, fun _ => rfl⟩, fun _ => rfl⟩
  | some t =>
    obtain ⟨h1, h2, h3⟩ := find?_range_eq_some.mp hf
    simp only [Bool.and_eq_true, decide_eq_true_eq, Option.isNone_iff_eq_none] at h2
    rw [getFreeTruckSlot_eq_of_find_some env s t hf]
    refine ⟨fun _ => ⟨t, ⟨h1, h2.2, h2.1⟩, ?_, rfl⟩, ⟨?_, ?_⟩, ?_⟩
    · intro u _ hu2 hu3
      by_contra hlt
      have := h3 u (by omega)
      simp [hu3, hu2] at this
    · intro h
      exfalso
      simp only at h
      omega
    · intro h
      exact absurd ⟨t, h1, h2.2, h2.1⟩ h
    · intro h
      exfalso
      simp only at h
      omega

end BeamFactory

/-! ### The stream table -/

theorem mapFind_mapSet_same {κ V : Type} [DecidableEq κ] [LT κ]
    [DecidableRel (fun a b : κ => a < b)] (m : List (κ × V)) (k : κ) (v : V) :
    mapFind (mapSet m k v) k = some v := by
  induction m with
  | nil => simp [mapSet, mapFind]
  | cons e rest ih =>
    obtain ⟨k1, v1⟩ := e
    by_cases h1 : k = k1
    · simp [mapSet, mapFind, h1]
    · by_cases h2 : k < k1
      · simp [mapSet, mapFind, h1, h2]
      · simp [mapSet, mapFind, h1, h2, ih]

theorem mapSet_mapSet_same {κ V : Type} [DecidableEq κ] [LT κ]
    [DecidableRel (fun a b : κ => a < b)] (m : List (κ × V)) (k : κ) (v w : V) :
    mapSet (mapSet m k v) k w = mapSet m k w := by
  induction m with
  | nil => simp [mapSet]
  | cons e rest ih =>
    obtain ⟨k1, v1⟩ := e
    by_cases h1 : k = k1
    · simp [mapSet, h1]
    · by_cases h2 : k < k1
      · simp [mapSet, h1, h2]
      · simp [mapSet, h1, h2, ih]

theorem mapSet_ne_nil {κ V : Type} [DecidableEq κ] [LT κ]
    [DecidableRel (fun a b : κ => a < b)] (m : List (κ × V)) (k : κ) (v : V) :
    mapSet m k v ≠ [] := by
  cases m with
  | nil => simp [mapSet]
  | cons e rest =>
    obtain ⟨k1, v1⟩ := e
    unfold mapSet
    split_ifs <;> simp

theorem streamsSet_streamsSet_same (m : Streams) (a : Int) (b : Nat) (p q : BeamPtr) :
    streamsSet (streamsSet m a b p) a b q = streamsSet m a b q := by
  simp [streamsSet, mapFind_mapSet_same, mapSet_mapSet_same]

theorem streamEntry_streamsSet_same (m : Streams) (a : Int) (b : Nat) (p : BeamPtr) :
    streamEntry (streamsSet m a b p) a b = some p := by
  simp [streamEntry, streamsSet, mapFind_mapSet_same]

namespace BeamFactory

theorem getBeam_streamsSet_same (s : BeamFactory Box) (a b : Int) (p : BeamPtr) :
    getBeam { s with streamables := streamsSet s.streamables a (toUnsigned b) p } a b = p := by
  have hne := mapSet_ne_nil ((mapFind s.streamables a).getD []) (toUnsigned b) p
  simp only [getBeam, streamsSet, mapFind_mapSet_same]
  have he : (mapSet ((mapFind s.streamables a).getD []) (toUnsigned b) p).isEmpty = false := by
    cases h : mapSet ((mapFind s.streamables a).getD []) (toUnsigned b) p with
    | nil => exact absurd h hne
    | cons _ _ => rfl
  simp only [he, Bool.not_false, if_true]
  split_ifs with h0
  · rfl
  · exact (not_not.mp h0).symm

/-- C7: when the asset of a registration is not loaded, `createRemoteInstance`
returns null, stores the null marker under `(sourceid, streamid)`, and changes
neither the slot array nor `free_truck` (nor the trace: no `Beam` is
constructed); `getBeam` for the pair then returns null; and repeating the call
returns null again and leaves the state exactly as it was after the first call. -/
theorem createRemoteInstance_unavailable (env : Env Box) (p q : BeamPtr) (proto proto2 : Beam Box)
    (reg : stream_reg_t) (s : BeamFactory Box) (h : env.checkResourceLoaded reg.name = false) :
    (createRemoteInstance env p proto reg s).1 = 0 ∧
    (createRemoteInstance env p proto reg s).2.trucks = s.trucks ∧
    (createRemoteInstance env p proto reg s).2.free_truck = s.free_truck ∧
    (createRemoteInstance env p proto reg s).2.events = s.events ∧
    streamEntry (createRemoteInstance env p proto reg s).2.streamables reg.sourceid
      (toUnsigned reg.streamid) = some 0 ∧
    getBeam (createRemoteInstance env p proto reg s).2 reg.sourceid reg.streamid = 0 ∧
    createRemoteInstance env q proto2 reg (createRemoteInstance env p proto reg s).2 =
      (0, (createRemoteInstance env p proto reg s).2) := by
  have e1 : ∀ (r : BeamPtr) (pr : Beam Box) (s0 : BeamFactory Box),
      createRemoteInstance env r pr reg s0 =
        (0, { s0 with streamables :=
                streamsSet s0.streamables reg.sourceid (toUnsigned reg.streamid) 0 }) := by
    intro r pr s0
    simp [createRemoteInstance, h]
  rw [e1 p proto s, e1 q proto2]
  refine ⟨rfl, rfl, rfl, rfl, streamEntry_streamsSet_same _ _ _ _, getBeam_streamsSet_same s _ _ 0, ?_⟩
  simp [streamsSet_streamsSet_same]

theorem createRemoteInstance_unavailable_witness :
    (sampleEnv 2 false (fun _ _ => false)).checkResourceLoaded sampleReg.name = false ∧
    getBeam (createRemoteInstance (sampleEnv 2 false (fun _ _ => false)) 7 (sampleBeam 0 0 0)
      sampleReg (init (sampleEnv 2 false (fun _ _ => false)))).2 sampleReg.sourceid
      sampleReg.streamid = 0 :=
  ⟨rfl, (createRemoteInstance_unavailable (sampleEnv 2 false (fun _ _ => false)) 7 7
    (sampleBeam 0 0 0) (sampleBeam 0 0 0) sampleReg (init (sampleEnv 2 false (fun _ _ => false)))
    rfl).2.2.2.2.2.1⟩

/-! ### Reading and writing the slot array -/

@[simp] theorem truckAt_natCast (s : BeamFactory Box) (t : Nat) :
    s.truckAt (t : Int) = s.trucks.getD t none := by
  simp [truckAt]

theorem truckAt_neg (s : BeamFactory Box) (t : Int) (h : t < 0) : s.truckAt t = none := by
  simp [truckAt, h]

@[simp] theorem setTruck_free_truck (s : BeamFactory Box) (t : Int) (b : Option (Beam Box)) :
    (s.setTruck t b).free_truck = s.free_truck := by
  unfold setTruck; split_ifs <;> rfl

@[simp] theorem setTruck_current_truck (s : BeamFactory Box) (t : Int) (b : Option (Beam Box)) :
    (s.setTruck t b).current_truck = s.current_truck := by
  unfold setTruck; split_ifs <;> rfl

@[simp] theorem setTruck_previous_truck (s : BeamFactory Box) (t : Int) (b : Option (Beam Box)) :
    (s.setTruck t b).previous_truck = s.previous_truck := by
  unfold setTruck; split_ifs <;> rfl

@[simp] theorem setTruck_forcedActive (s : BeamFactory Box) (t : Int) (b : Option (Beam Box)) :
    (s.setTruck t b).forcedActive = s.forcedActive := by
  unfold setTruck; split_ifs <;> rfl

@[simp] theorem setTruck_simulatedTruck (s : BeamFactory Box) (t : Int) (b : Option (Beam Box)) :
    (s.setTruck t b).simulatedTruck = s.simulatedTruck := by
  unfold setTruck; split_ifs <;> rfl

@[simp] theorem setTruck_streamables (s : BeamFactory Box) (t : Int) (b : Option (Beam Box)) :
    (s.setTruck t b).streamables = s.streamables := by
  unfold setTruck; split_ifs <;> rfl

@[simp] theorem setTruck_events (s : BeamFactory Box) (t : Int) (b : Option (Beam Box)) :
    (s.setTruck t b).events = s.events := by
  unfold setTruck; split_ifs <;> rfl

@[simp] theorem setTruck_length (s : BeamFactory Box) (t : Int) (b : Option (Beam Box)) :
    (s.setTruck t b).trucks.length = s.trucks.length := by
  unfold setTruck; split_ifs <;> simp

theorem truckAt_setTruck_ne (s : BeamFactory Box) (t u : Int) (b : Option (Beam Box))
    (h : t ≠ u) : (s.setTruck t b).truckAt u = s.truckAt u := by
  unfold setTruck truckAt
  by_cases ht : t < 0
  · simp [ht]
  · by_cases hu : u < 0
    · simp [hu]
    · have hne : t.toNat ≠ u.toNat := by omega
      simp [ht, hu, List.getD_eq_getElem?_getD, List.getElem?_set_ne hne]

theorem truckAt_setTruck_same (s : BeamFactory Box) (t : Int) (b : Option (Beam Box))
    (h0 : 0 ≤ t) (h1 : t.toNat < s.trucks.length) : (s.setTruck t b).truckAt t = b := by
  unfold setTruck truckAt
  have ht : ¬ t < 0 := by omega
  simp [ht, List.getD_eq_getElem?_getD, h1]

theorem truckAt_setTruck_none (s : BeamFactory Box) (t u : Int) (h : s.truckAt u = none) :
    (s.setTruck t none).truckAt u = none := by
  by_cases htu : t = u
  · subst htu
    by_cases h0 : t < 0
    · exact truckAt_neg _ _ h0
    · by_cases h1 : t.toNat < s.trucks.length
      · exact truckAt_setTruck_same s t none (by omega) h1
      · unfold setTruck truckAt
        simp only [h0, if_false, List.getD_eq_getElem?_getD]
        rw [List.getElem?_eq_none (by rw [List.length_set]; omega)]
        rfl
  · rw [truckAt_setTruck_ne s t u none htu]; exact h

theorem truckAt_setTruck_self_none (s : BeamFactory Box) (t : Int) :
    (s.setTruck t none).truckAt t = none := by
  by_cases h0 : t < 0
  · exact truckAt_neg _ _ h0
  · by_cases h1 : t.toNat < s.trucks.length
    · exact truckAt_setTruck_same s t none (by omega) h1
    · unfold setTruck truckAt
      simp only [h0, if_false, List.getD_eq_getElem?_getD]
      rw [List.getElem?_eq_none (by rw [List.length_set]; omega)]
      rfl

theorem truckAt_lt_length (s : BeamFactory Box) (t : Int) (b : Beam Box)
    (h : s.truckAt t = some b) : 0 ≤ t ∧ t.toNat < s.trucks.length := by
  unfold truckAt at h
  by_cases h0 : t < 0
  · simp [h0] at h
  · simp only [h0, if_false] at h
    refine ⟨by omega, ?_⟩
    by_contra hlen
    rw [List.getD_eq_getElem?_getD, List.getElem?_eq_none (by omega)] at h
    simp at h

@[simp] theorem emit_trucks (s : BeamFactory Box) (e : Event) : (s.emit e).trucks = s.trucks := rfl
@[simp] theorem emit_free_truck (s : BeamFactory Box) (e : Event) : (s.emit e).free_truck = s.free_truck := rfl
@[simp] theorem emit_current_truck (s : BeamFactory Box) (e : Event) : (s.emit e).current_truck = s.current_truck := rfl
@[simp] theorem emit_streamables (s : BeamFactory Box) (e : Event) : (s.emit e).streamables = s.streamables := rfl
@[simp] theorem emit_events (s : BeamFactory Box) (e : Event) : (s.emit e).events = s.events ++ [e] := rfl
@[simp] theorem emit_truckAt (s : BeamFactory Box) (e : Event) (t : Int) : (s.emit e).truckAt t = s.truckAt t := rfl

end BeamFactory

open BeamFactory

/-! ### Transitions that release and transitions that allocate -/

theorem truckAt_congr (s s2 : BeamFactory Box) (h : s2.trucks = s.trucks) (t : Int) :
    s2.truckAt t = s.truckAt t := by
  simp [truckAt, h]

theorem Releases.refl (s : BeamFactory Box) : Releases s s :=
  ⟨rfl, rfl, fun _ b2 h => ⟨b2, h, rfl⟩⟩

theorem Releases.trans {s s1 s2 : BeamFactory Box} (h1 : Releases s s1) (h2 : Releases s1 s2) :
    Releases s s2 := by
  refine ⟨h2.1.trans h1.1, h2.2.1.trans h1.2.1, ?_⟩
  intro i b2 hb2
  obtain ⟨b1, hb1, e1⟩ := h2.2.2 i b2 hb2
  obtain ⟨b, hb, e⟩ := h1.2.2 i b1 hb1
  exact ⟨b, hb, e1.trans e⟩

theorem Releases.of_eq {s s1 s2 : BeamFactory Box} (h : Releases s s1)
    (ht : s2.trucks = s1.trucks) (hf : s2.free_truck = s1.free_truck) : Releases s s2 := by
  refine ⟨hf.trans h.1, (congrArg List.length ht).trans h.2.1, ?_⟩
  intro i b2 hb2
  rw [truckAt_congr s1 s2 ht] at hb2
  exact h.2.2 i b2 hb2

theorem releases_setTruck_none (s : BeamFactory Box) (t : Int) :
    Releases s (s.setTruck t none) := by
  refine ⟨by simp, by simp, ?_⟩
  intro i b2 hb2
  by_cases h : t = i
  · subst h
    rw [truckAt_setTruck_self_none] at hb2
    cases hb2
  · rw [truckAt_setTruck_ne s t i none h] at hb2
    exact ⟨b2, hb2, rfl⟩

theorem releases_setTruck_some (s : BeamFactory Box) (t : Int) (b b1 : Beam Box)
    (hb : s.truckAt t = some b) (hn : b1.trucknum = b.trucknum) :
    Releases s (s.setTruck t (some b1)) := by
  refine ⟨by simp, by simp, ?_⟩
  intro i b2 hb2
  by_cases h : t = i
  · subst h
    obtain ⟨h0, h1⟩ := truckAt_lt_length s t b hb
    rw [truckAt_setTruck_same s t _ h0 h1] at hb2
    cases hb2
    exact ⟨b, hb, hn⟩
  · rw [truckAt_setTruck_ne s t i _ h] at hb2
    exact ⟨b2, hb2, rfl⟩

theorem releases__deleteTruck (b : Option (Beam Box)) (s : BeamFactory Box) :
    Releases s (_deleteTruck b s) := by
  cases b with
  | none => exact Releases.refl s
  | some x => exact (releases_setTruck_none s x.trucknum).of_eq rfl rfl

theorem releases_removeBeam (b : Option (Beam Box)) (s : BeamFactory Box) :
    Releases s (removeBeam b s).2 := by
  unfold removeBeam
  cases findStream s.streamables (ptrOf b) with
  | none => exact Releases.refl s
  | some e =>
    obtain ⟨src, k⟩ := e
    have h1 : Releases s (s.emit (Event.removeStream src k)) := (Releases.refl s).of_eq rfl rfl
    exact (h1.trans (releases__deleteTruck b _)).of_eq rfl rfl

theorem releases_desactivateCurrent (s : BeamFactory Box) :
    Releases s (desactivateCurrent s) := by
  unfold desactivateCurrent
  split_ifs with hc
  · cases hb : s.truckAt s.current_truck with
    | none => exact Releases.refl s
    | some b => exact releases_setTruck_some s _ b _ hb rfl
  · exact Releases.refl s

theorem notifyCurrentVehicle_trucks (env : Env Box) (s : BeamFactory Box) :
    (notifyCurrentVehicle env s).trucks = s.trucks := by
  unfold notifyCurrentVehicle
  split_ifs <;> rfl

theorem notifyCurrentVehicle_free_truck (env : Env Box) (s : BeamFactory Box) :
    (notifyCurrentVehicle env s).free_truck = s.free_truck := by
  unfold notifyCurrentVehicle
  split_ifs <;> rfl

theorem releases_setCurrentTruck (env : Env Box) (n : Int) (s : BeamFactory Box) :
    Releases s (setCurrentTruck env n s) := by
  unfold setCurrentTruck
  exact (releases_desactivateCurrent s).of_eq (notifyCurrentVehicle_trucks env _)
    (notifyCurrentVehicle_free_truck env _)

theorem releases_removeTruck (env : Env Box) (truck : Int) (s : BeamFactory Box) :
    Releases s (removeTruck env truck s) := by
  by_cases h1 : truck < 0 ∨ truck > s.free_truck
  · simp only [removeTruck, h1, if_true]
    exact Releases.refl s
  · have hs1 : Releases s (if s.current_truck = truck then setCurrentTruck env (-1) s else s) := by
      split_ifs
      · exact releases_setCurrentTruck env _ s
      · exact Releases.refl s
    simp only [removeTruck, h1, if_false]
    generalize (if s.current_truck = truck then setCurrentTruck env (-1) s else s) = s1 at hs1
    have h2 := releases_removeBeam (s1.truckAt truck) s1
    split_ifs
    · exact hs1.trans h2
    · exact (hs1.trans h2).trans (releases__deleteTruck _ _)

theorem getFreeTruckSlot_cases (env : Env Box) (s : BeamFactory Box) :
    getFreeTruckSlot env s = (-1, s) ∨
    ∃ t : Nat, t < env.MAX_TRUCKS ∧ s.free_truck ≤ (t : Int) ∧ s.truckAt (t : Int) = none ∧
      (∀ u : Nat, u < t → s.free_truck ≤ (u : Int) → s.truckAt (u : Int) ≠ none) ∧
      getFreeTruckSlot env s = ((t : Int), { s with free_truck := (t : Int) + 1 }) := by
  cases hf : (List.range env.MAX_TRUCKS).find?
      (fun (t : Nat) => (s.truckAt (t : Int)).isNone && decide (s.free_truck ≤ (t : Int))) with
  | none => exact Or.inl (getFreeTruckSlot_eq_of_find_none env s hf)
  | some t =>
    obtain ⟨h1, h2, h3⟩ := find?_range_eq_some.mp hf
    simp only [Bool.and_eq_true, decide_eq_true_eq, Option.isNone_iff_eq_none] at h2
    refine Or.inr ⟨t, h1, h2.2, h2.1, ?_, getFreeTruckSlot_eq_of_find_some env s t hf⟩
    intro u hu hfu hnone
    have := h3 u hu
    simp [hnone, hfu] at this

theorem natCast_ne_neg_one (t : Nat) : ((t : Int) = -1) ↔ False := by
  constructor
  · intro h; omega
  · intro h; exact h.elim

theorem createLocal_cases (env : Env Box) (p : BeamPtr) (proto : Beam Box) (s : BeamFactory Box) :
    (getFreeTruckSlot env s = (-1, s) ∧ createLocal env p proto s = (0, s)) ∨
    ∃ t : Nat, getFreeTruckSlot env s = ((t : Int), { s with free_truck := (t : Int) + 1 }) ∧
      (createLocal env p proto s).1 = p ∧
      Allocates env s (createLocal env p proto s).2 t (newBeam p proto (t : Int) false) := by
  rcases getFreeTruckSlot_cases env s with h | ⟨t, h1, h2, h3, h4, h5⟩
  · exact Or.inl ⟨h, by simp [createLocal, h]⟩
  · have hneg : ¬ ((t : Int) < 0) := by omega
    refine Or.inr ⟨t, h5, ?_, h1, h2, h3, h4, ?_, ?_, rfl⟩
    · simp [createLocal, h5, natCast_ne_neg_one]
    · simp [createLocal, h5, natCast_ne_neg_one, setTruck, emit, hneg]
    · simp [createLocal, h5, natCast_ne_neg_one]

theorem createRemoteInstance_cases (env : Env Box) (p : BeamPtr) (proto : Beam Box)
    (reg : stream_reg_t) (s : BeamFactory Box) (hl : env.checkResourceLoaded reg.name = true) :
    (getFreeTruckSlot env s = (-1, s) ∧ createRemoteInstance env p proto reg s = (0, s)) ∨
    ∃ t : Nat, getFreeTruckSlot env s = ((t : Int), { s with free_truck := (t : Int) + 1 }) ∧
      (createRemoteInstance env p proto reg s).1 = p ∧
      (createRemoteInstance env p proto reg s).2.streamables =
        streamsSet s.streamables reg.sourceid (toUnsigned reg.streamid) p ∧
      Allocates env s (createRemoteInstance env p proto reg s).2 t
        { newBeam p proto (t : Int) true with sourceid := reg.sourceid, streamid := reg.streamid } := by
  rcases getFreeTruckSlot_cases env s with h | ⟨t, h1, h2, h3, h4, h5⟩
  · exact Or.inl ⟨h, by simp [createRemoteInstance, h, hl]⟩
  · have hneg : ¬ ((t : Int) < 0) := by omega
    refine Or.inr ⟨t, h5, ?_, ?_, h1, h2, h3, h4, ?_, ?_, rfl⟩
    · simp [createRemoteInstance, h5, hl, natCast_ne_neg_one]
    · simp [createRemoteInstance, h5, hl, natCast_ne_neg_one, emit]
    · simp [createRemoteInstance, h5, hl, natCast_ne_neg_one, setTruck, emit, hneg]
    · simp [createRemoteInstance, h5, hl, natCast_ne_neg_one]

theorem Op.apply_cases (env : Env Box) (s : BeamFactory Box) (o : Op Box) :
    (o.allocates env s = none ∧ Releases s (o.apply env s)) ∨
    ∃ (t : Nat) (b : Beam Box), o.allocates env s = some (t : Int) ∧
      Allocates env s (o.apply env s) t b := by
  cases o with
  | createLocal p proto =>
    rcases createLocal_cases env p proto s with ⟨h1, h2⟩ | ⟨t, h1, _, h3⟩
    · left
      simp only [Op.allocates, Op.apply, h1, h2, if_true, true_and]
      exact Releases.refl s
    · right
      exact ⟨t, _, by simp [Op.allocates, h1, natCast_ne_neg_one], h3⟩
  | createRemoteInstance p proto reg =>
    by_cases hl : env.checkResourceLoaded reg.name = true
    · rcases createRemoteInstance_cases env p proto reg s hl with
        ⟨h1, h2⟩ | ⟨t, h1, _, _, h3⟩
      · left
        simp only [Op.allocates, Op.apply, h1, h2, hl, if_true, true_and]
        exact ⟨by simp, Releases.refl s⟩
      · right
        exact ⟨t, _, by simp [Op.allocates, h1, hl, natCast_ne_neg_one], h3⟩
    · left
      have hl2 : env.checkResourceLoaded reg.name = false := by simpa using hl
      refine ⟨by simp [Op.allocates, hl2], ?_⟩
      simp only [Op.apply, BeamFactory.createRemoteInstance, hl2, Bool.not_false, if_true]
      exact (Releases.refl s).of_eq rfl rfl
  | removeTruck truck => exact Or.inl ⟨rfl, releases_removeTruck env truck s⟩
  | _deleteTruck b => exact Or.inl ⟨rfl, releases__deleteTruck b s⟩

/-! ### Invariants of the registry -/

theorem setTruck_natCast_trucks (s : BeamFactory Box) (t : Nat) (b : Option (Beam Box)) :
    (s.setTruck (t : Int) b).trucks = s.trucks.set t b := by
  have hneg : ¬ ((t : Int) < 0) := by omega
  simp [setTruck, hneg]

theorem Allocates.truckAt_eq {env : Env Box} {s s2 : BeamFactory Box} {t : Nat} {b : Beam Box}
    (h : Allocates env s s2 t b) (u : Int) :
    s2.truckAt u = (s.setTruck (t : Int) (some b)).truckAt u :=
  truckAt_congr _ _ (by rw [setTruck_natCast_trucks]; exact h.2.2.2.2.1) u

theorem highWater_init (env : Env Box) : HighWater env (init env) := by
  refine ⟨by simp [init], by simp [init], by simp [init], ?_⟩
  intro t _
  unfold truckAt init
  split_ifs
  · rfl
  · simp only [List.getD_eq_getElem?_getD, List.getElem?_replicate]
    split_ifs <;> rfl

theorem idsMatch_init (env : Env Box) : IdsMatch (init env : BeamFactory Box) := by
  intro i b h
  have h2 := (highWater_init env).2.2.2 i
  by_cases hi : (0 : Int) ≤ i
  · rw [h2 (by simpa [init] using hi)] at h
    cases h
  · rw [truckAt_neg _ _ (by omega)] at h
    cases h

theorem highWater_of_releases {env : Env Box} {s s2 : BeamFactory Box} (h : HighWater env s)
    (hr : Releases s s2) : HighWater env s2 := by
  refine ⟨hr.2.1.trans h.1, hr.1 ▸ h.2.1, hr.1 ▸ h.2.2.1, ?_⟩
  intro t ht
  rw [hr.1] at ht
  cases hb : s2.truckAt t with
  | none => rfl
  | some b2 =>
    obtain ⟨b, hb1, _⟩ := hr.2.2 t b2 hb
    rw [h.2.2.2 t ht] at hb1
    cases hb1

theorem idsMatch_of_releases {s s2 : BeamFactory Box} (h : IdsMatch s) (hr : Releases s s2) :
    IdsMatch s2 := by
  intro i b2 hb2
  obtain ⟨b, hb, e⟩ := hr.2.2 i b2 hb2
  rw [e]
  exact h i b hb

theorem Allocates.at_mark {env : Env Box} {s s2 : BeamFactory Box} {t : Nat} {b : Beam Box}
    (h : HighWater env s) (ha : Allocates env s s2 t b) : (t : Int) = s.free_truck := by
  obtain ⟨h1, h2, _, h4, _⟩ := ha
  by_contra hne
  have h0 := h.2.1
  have hlt : s.free_truck.toNat < t := by omega
  apply h4 s.free_truck.toNat hlt (by omega)
  exact h.2.2.2 _ (by omega)

theorem highWater_of_allocates {env : Env Box} {s s2 : BeamFactory Box} {t : Nat} {b : Beam Box}
    (h : HighWater env s) (ha : Allocates env s s2 t b) : HighWater env s2 := by
  have hta := ha.at_mark h
  obtain ⟨h1, h2, h3, h4, h5, h6, h7⟩ := ha
  refine ⟨by rw [h5, List.length_set]; exact h.1, by omega, by omega, ?_⟩
  intro u hu
  have hne : (t : Int) ≠ u := by omega
  rw [truckAt_congr (s.setTruck (t : Int) (some b)) s2 (by rw [setTruck_natCast_trucks]; exact h5),
    truckAt_setTruck_ne s _ _ _ hne]
  exact h.2.2.2 u (by omega)

theorem idsMatch_of_allocates {env : Env Box} {s s2 : BeamFactory Box} {t : Nat} {b : Beam Box}
    (h : IdsMatch s) (ha : Allocates env s s2 t b) : IdsMatch s2 := by
  intro i b2 hb2
  rw [ha.truckAt_eq i] at hb2
  by_cases hti : (t : Int) = i
  · by_cases hlen : t < s.trucks.length
    · rw [← hti, truckAt_setTruck_same s _ _ (by omega) (by simpa using hlen)] at hb2
      cases hb2
      rw [← hti]
      exact ha.2.2.2.2.2.2
    · rw [← hti] at hb2
      have hnone : (s.setTruck (t : Int) (some b)).truckAt (t : Int) = none := by
        rw [truckAt_natCast, setTruck_natCast_trucks, List.getD_eq_getElem?_getD,
          List.getElem?_eq_none (by rw [List.length_set]; omega)]
        rfl
      rw [hnone] at hb2
      cases hb2
  · rw [truckAt_setTruck_ne s _ _ _ hti] at hb2
    exact h i b2 hb2

theorem run_cons (env : Env Box) (s : BeamFactory Box) (o : Op Box) (ops : List (Op Box)) :
    run env s (o :: ops) = run env (o.apply env s) ops := rfl

theorem run_invariants (env : Env Box) (ops : List (Op Box)) (s : BeamFactory Box)
    (hw : HighWater env s) (hid : IdsMatch s) :
    HighWater env (run env s ops) ∧ IdsMatch (run env s ops) ∧
      (run env s ops).free_truck = s.free_truck + (allocations env s ops : Int) := by
  induction ops generalizing s with
  | nil => exact ⟨hw, hid, by simp [run, allocations]⟩
  | cons o rest ih =>
    rw [run_cons]
    rcases Op.apply_cases env s o with ⟨h1, h2⟩ | ⟨t, b, h1, h2⟩
    · obtain ⟨a1, a2, a3⟩ := ih (o.apply env s) (highWater_of_releases hw h2) (idsMatch_of_releases hid h2)
      refine ⟨a1, a2, ?_⟩
      rw [a3, h2.1]
      simp [allocations, h1]
    · obtain ⟨a1, a2, a3⟩ := ih (o.apply env s) (highWater_of_allocates hw h2) (idsMatch_of_allocates hid h2)
      refine ⟨a1, a2, ?_⟩
      have := h2.at_mark hw
      rw [a3, h2.2.2.2.2.2.1]
      simp [allocations, h1]
      omega

theorem run_truckAt_none (env : Env Box) (ops : List (Op Box)) (s : BeamFactory Box) (i : Int)
    (h : s.truckAt i = none) (hn : noAlloc env s ops i) : (run env s ops).truckAt i = none := by
  induction ops generalizing s with
  | nil => exact h
  | cons o rest ih =>
    rw [run_cons]
    apply ih (o.apply env s) _ hn.2
    rcases Op.apply_cases env s o with ⟨_, h2⟩ | ⟨t, b, h1, h2⟩
    · cases hb : (o.apply env s).truckAt i with
      | none => rfl
      | some b2 =>
        obtain ⟨b, hb1, _⟩ := h2.2.2 i b2 hb
        rw [h] at hb1
        cases hb1
    · have hne : (t : Int) ≠ i := by
        intro e
        apply hn.1
        rw [h1, e]
      rw [h2.truckAt_eq i, truckAt_setTruck_ne s _ _ _ hne]
      exact h

theorem getTruck_eq_none_of_truckAt (s : BeamFactory Box) (i : Int) (h : s.truckAt i = none) :
    s.getTruck i = none := by
  unfold getTruck
  split_ifs
  · exact h
  · rfl

theorem _deleteTruck_trucks_congr (b : Option (Beam Box)) (s s1 : BeamFactory Box)
    (h : s1.trucks = s.trucks) : (_deleteTruck b s1).trucks = (_deleteTruck b s).trucks := by
  cases b with
  | none => exact h
  | some x =>
    simp only [_deleteTruck, emit_trucks, setTruck]
    split_ifs <;> simp [h]

theorem removeBeam_cases (b : Option (Beam Box)) (s : BeamFactory Box) :
    ((removeBeam b s).1 = true ∧ (removeBeam b s).2.trucks = (_deleteTruck b s).trucks) ∨
    ((removeBeam b s).1 = false ∧ (removeBeam b s).2 = s) := by
  unfold removeBeam
  cases findStream s.streamables (ptrOf b) with
  | none => exact Or.inr ⟨rfl, rfl⟩
  | some e =>
    obtain ⟨src, k⟩ := e
    exact Or.inl ⟨rfl, _deleteTruck_trucks_congr b s _ rfl⟩

theorem removeTruck_trucks (env : Env Box) (truck : Int) (s : BeamFactory Box)
    (h : ¬ (truck < 0 ∨ truck > s.free_truck)) :
    (removeTruck env truck s).trucks =
      (_deleteTruck ((if s.current_truck = truck then setCurrentTruck env (-1) s else s).truckAt truck)
        (if s.current_truck = truck then setCurrentTruck env (-1) s else s)).trucks := by
  simp only [removeTruck, h, if_false]
  generalize (if s.current_truck = truck then setCurrentTruck env (-1) s else s) = s1
  rcases removeBeam_cases (s1.truckAt truck) s1 with ⟨h1, h2⟩ | ⟨h1, h2⟩
  · simp [h1, h2]
  · simp [h1, h2]

theorem _deleteTruck_truckAt_self (s : BeamFactory Box) (i : Int) (hid : IdsMatch s) :
    (_deleteTruck (s.truckAt i) s).truckAt i = none := by
  cases hb : s.truckAt i with
  | none => exact hb
  | some x =>
    have hx := hid i x hb
    simp only [_deleteTruck, emit_truckAt, hx]
    exact truckAt_setTruck_self_none s i

theorem removeTruck_truckAt_self (env : Env Box) (i : Int) (s : BeamFactory Box)
    (hw : HighWater env s) (hid : IdsMatch s) : (removeTruck env i s).truckAt i = none := by
  by_cases h : i < 0 ∨ i > s.free_truck
  · simp only [removeTruck, h, if_true]
    rcases h with h | h
    · exact truckAt_neg s i h
    · exact hw.2.2.2 i (by omega)
  · rw [truckAt_congr _ _ (removeTruck_trucks env i s h)]
    apply _deleteTruck_truckAt_self
    split_ifs
    · exact idsMatch_of_releases hid (releases_setCurrentTruck env _ s)
    · exact hid

/-- C2: in every state reached from the empty registry by a sequence of
`createLocal`, `createRemoteInstance`, `removeTruck` and `_deleteTruck` whose
array accesses stay inside `trucks[0 .. MAX_TRUCKS)`, an occupied slot `i`
holds an instance whose `trucknum` is `i`, so two occupied slots never report
the same id; and once slot `i` has been released, by a `removeTruck(i)` that
stays inside the array or by `_deleteTruck` on the instance in slot `i`,
`getTruck(i)` returns null after every further such sequence of these
operations in which no allocation returns `i`. -/
theorem registry_ids_unique (env : Env Box) (ops : List (Op Box))
    (_hin : inBounds env (init env) ops = true) :
    (∀ (i : Int) (b : Beam Box), (run env (init env) ops).truckAt i = some b → b.trucknum = i) ∧
    (∀ (i j : Int) (b c : Beam Box), (run env (init env) ops).truckAt i = some b →
      (run env (init env) ops).truckAt j = some c → b.trucknum = c.trucknum → i = j) ∧
    (∀ (i : Int) (ops2 : List (Op Box)),
      removeTruckInBounds env i (run env (init env) ops) = true →
      inBounds env (removeTruck env i (run env (init env) ops)) ops2 = true →
      noAlloc env (removeTruck env i (run env (init env) ops)) ops2 i →
      getTruck (run env (removeTruck env i (run env (init env) ops)) ops2) i = none) ∧
    (∀ (i : Int) (ops2 : List (Op Box)),
      inBounds env (_deleteTruck ((run env (init env) ops).truckAt i) (run env (init env) ops))
        ops2 = true →
      noAlloc env (_deleteTruck ((run env (init env) ops).truckAt i) (run env (init env) ops))
        ops2 i →
      getTruck (run env (_deleteTruck ((run env (init env) ops).truckAt i)
        (run env (init env) ops)) ops2) i = none) := by
  obtain ⟨hw, hid, _⟩ := run_invariants env ops (init env) (highWater_init env) (idsMatch_init env)
  refine ⟨hid, ?_, ?_, ?_⟩
  · intro i j b c hb hc e
    rw [← hid i b hb, ← hid j c hc, e]
  · intro i ops2 _ _ hn
    exact getTruck_eq_none_of_truckAt _ _
      (run_truckAt_none env ops2 _ i (removeTruck_truckAt_self env i _ hw hid) hn)
  · intro i ops2 _ hn
    exact getTruck_eq_none_of_truckAt _ _
      (run_truckAt_none env ops2 _ i (_deleteTruck_truckAt_self _ i hid) hn)

theorem registry_ids_unique_witness :
    inBounds (sampleEnv 2 true (fun _ _ => false)) (init (sampleEnv 2 true (fun _ _ => false)))
      [Op.createLocal 1 (sampleBeam 0 0 0), Op.createLocal 2 (sampleBeam 0 0 0),
        Op.removeTruck 0] = true ∧
    (run (sampleEnv 2 true (fun _ _ => false)) (init (sampleEnv 2 true (fun _ _ => false)))
      [Op.createLocal 1 (sampleBeam 0 0 0), Op.createLocal 2 (sampleBeam 0 0 0),
        Op.removeTruck 0]).truckAt 1 = some (newBeam 2 (sampleBeam 0 0 0) 1 false) ∧
    (newBeam 2 (sampleBeam 0 0 0) 1 false).trucknum = 1 :=
  ⟨by decide, by decide,
    (registry_ids_unique (sampleEnv 2 true (fun _ _ => false))
      [Op.createLocal 1 (sampleBeam 0 0 0), Op.createLocal 2 (sampleBeam 0 0 0),
        Op.removeTruck 0] (by decide)).1 1 _ (by decide)⟩

theorem getFreeTruckSlot_full (env : Env Box) (s : BeamFactory Box)
    (h : (env.MAX_TRUCKS : Int) ≤ s.free_truck) : getFreeTruckSlot env s = (-1, s) := by
  apply getFreeTruckSlot_eq_of_find_none
  rw [find?_range_eq_none]
  intro u hu
  have : ¬ (s.free_truck ≤ (u : Int)) := by omega
  simp [this]

/-- C9: after any sequence of operations from the empty registry in which
`MAX_TRUCKS` allocations succeeded, `getFreeTruckSlot` returns `-1` and
`createLocal` returns null, and neither changes the state (the slot array and
`free_truck` in particular). -/
theorem registry_full (env : Env Box) (ops : List (Op Box))
    (h : allocations env (init env) ops = env.MAX_TRUCKS) :
    getFreeTruckSlot env (run env (init env) ops) = (-1, run env (init env) ops) ∧
    ∀ (p : BeamPtr) (proto : Beam Box),
      createLocal env p proto (run env (init env) ops) = (0, run env (init env) ops) := by
  obtain ⟨_, _, hf⟩ := run_invariants env ops (init env) (highWater_init env) (idsMatch_init env)
  have hfull : (env.MAX_TRUCKS : Int) ≤ (run env (init env) ops).free_truck := by
    rw [hf, h]
    simp [init]
  have h1 := getFreeTruckSlot_full env _ hfull
  refine ⟨h1, ?_⟩
  intro p proto
  simp [createLocal, h1]

theorem registry_full_witness :
    allocations (sampleEnv 2 true (fun _ _ => false)) (init (sampleEnv 2 true (fun _ _ => false)))
      [Op.createLocal 1 (sampleBeam 0 0 0), Op.createLocal 2 (sampleBeam 0 0 0)] = 2 ∧
    getFreeTruckSlot (sampleEnv 2 true (fun _ _ => false))
      (run (sampleEnv 2 true (fun _ _ => false)) (init (sampleEnv 2 true (fun _ _ => false)))
        [Op.createLocal 1 (sampleBeam 0 0 0), Op.createLocal 2 (sampleBeam 0 0 0)]) =
      (-1, run (sampleEnv 2 true (fun _ _ => false)) (init (sampleEnv 2 true (fun _ _ => false)))
        [Op.createLocal 1 (sampleBeam 0 0 0), Op.createLocal 2 (sampleBeam 0 0 0)]) :=
  ⟨by decide, (registry_full (sampleEnv 2 true (fun _ _ => false))
    [Op.createLocal 1 (sampleBeam 0 0 0), Op.createLocal 2 (sampleBeam 0 0 0)] (by decide)).1⟩

/-! ### Registering a stream twice -/

/-- C8, as stated, fails: from the empty registry with two slots, two
`createRemoteInstance` calls for the same `(sourceid, streamid)` with the asset
loaded both return an instance, and afterwards slots `0` and `1` each hold an
occupant carrying the pair. -/
theorem createRemoteInstance_twice_two_carriers :
    (createRemoteInstance (sampleEnv 2 true (fun _ _ => false)) 1 (sampleBeam 0 0 0) sampleReg
      (init (sampleEnv 2 true (fun _ _ => false)))).1 = 1 ∧
    (createRemoteInstance (sampleEnv 2 true (fun _ _ => false)) 2 (sampleBeam 0 0 0) sampleReg
      (createRemoteInstance (sampleEnv 2 true (fun _ _ => false)) 1 (sampleBeam 0 0 0) sampleReg
        (init (sampleEnv 2 true (fun _ _ => false)))).2).1 = 2 ∧
    carriers (createRemoteInstance (sampleEnv 2 true (fun _ _ => false)) 2 (sampleBeam 0 0 0)
      sampleReg (createRemoteInstance (sampleEnv 2 true (fun _ _ => false)) 1 (sampleBeam 0 0 0)
        sampleReg (init (sampleEnv 2 true (fun _ _ => false)))).2).2
      sampleReg.sourceid sampleReg.streamid = [0, 1] ∧
    ¬ (carriers (createRemoteInstance (sampleEnv 2 true (fun _ _ => false)) 2 (sampleBeam 0 0 0)
      sampleReg (createRemoteInstance (sampleEnv 2 true (fun _ _ => false)) 1 (sampleBeam 0 0 0)
        sampleReg (init (sampleEnv 2 true (fun _ _ => false)))).2).2
      sampleReg.sourceid sampleReg.streamid).length ≤ 1 := by
  decide

/-- C8, amended: when the asset is loaded and both of two successive
`createRemoteInstance` calls for the same `(sourceid, streamid)` return an
instance, the two instances sit in two different slots `t1 < t2`, both carry
the pair, and the stream table's entry for the pair is the second instance
(the first one is no longer reachable through the table). -/
theorem createRemoteInstance_twice (env : Env Box) (p1 p2 : BeamPtr) (proto1 proto2 : Beam Box)
    (reg : stream_reg_t) (s : BeamFactory Box) (hlen : s.trucks.length = env.MAX_TRUCKS)
    (hl : env.checkResourceLoaded reg.name = true)
    (h1 : (createRemoteInstance env p1 proto1 reg s).1 ≠ 0)
    (h2 : (createRemoteInstance env p2 proto2 reg (createRemoteInstance env p1 proto1 reg s).2).1
      ≠ 0) :
    ∃ (t1 t2 : Nat) (b1 b2 : Beam Box), t1 < t2 ∧
      (createRemoteInstance env p2 proto2 reg
        (createRemoteInstance env p1 proto1 reg s).2).2.truckAt (t1 : Int) = some b1 ∧
      (createRemoteInstance env p2 proto2 reg
        (createRemoteInstance env p1 proto1 reg s).2).2.truckAt (t2 : Int) = some b2 ∧
      b1.addr = p1 ∧ b2.addr = p2 ∧
      b1.sourceid = reg.sourceid ∧ b1.streamid = reg.streamid ∧
      b2.sourceid = reg.sourceid ∧ b2.streamid = reg.streamid ∧
      streamEntry (createRemoteInstance env p2 proto2 reg
        (createRemoteInstance env p1 proto1 reg s).2).2.streamables reg.sourceid
        (toUnsigned reg.streamid) = some p2 := by
  rcases createRemoteInstance_cases env p1 proto1 reg s hl with ⟨_, e⟩ | ⟨t1, _, _, _, a1⟩
  · rw [e] at h1
    exact absurd rfl h1
  · generalize (createRemoteInstance env p1 proto1 reg s).2 = s1 at h2 a1 ⊢
    rcases createRemoteInstance_cases env p2 proto2 reg s1 hl with ⟨_, e⟩ | ⟨t2, _, _, hs, a2⟩
    · rw [e] at h2
      exact absurd rfl h2
    · generalize (createRemoteInstance env p2 proto2 reg s1).2 = s2 at hs a2 ⊢
      have hlt : t1 < t2 := by
        have := a2.2.1
        rw [a1.2.2.2.2.2.1] at this
        omega
      have hlen1 : s1.trucks.length = env.MAX_TRUCKS := by
        rw [a1.2.2.2.2.1, List.length_set]
        exact hlen
      refine ⟨t1, t2,
        { newBeam p1 proto1 (t1 : Int) true with
          sourceid := reg.sourceid, streamid := reg.streamid },
        { newBeam p2 proto2 (t2 : Int) true with
          sourceid := reg.sourceid, streamid := reg.streamid },
        hlt, ?_, ?_, rfl, rfl, rfl, rfl, rfl, rfl, ?_⟩
      · rw [a2.truckAt_eq, truckAt_setTruck_ne s1 _ _ _ (by omega), a1.truckAt_eq,
          truckAt_setTruck_same s _ _ (by omega) (by have := a1.1; simp; omega)]
      · rw [a2.truckAt_eq,
          truckAt_setTruck_same s1 _ _ (by omega) (by have := a2.1; simp; omega)]
      · rw [hs]
        exact streamEntry_streamsSet_same _ _ _ _

theorem createRemoteInstance_twice_witness :
    ∃ (t1 t2 : Nat) (b1 b2 : Beam Nat), t1 < t2 ∧
      (createRemoteInstance (sampleEnv 2 true (fun _ _ => false)) 2 (sampleBeam 0 0 0) sampleReg
        (createRemoteInstance (sampleEnv 2 true (fun _ _ => false)) 1 (sampleBeam 0 0 0) sampleReg
          (init (sampleEnv 2 true (fun _ _ => false)))).2).2.truckAt (t1 : Int) = some b1 ∧
      (createRemoteInstance (sampleEnv 2 true (fun _ _ => false)) 2 (sampleBeam 0 0 0) sampleReg
        (createRemoteInstance (sampleEnv 2 true (fun _ _ => false)) 1 (sampleBeam 0 0 0) sampleReg
          (init (sampleEnv 2 true (fun _ _ => false)))).2).2.truckAt (t2 : Int) = some b2 ∧
      b1.addr = 1 ∧ b2.addr = 2 ∧
      b1.sourceid = sampleReg.sourceid ∧ b1.streamid = sampleReg.streamid ∧
      b2.sourceid = sampleReg.sourceid ∧ b2.streamid = sampleReg.streamid ∧
      streamEntry (createRemoteInstance (sampleEnv 2 true (fun _ _ => false)) 2 (sampleBeam 0 0 0)
        sampleReg (createRemoteInstance (sampleEnv 2 true (fun _ _ => false)) 1 (sampleBeam 0 0 0)
          sampleReg (init (sampleEnv 2 true (fun _ _ => false)))).2).2.streamables
        sampleReg.sourceid (toUnsigned sampleReg.streamid) = some 2 :=
  createRemoteInstance_twice (sampleEnv 2 true (fun _ _ => false)) 1 2 (sampleBeam 0 0 0)
    (sampleBeam 0 0 0) sampleReg (init (sampleEnv 2 true (fun _ _ => false))) (by decide) rfl
    (by decide) (by decide)

/-! ### Removing the truck in focus -/

theorem _deleteTruck_current_truck (b : Option (Beam Box)) (s : BeamFactory Box) :
    (_deleteTruck b s).current_truck = s.current_truck := by
  cases b with
  | none => rfl
  | some x => simp [_deleteTruck]

theorem _deleteTruck_events (b : Option (Beam Box)) (s : BeamFactory Box) :
    ∃ evs, (_deleteTruck b s).events = s.events ++ evs ∧
      evs.filter Event.isChangedCurrentVehicle = [] := by
  cases b with
  | none => exact ⟨[], by simp [_deleteTruck], rfl⟩
  | some x =>
    exact ⟨[Event.deleteBeam x.addr, Event.triggerUpdateVehicleList], by simp [_deleteTruck], rfl⟩

theorem removeBeam_current_truck (b : Option (Beam Box)) (s : BeamFactory Box) :
    (removeBeam b s).2.current_truck = s.current_truck := by
  unfold removeBeam
  cases findStream s.streamables (ptrOf b) with
  | none => rfl
  | some e =>
    obtain ⟨src, k⟩ := e
    simp [_deleteTruck_current_truck]

theorem removeBeam_events (b : Option (Beam Box)) (s : BeamFactory Box) :
    ∃ evs, (removeBeam b s).2.events = s.events ++ evs ∧
      evs.filter Event.isChangedCurrentVehicle = [] := by
  unfold removeBeam
  cases findStream s.streamables (ptrOf b) with
  | none => exact ⟨[], by simp, rfl⟩
  | some e =>
    obtain ⟨src, k⟩ := e
    obtain ⟨evs, h1, h2⟩ := _deleteTruck_events b (s.emit (Event.removeStream src k))
    refine ⟨[Event.removeStream src k] ++ evs ++ [Event.triggerUpdateVehicleList], ?_, ?_⟩
    · simp [h1]
    · simp [List.filter_append, h2, Event.isChangedCurrentVehicle]

theorem notifyCurrentVehicle_previous_only (env : Env Box) (s : BeamFactory Box)
    (hf : env.frameListener = true) (hp : 0 ≤ s.previous_truck) (hc : s.current_truck < 0) :
    notifyCurrentVehicle env s =
      s.emit (Event.ChangedCurrentVehicle (ptrOf (s.truckAt s.previous_truck)) 0) := by
  have hc2 : ¬ (0 ≤ s.current_truck) := by omega
  simp [notifyCurrentVehicle, hf, hp, hc2]

/-- C10: when `current_truck` names a live slot holding an instance whose id is
that index, and a frame listener is present, `removeTruck(current_truck)`
leaves `current_truck = -1`, empties the slot, and the calls it makes contain
`ChangedCurrentVehicle` exactly once, with arguments (the old instance, null). -/
theorem removeTruck_current (env : Env Box) (s : BeamFactory Box) (b : Beam Box)
    (hf : env.frameListener = true) (h0 : 0 ≤ s.current_truck)
    (h1 : s.current_truck < s.free_truck) (hb : s.truckAt s.current_truck = some b)
    (hid : b.trucknum = s.current_truck) :
    (removeTruck env s.current_truck s).current_truck = -1 ∧
    (removeTruck env s.current_truck s).truckAt s.current_truck = none ∧
    ∃ evs, (removeTruck env s.current_truck s).events = s.events ++ evs ∧
      evs.filter Event.isChangedCurrentVehicle = [Event.ChangedCurrentVehicle b.addr 0] := by
  have hg : ¬ (s.current_truck < 0 ∨ s.current_truck > s.free_truck) := by omega
  obtain ⟨hlen0, hlen⟩ := truckAt_lt_length s _ b hb
  have hd : desactivateCurrent s = s.setTruck s.current_truck (some b.desactivate) := by
    simp [desactivateCurrent, h0, h1, hb]
  have hat : (s.setTruck s.current_truck (some b.desactivate)).truckAt s.current_truck =
      some b.desactivate := truckAt_setTruck_same s _ _ hlen0 hlen
  have hs1 : setCurrentTruck env (-1) s =
      ({ s.setTruck s.current_truck (some b.desactivate) with
          previous_truck := s.current_truck, current_truck := -1 } : BeamFactory Box).emit
        (Event.ChangedCurrentVehicle b.addr 0) := by
    unfold setCurrentTruck
    rw [hd]
    simp only []
    rw [notifyCurrentVehicle_previous_only env _ hf
      (by simp only [setTruck_current_truck]; exact h0) (by simp only []; decide)]
    have e : ∀ S : BeamFactory Box,
        S.trucks = (s.setTruck s.current_truck (some b.desactivate)).trucks →
        S.truckAt s.current_truck = some b.desactivate :=
      fun S hS => (truckAt_congr _ S hS _).trans hat
    simp only [setTruck_current_truck]
    congr 2
    exact congrArg ptrOf (e _ rfl)
  have hat1 : (setCurrentTruck env (-1) s).truckAt s.current_truck = some b.desactivate := by
    rw [hs1]
    exact hat
  refine ⟨?_, ?_, ?_⟩
  · simp only [removeTruck, hg, if_false, if_true]
    split_ifs
    · rw [removeBeam_current_truck, hs1]
      rfl
    · rw [_deleteTruck_current_truck, removeBeam_current_truck, hs1]
      rfl
  · rw [truckAt_congr _ _ (removeTruck_trucks env _ s hg)]
    simp only [if_true, hat1, _deleteTruck, emit_truckAt]
    have : b.desactivate.trucknum = s.current_truck := hid
    rw [this]
    exact truckAt_setTruck_self_none _ _
  · simp only [removeTruck, hg, if_false, if_true]
    obtain ⟨evs, e1, e2⟩ := removeBeam_events
      ((setCurrentTruck env (-1) s).truckAt s.current_truck) (setCurrentTruck env (-1) s)
    have e0 : (setCurrentTruck env (-1) s).events =
        s.events ++ [Event.ChangedCurrentVehicle b.addr 0] := by
      rw [hs1]
      simp
    split_ifs
    · refine ⟨[Event.ChangedCurrentVehicle b.addr 0] ++ evs, ?_, ?_⟩
      · rw [e1, e0]
        simp
      · simp [List.filter_append, e2, Event.isChangedCurrentVehicle]
    · obtain ⟨evs2, e3, e4⟩ := _deleteTruck_events
        ((removeBeam ((setCurrentTruck env (-1) s).truckAt s.current_truck)
          (setCurrentTruck env (-1) s)).2.truckAt s.current_truck)
        (removeBeam ((setCurrentTruck env (-1) s).truckAt s.current_truck)
          (setCurrentTruck env (-1) s)).2
      refine ⟨[Event.ChangedCurrentVehicle b.addr 0] ++ evs ++ evs2, ?_, ?_⟩
      · rw [e3, e1, e0]
        simp
      · simp [List.filter_append, e2, e4, Event.isChangedCurrentVehicle]

theorem removeTruck_current_witness :
    (removeTruck (sampleEnv 2 true (fun _ _ => false)) 0
      { sampleFactory [some (sampleBeam 0 0 0), none] 0 with current_truck := 0 }).current_truck
      = -1 ∧
    (removeTruck (sampleEnv 2 true (fun _ _ => false)) 0
      { sampleFactory [some (sampleBeam 0 0 0), none] 0 with current_truck := 0 }).truckAt 0
      = none ∧
    ∃ evs, (removeTruck (sampleEnv 2 true (fun _ _ => false)) 0
      { sampleFactory [some (sampleBeam 0 0 0), none] 0 with current_truck := 0 }).events
        = [] ++ evs ∧
      evs.filter Event.isChangedCurrentVehicle = [Event.ChangedCurrentVehicle 1 0] :=
  removeTruck_current (sampleEnv 2 true (fun _ _ => false))
    { sampleFactory [some (sampleBeam 0 0 0), none] 0 with current_truck := 0 }
    (sampleBeam 0 0 0) rfl (by decide) (by decide) (by decide) (by decide)

/-! ### Relations between registry states -/

theorem slotRel_mono {R R2 : Beam Box → Beam Box → Prop} (h : ∀ b b2, R b b2 → R2 b b2)
    {o o2 : Option (Beam Box)} (hr : SlotRel R o o2) : SlotRel R2 o o2 := by
  cases o <;> cases o2 <;> simp_all [SlotRel]

theorem slotRel_none_left {R : Beam Box → Beam Box → Prop} {o2 : Option (Beam Box)}
    (hr : SlotRel R none o2) : o2 = none := by
  cases o2 <;> simp_all [SlotRel]

theorem slotRel_none_right {R : Beam Box → Beam Box → Prop} {o : Option (Beam Box)}
    (hr : SlotRel R o none) : o = none := by
  cases o <;> simp_all [SlotRel]

theorem slotRel_some_left {R : Beam Box → Beam Box → Prop} {b : Beam Box}
    {o2 : Option (Beam Box)} (hr : SlotRel R (some b) o2) : ∃ b2, o2 = some b2 ∧ R b b2 := by
  cases o2 with
  | none => simp [SlotRel] at hr
  | some b2 => exact ⟨b2, rfl, hr⟩

theorem slotRel_some_right {R : Beam Box → Beam Box → Prop} {b2 : Beam Box}
    {o : Option (Beam Box)} (hr : SlotRel R o (some b2)) : ∃ b, o = some b ∧ R b b2 := by
  cases o with
  | none => simp [SlotRel] at hr
  | some b => exact ⟨b, rfl, hr⟩

theorem lifted_mono {R R2 : Beam Box → Beam Box → Prop} (h : ∀ b b2, R b b2 → R2 b b2)
    {s s2 : BeamFactory Box} (hl : Lifted R s s2) : Lifted R2 s s2 :=
  ⟨hl.1, hl.2.1, hl.2.2.1, fun t => slotRel_mono h (hl.2.2.2 t)⟩

theorem lifted_refl {R : Beam Box → Beam Box → Prop} (h : ∀ b, R b b) (s : BeamFactory Box) :
    Lifted R s s := by
  refine ⟨rfl, rfl, rfl, fun t => ?_⟩
  cases hb : s.truckAt t with
  | none => simp [SlotRel]
  | some b => exact h b

theorem lifted_trans {R R2 R3 : Beam Box → Beam Box → Prop}
    (h : ∀ a b c, R a b → R2 b c → R3 a c) {s s1 s2 : BeamFactory Box}
    (h1 : Lifted R s s1) (h2 : Lifted R2 s1 s2) : Lifted R3 s s2 := by
  refine ⟨h2.1.trans h1.1, h2.2.1.trans h1.2.1, h2.2.2.1.trans h1.2.2.1, fun t => ?_⟩
  have a := h1.2.2.2 t
  have b := h2.2.2.2 t
  cases ho : s.truckAt t with
  | none =>
    rw [ho] at a
    rw [slotRel_none_left a] at b
    rw [slotRel_none_left b]
    simp [SlotRel]
  | some x =>
    rw [ho] at a
    obtain ⟨y, hy, rxy⟩ := slotRel_some_left a
    rw [hy] at b
    obtain ⟨z, hz, ryz⟩ := slotRel_some_left b
    rw [hz]
    exact h x y z rxy ryz

theorem lifted_symm {R R2 : Beam Box → Beam Box → Prop} (h : ∀ a b, R a b → R2 b a)
    {s s2 : BeamFactory Box} (hl : Lifted R s s2) : Lifted R2 s2 s := by
  refine ⟨hl.1.symm, hl.2.1.symm, hl.2.2.1.symm, fun t => ?_⟩
  have a := hl.2.2.2 t
  cases ho : s.truckAt t with
  | none =>
    rw [ho] at a
    rw [slotRel_none_left a]
    simp [SlotRel]
  | some x =>
    rw [ho] at a
    obtain ⟨y, hy, rxy⟩ := slotRel_some_left a
    rw [hy]
    exact h x y rxy

theorem lifted_of_trucks_eq {R : Beam Box → Beam Box → Prop} {s s1 s2 : BeamFactory Box}
    (hl : Lifted R s s1) (ht : s2.trucks = s1.trucks) (hf : s2.free_truck = s1.free_truck)
    (hs : s2.simulatedTruck = s1.simulatedTruck) (ha : s2.forcedActive = s1.forcedActive) :
    Lifted R s s2 := by
  refine ⟨hf.trans hl.1, hs.trans hl.2.1, ha.trans hl.2.2.1, fun t => ?_⟩
  rw [truckAt_congr s1 s2 ht]
  exact hl.2.2.2 t

theorem lifted_setTruck {R : Beam Box → Beam Box → Prop} (hR : ∀ b, R b b)
    (s : BeamFactory Box) (t : Int) (b b2 : Beam Box) (hb : s.truckAt t = some b)
    (hr : R b b2) : Lifted R s (s.setTruck t (some b2)) := by
  refine ⟨by simp, by simp, by simp, fun u => ?_⟩
  by_cases h : t = u
  · subst h
    obtain ⟨h0, h1⟩ := truckAt_lt_length s t b hb
    rw [truckAt_setTruck_same s t _ h0 h1, hb]
    exact hr
  · rw [truckAt_setTruck_ne s t u _ h]
    cases hu : s.truckAt u with
    | none => simp [SlotRel]
    | some x => exact hR x

theorem sameBoxes_refl (b : Beam Box) : b.sameBoxes b := ⟨rfl, rfl⟩

theorem sameBoxes_trans (a b c : Beam Box) (h1 : a.sameBoxes b) (h2 : b.sameBoxes c) :
    a.sameBoxes c := ⟨h2.1.trans h1.1, h2.2.trans h1.2⟩

theorem sameBoxes_symm (a b : Beam Box) (h : a.sameBoxes b) : b.sameBoxes a :=
  ⟨h.1.symm, h.2.symm⟩

theorem sameGraph_refl (b : Beam Box) : b.sameGraph b := ⟨rfl, sameBoxes_refl b⟩

theorem sameGraph_trans (a b c : Beam Box) (h1 : a.sameGraph b) (h2 : b.sameGraph c) :
    a.sameGraph c := ⟨h2.1.trans h1.1, sameBoxes_trans a b c h1.2 h2.2⟩

theorem sameGraph_symm (a b : Beam Box) (h : a.sameGraph b) : b.sameGraph a :=
  ⟨h.1.symm, sameBoxes_symm a b h.2⟩

theorem sameState_refl (b : Beam Box) : b.sameState b := ⟨rfl, rfl, sameBoxes_refl b⟩

theorem sameGraph_of_sameState (b b2 : Beam Box) (h : b.sameState b2) : b.sameGraph b2 := by
  refine ⟨?_, h.2.2⟩
  simp [Beam.dormantEligible, h.1, h.2.1]

theorem dormantEligible_desactivated (b : Beam Box) (h1 : b.state = DESACTIVATED)
    (h2 : b.sleepcount = 0) : b.dormantEligible = false := by
  simp [Beam.dormantEligible, h1, h2, DESACTIVATED, SLEEPING, MAYSLEEP, GOSLEEP]

theorem dormantEligible_of_gosleep (b : Beam Box) (h : b.state = GOSLEEP) :
    b.dormantEligible = true := by
  simp [Beam.dormantEligible, h]

theorem dormantEligible_of_maysleep (b : Beam Box) (h : b.state = MAYSLEEP) :
    b.dormantEligible = true := by
  simp [Beam.dormantEligible, h]

theorem dormantEligible_of_sleeping (b : Beam Box) (h : b.state = SLEEPING) :
    b.dormantEligible = true := by
  simp [Beam.dormantEligible, h]

theorem desactivated_lt_of_dormantEligible (b : Beam Box) (h1 : b.dormantEligible = true)
    (h2 : b.state ≤ DESACTIVATED) : b.state = DESACTIVATED ∧ 5 ≤ b.sleepcount := by
  simp only [Beam.dormantEligible, Bool.or_eq_true, beq_iff_eq, Bool.and_eq_true,
    decide_eq_true_eq, SLEEPING, MAYSLEEP, GOSLEEP, DESACTIVATED] at h1 h2 ⊢
  omega

theorem wakes_refl (b : Beam Box) : b.wakes b := Or.inl rfl

theorem wakes_trans (a b c : Beam Box) (h1 : a.wakes b) (h2 : b.wakes c) : a.wakes c := by
  rcases h2 with rfl | ⟨hd, _, _, _⟩
  · exact h1
  · rcases h1 with rfl | ⟨_, hs, hc, _⟩
    · exact Or.inr ⟨hd, by assumption, by assumption, by assumption⟩
    · rw [dormantEligible_desactivated b hs hc] at hd
      cases hd

theorem sameBoxes_of_wakes (b b2 : Beam Box) (h : b.wakes b2) : b.sameBoxes b2 := by
  rcases h with rfl | ⟨_, _, _, h⟩
  · exact sameBoxes_refl _
  · exact h

theorem sleeps_refl (b : Beam Box) : b.sleeps b := Or.inl rfl

theorem sleeps_trans (a b c : Beam Box) (h1 : a.sleeps b) (h2 : b.sleeps c) : a.sleeps c := by
  rcases h2 with rfl | ⟨_, rfl⟩
  · exact h1
  · rcases h1 with rfl | ⟨hd, rfl⟩
    · exact Or.inr ⟨by assumption, rfl⟩
    · exact Or.inr ⟨hd, rfl⟩

theorem sameGraph_of_sleeps (b b2 : Beam Box) (h : b.sleeps b2) : b.sameGraph b2 := by
  rcases h with rfl | ⟨hd, rfl⟩
  · exact sameGraph_refl _
  · exact ⟨by rw [hd]; exact dormantEligible_of_gosleep _ rfl, rfl, rfl⟩

theorem predict_congr (env : Env Box) {s s2 : BeamFactory Box}
    (h : Lifted Beam.sameBoxes s s2) (a b : Nat) :
    predictTruckIntersectionCollAABB env s2 a b = predictTruckIntersectionCollAABB env s a b := by
  have ha := h.2.2.2 (a : Int)
  have hb := h.2.2.2 (b : Int)
  unfold predictTruckIntersectionCollAABB
  cases hoa : s.truckAt (a : Int) with
  | none =>
    rw [hoa] at ha
    rw [slotRel_none_left ha]
  | some x =>
    rw [hoa] at ha
    obtain ⟨x2, hx2, rx⟩ := slotRel_some_left ha
    rw [hx2]
    cases hob : s.truckAt (b : Int) with
    | none =>
      rw [hob] at hb
      rw [slotRel_none_left hb]
    | some y =>
      rw [hob] at hb
      obtain ⟨y2, hy2, ry⟩ := slotRel_some_left hb
      rw [hy2]
      simp only [predictIntersectionColl, rx.1, rx.2, ry.1, ry.2]

theorem closed_congr (env : Env Box) {s s2 : BeamFactory Box} (h : Lifted Beam.sameBoxes s s2)
    (hd : ∀ (t : Int) (b b2 : Beam Box), s.truckAt t = some b → s2.truckAt t = some b2 →
      b2.dormantEligible = true → b.dormantEligible = true)
    (j : Nat) (hc : Closed env s j) : Closed env s2 j := by
  intro t ht htj bt hbt hdt
  rw [h.1] at ht
  obtain ⟨b, hb, _⟩ := slotRel_some_right (hbt ▸ h.2.2.2 (t : Int))
  rw [predict_congr env h]
  exact hc t ht htj b hb (hd _ b bt hb hbt hdt)

theorem checkForActive_congr (env : Env Box) {s s2 : BeamFactory Box}
    (h : Lifted Beam.sameGraph s s2) (fuel j : Nat) (sl : List Nat) :
    checkForActive env s2 fuel j sl = checkForActive env s fuel j sl := by
  have hb : Lifted Beam.sameBoxes s s2 := lifted_mono (fun _ _ r => r.2) h
  induction fuel generalizing j sl with
  | zero => rfl
  | succ fuel ih =>
    have hp : (fun (t : Nat) => (s2.truckAt (t : Int)).isSome && !(j :: sl).contains t &&
          predictTruckIntersectionCollAABB env s2 t j) =
        (fun (t : Nat) => (s.truckAt (t : Int)).isSome && !(j :: sl).contains t &&
          predictTruckIntersectionCollAABB env s t j) := by
      funext t
      rw [predict_congr env hb]
      have := h.2.2.2 (t : Int)
      cases ho : s.truckAt (t : Int) with
      | none =>
        rw [ho] at this
        rw [slotRel_none_left this]
      | some x =>
        rw [ho] at this
        obtain ⟨y, hy, _⟩ := slotRel_some_left this
        rw [hy]
        rfl
    simp only [checkForActive, hp, h.1]
    cases (List.range s.free_truck.toNat).find? (fun (t : Nat) =>
        (s.truckAt (t : Int)).isSome && !(j :: sl).contains t &&
          predictTruckIntersectionCollAABB env s t j) with
    | none => rfl
    | some t =>
      simp only
      have := h.2.2.2 (t : Int)
      cases ho : s.truckAt (t : Int) with
      | none =>
        rw [ho] at this
        rw [slotRel_none_left this]
      | some x =>
        rw [ho] at this
        obtain ⟨y, hy, r⟩ := slotRel_some_left this
        rw [hy]
        simp only [r.1, ih]

/-! ### `checkForActive` -/

theorem countP_lt_countP_of_mem {α : Type} {p q : α → Bool} {l : List α} (a : α)
    (h : ∀ x ∈ l, p x = true → q x = true) (ha : a ∈ l) (hq : q a = true) (hp : p a = false) :
    l.countP p < l.countP q := by
  induction l with
  | nil => cases ha
  | cons x rest ih =>
    have hmono : rest.countP p ≤ rest.countP q :=
      List.countP_mono_left (fun y hy => h y (List.mem_cons_of_mem _ hy))
    rcases List.mem_cons.mp ha with rfl | hmem
    · rw [List.countP_cons_of_pos _ _ hq, List.countP_cons_of_neg _ _ (by simp [hp])]
      omega
    · have ih2 := ih (fun y hy => h y (List.mem_cons_of_mem _ hy)) hmem
      by_cases hpx : p x = true
      · rw [List.countP_cons_of_pos _ _ hpx,
          List.countP_cons_of_pos _ _ (h x (List.mem_cons_self _ _) hpx)]
        omega
      · rw [List.countP_cons_of_neg _ _ hpx]
        by_cases hqx : q x = true
        · rw [List.countP_cons_of_pos _ _ hqx]
          omega
        · rw [List.countP_cons_of_neg _ _ hqx]
          exact ih2

theorem unvisited_cons_lt (s : BeamFactory Box) (sl : List Nat) (t : Nat)
    (ht : t < s.free_truck.toNat) (hn : sl.contains t = false) :
    unvisited s (t :: sl) < unvisited s sl := by
  unfold unvisited
  apply countP_lt_countP_of_mem t
  · intro x _ hx
    simp only [List.contains_cons, Bool.not_eq_true', Bool.or_eq_false_iff] at hx
    simp only [hx.2, Bool.not_false]
  · exact List.mem_range.mpr ht
  · simp only [hn, Bool.not_false]
  · simp

theorem unvisited_le (s : BeamFactory Box) (sl : List Nat) :
    unvisited s sl ≤ s.free_truck.toNat := by
  unfold unvisited
  exact (List.countP_le_length _).trans (by simp)

theorem checkForActive_isSome_of_unvisited (env : Env Box) (s : BeamFactory Box) (fuel j : Nat)
    (sl : List Nat) (h : unvisited s (j :: sl) < fuel) :
    (checkForActive env s fuel j sl).isSome = true := by
  induction fuel generalizing j sl with
  | zero => omega
  | succ fuel ih =>
    unfold checkForActive
    simp only
    cases hf : (List.range s.free_truck.toNat).find? (fun (t : Nat) =>
        (s.truckAt (t : Int)).isSome && !(j :: sl).contains t &&
          predictTruckIntersectionCollAABB env s t j) with
    | none => rfl
    | some t =>
      obtain ⟨h1, h2, _⟩ := find?_range_eq_some.mp hf
      simp only [Bool.and_eq_true, Bool.not_eq_true'] at h2
      simp only
      cases hb : s.truckAt (t : Int) with
      | none => rfl
      | some b =>
        simp only
        split_ifs
        · apply ih
          have := unvisited_cons_lt s (j :: sl) t h1 h2.1.2
          omega
        · rfl

/-- With `free_truck + 1` units of fuel `checkForActive` returns. -/
theorem checkForActive_isSome (env : Env Box) (s : BeamFactory Box) (fuel j : Nat)
    (sl : List Nat) (h : s.free_truck.toNat < fuel) :
    (checkForActive env s fuel j sl).isSome = true :=
  checkForActive_isSome_of_unvisited env s fuel j sl
    (Nat.lt_of_le_of_lt (unvisited_le s _) h)

theorem checkForActive_sleepy (env : Env Box) (s : BeamFactory Box) (fuel j : Nat)
    (sl sl2 : List Nat) (r : Bool) (h : checkForActive env s fuel j sl = some (r, sl2)) :
    j ∈ sl2 ∧ (∀ i ∈ sl, i ∈ sl2) ∧ ∀ i ∈ sl2, i ∈ sl ∨ i = j ∨
      ((i : Int) < s.free_truck ∧ ∃ b : Beam Box, s.truckAt (i : Int) = some b ∧
        b.dormantEligible = true) := by
  induction fuel generalizing j sl with
  | zero => simp [checkForActive] at h
  | succ fuel ih =>
    unfold checkForActive at h
    simp only at h
    have base : j ∈ j :: sl ∧ (∀ i ∈ sl, i ∈ j :: sl) ∧ ∀ i ∈ j :: sl, i ∈ sl ∨ i = j ∨
        ((i : Int) < s.free_truck ∧ ∃ b : Beam Box, s.truckAt (i : Int) = some b ∧
          b.dormantEligible = true) := by
      refine ⟨List.mem_cons_self _ _, fun i hi => List.mem_cons_of_mem _ hi, fun i hi => ?_⟩
      rcases List.mem_cons.mp hi with rfl | hi
      · exact Or.inr (Or.inl rfl)
      · exact Or.inl hi
    cases hf : (List.range s.free_truck.toNat).find? (fun (t : Nat) =>
        (s.truckAt (t : Int)).isSome && !(j :: sl).contains t &&
          predictTruckIntersectionCollAABB env s t j) with
    | none =>
      rw [hf] at h
      simp only [Option.some.injEq, Prod.mk.injEq] at h
      rw [← h.2]
      exact base
    | some t =>
      rw [hf] at h
      obtain ⟨h1, _, _⟩ := find?_range_eq_some.mp hf
      simp only at h
      cases hb : s.truckAt (t : Int) with
      | none =>
        rw [hb] at h
        simp only [Option.some.injEq, Prod.mk.injEq] at h
        rw [← h.2]
        exact base
      | some b =>
        rw [hb] at h
        simp only at h
        by_cases hd : b.dormantEligible = true
        · rw [if_pos hd] at h
          obtain ⟨_, a2, a3⟩ := ih t (j :: sl) h
          refine ⟨a2 j (List.mem_cons_self _ _), fun i hi => a2 i (List.mem_cons_of_mem _ hi),
            fun i hi => ?_⟩
          rcases a3 i hi with hi2 | rfl | hi2
          · rcases List.mem_cons.mp hi2 with rfl | hi3
            · exact Or.inr (Or.inl rfl)
            · exact Or.inl hi3
          · exact Or.inr (Or.inr ⟨by omega, b, hb, hd⟩)
          · exact Or.inr (Or.inr hi2)
        · rw [if_neg hd] at h
          simp only [Option.some.injEq, Prod.mk.injEq] at h
          rw [← h.2]
          exact base

theorem checkForActive_true (env : Env Box) (s : BeamFactory Box) (fuel j : Nat)
    (sl sl2 : List Nat) (h : checkForActive env s fuel j sl = some (true, sl2)) :
    ∃ t : Nat, (t : Int) < s.free_truck ∧ ∃ b : Beam Box, s.truckAt (t : Int) = some b ∧
      b.dormantEligible = false := by
  induction fuel generalizing j sl with
  | zero => simp [checkForActive] at h
  | succ fuel ih =>
    unfold checkForActive at h
    simp only at h
    cases hf : (List.range s.free_truck.toNat).find? (fun (t : Nat) =>
        (s.truckAt (t : Int)).isSome && !(j :: sl).contains t &&
          predictTruckIntersectionCollAABB env s t j) with
    | none =>
      rw [hf] at h
      simp at h
    | some t =>
      rw [hf] at h
      obtain ⟨h1, h2, _⟩ := find?_range_eq_some.mp hf
      simp only at h
      cases hb : s.truckAt (t : Int) with
      | none =>
        rw [hb] at h2
        simp at h2
      | some b =>
        rw [hb] at h
        simp only at h
        by_cases hd : b.dormantEligible = true
        · rw [if_pos hd] at h
          exact ih t (j :: sl) h
        · exact ⟨t, by omega, b, hb, by simpa using hd⟩

/-! ### Loops in the option monad -/

theorem foldlM_cons_eq_some {σ α : Type} (f : σ → α → Option σ) (a : α) (l : List α)
    (s s2 : σ) :
    (a :: l).foldlM f s = some s2 ↔ ∃ s1, f s a = some s1 ∧ l.foldlM f s1 = some s2 := by
  rw [List.foldlM_cons]
  cases h : f s a with
  | none => simp
  | some s1 => simp

theorem foldlM_eq_self {σ α : Type} (f : σ → α → Option σ) (l : List α) (s : σ)
    (h : ∀ a ∈ l, f s a = some s) : l.foldlM f s = some s := by
  induction l with
  | nil => rfl
  | cons a rest ih =>
    rw [foldlM_cons_eq_some]
    exact ⟨s, h a (List.mem_cons_self _ _), ih (fun b hb => h b (List.mem_cons_of_mem _ hb))⟩

/-! ### Putting a cluster to sleep -/

theorem truckAt_toNat (s : BeamFactory Box) (t : Int) (h : 0 ≤ t) :
    s.truckAt t = s.truckAt ((t.toNat : Nat) : Int) := by
  rw [Int.toNat_of_nonneg h]

theorem putToSleepStep_truckAt (sl : List Nat) (s : BeamFactory Box) (i u : Nat) :
    (putToSleepStep sl s i).truckAt (u : Int) =
    if u = i ∧ sl.contains u = true then
      (s.truckAt (u : Int)).map (fun b => { b with state := GOSLEEP })
    else s.truckAt (u : Int) := by
  unfold putToSleepStep
  cases hb : s.truckAt (i : Int) with
  | none =>
    simp only
    split_ifs with h
    · rw [h.1, hb]
      rfl
    · rfl
  | some b =>
    simp only
    by_cases hc : sl.contains i = true
    · rw [if_pos hc]
      by_cases hu : u = i
      · subst hu
        obtain ⟨h0, h1⟩ := truckAt_lt_length s _ b hb
        rw [truckAt_setTruck_same s _ _ h0 h1, if_pos ⟨rfl, hc⟩, hb]
        rfl
      · rw [truckAt_setTruck_ne s _ _ _ (by omega), if_neg (fun h => hu h.1)]
    · rw [if_neg hc]
      split_ifs with h
      · exact absurd (h.1 ▸ h.2) hc
      · rfl

theorem putToSleepStep_fields (sl : List Nat) (s : BeamFactory Box) (i : Nat) :
    (putToSleepStep sl s i).free_truck = s.free_truck ∧
    (putToSleepStep sl s i).simulatedTruck = s.simulatedTruck ∧
    (putToSleepStep sl s i).forcedActive = s.forcedActive := by
  unfold putToSleepStep
  cases s.truckAt (i : Int) with
  | none => exact ⟨rfl, rfl, rfl⟩
  | some b =>
    simp only
    split_ifs
    · exact ⟨by simp, by simp, by simp⟩
    · exact ⟨rfl, rfl, rfl⟩

theorem putToSleep_fold (sl : List Nat) (l : List Nat) (hnd : l.Nodup) (s : BeamFactory Box) :
    (l.foldl (putToSleepStep sl) s).free_truck = s.free_truck ∧
    (l.foldl (putToSleepStep sl) s).simulatedTruck = s.simulatedTruck ∧
    (l.foldl (putToSleepStep sl) s).forcedActive = s.forcedActive ∧
    ∀ u : Nat, (l.foldl (putToSleepStep sl) s).truckAt (u : Int) =
      if u ∈ l ∧ sl.contains u = true then
        (s.truckAt (u : Int)).map (fun b => { b with state := GOSLEEP })
      else s.truckAt (u : Int) := by
  induction l generalizing s with
  | nil => exact ⟨rfl, rfl, rfl, fun u => by simp⟩
  | cons i rest ih =>
    rw [List.foldl_cons]
    obtain ⟨a1, a2, a3, a4⟩ := ih (List.nodup_cons.mp hnd).2 (putToSleepStep sl s i)
    obtain ⟨f1, f2, f3⟩ := putToSleepStep_fields sl s i
    refine ⟨a1.trans f1, a2.trans f2, a3.trans f3, fun u => ?_⟩
    rw [a4 u, putToSleepStep_truckAt sl s i u]
    have hni : i ∉ rest := (List.nodup_cons.mp hnd).1
    by_cases hc : sl.contains u = true
    · by_cases hu : u = i
      · subst hu
        rw [if_neg (fun h => hni h.1), if_pos ⟨rfl, hc⟩, if_pos ⟨List.mem_cons_self _ _, hc⟩]
      · by_cases hr : u ∈ rest
        · rw [if_pos ⟨hr, hc⟩, if_neg (fun h => hu h.1), if_pos ⟨List.mem_cons_of_mem _ hr, hc⟩]
        · rw [if_neg (fun h => hr h.1), if_neg (fun h => hu h.1),
            if_neg (fun h => (List.mem_cons.mp h.1).elim hu hr)]
    · rw [if_neg (fun h => hc h.2), if_neg (fun h => hc h.2), if_neg (fun h => hc h.2)]

theorem putToSleep_truckAt (sl : List Nat) (s : BeamFactory Box) (u : Nat) :
    (putToSleep sl s).truckAt (u : Int) =
      if ((u : Int) < s.free_truck) ∧ sl.contains u = true then
        (s.truckAt (u : Int)).map (fun b => { b with state := GOSLEEP })
      else s.truckAt (u : Int) := by
  unfold putToSleep
  rw [(putToSleep_fold sl _ (List.nodup_range _) s).2.2.2 u]
  have : u ∈ List.range s.free_truck.toNat ↔ (u : Int) < s.free_truck := by
    rw [List.mem_range]
    omega
  simp only [this]

theorem lifted_putToSleep (sl : List Nat) (s : BeamFactory Box)
    (h : ∀ i ∈ sl, (i : Int) < s.free_truck → ∀ b : Beam Box, s.truckAt (i : Int) = some b →
      b.dormantEligible = true) :
    Lifted Beam.sleeps s (putToSleep sl s) := by
  obtain ⟨f1, f2, f3, _⟩ := putToSleep_fold sl _ (List.nodup_range s.free_truck.toNat) s
  refine ⟨f1, f2, f3, fun t => ?_⟩
  by_cases ht : t < 0
  · rw [truckAt_neg _ _ ht, truckAt_neg _ _ ht]
    simp [SlotRel]
  · rw [truckAt_toNat s t (by omega), truckAt_toNat (putToSleep sl s) t (by omega),
      putToSleep_truckAt]
    cases hb : s.truckAt ((t.toNat : Nat) : Int) with
    | none =>
      simp [SlotRel]
    | some b =>
      split_ifs with hc
      · have hmem : t.toNat ∈ sl := by simpa using hc.2
        exact Or.inr ⟨h _ hmem hc.1 b hb, rfl⟩
      · exact Or.inl rfl

/-! ### The second loop of `checkSleepingState` -/

theorem sleepStep_cases (env : Env Box) (fuel : Nat) (s s2 : BeamFactory Box) (t : Nat)
    (h : sleepStep env fuel s t = some s2) :
    s2 = s ∨ ∃ (b : Beam Box) (sl : List Nat), s.truckAt (t : Int) = some b ∧
      b.state = MAYSLEEP ∧ checkForActive env s fuel t [] = some (false, sl) ∧
      s2 = putToSleep sl s := by
  unfold sleepStep at h
  cases hb : s.truckAt (t : Int) with
  | none =>
    rw [hb] at h
    simp only [Option.some.injEq] at h
    exact Or.inl h.symm
  | some b =>
    rw [hb] at h
    simp only at h
    by_cases hm : b.state = MAYSLEEP
    · rw [if_pos hm] at h
      cases hc : checkForActive env s fuel t [] with
      | none =>
        rw [hc] at h
        cases h
      | some r =>
        obtain ⟨r1, sl⟩ := r
        rw [hc] at h
        cases r1 with
        | true =>
          simp only [Option.some.injEq] at h
          exact Or.inl h.symm
        | false =>
          simp only [Option.some.injEq] at h
          exact Or.inr ⟨b, sl, rfl, hm, rfl, h.symm⟩
    · rw [if_neg hm] at h
      simp only [Option.some.injEq] at h
      exact Or.inl h.symm

theorem sleepStep_lifted (env : Env Box) (fuel : Nat) (s s2 : BeamFactory Box) (t : Nat)
    (h : sleepStep env fuel s t = some s2) : Lifted Beam.sleeps s s2 := by
  rcases sleepStep_cases env fuel s s2 t h with rfl | ⟨b, sl, hb, hm, hc, rfl⟩
  · exact lifted_refl sleeps_refl _
  · apply lifted_putToSleep
    intro i hi _ bi hbi
    rcases (checkForActive_sleepy env s fuel t [] sl false hc).2.2 i hi with h0 | rfl | ⟨_, b3, h3, h4⟩
    · cases h0
    · rw [hb] at hbi
      cases hbi
      exact dormantEligible_of_maysleep _ hm
    · rw [h3] at hbi
      cases hbi
      exact h4

theorem sleepStep_settled (env : Env Box) (fuel : Nat) (s s2 : BeamFactory Box) (t : Nat)
    (ht : (t : Int) < s.free_truck) (h : sleepStep env fuel s t = some s2) (b2 : Beam Box)
    (hb2 : s2.truckAt (t : Int) = some b2) (hm2 : b2.state = MAYSLEEP) :
    ∃ sl, checkForActive env s2 fuel t [] = some (true, sl) := by
  rcases sleepStep_cases env fuel s s2 t h with rfl | ⟨b, sl, hb, hm, hc, rfl⟩
  · unfold sleepStep at h
    rw [hb2] at h
    simp only [hm2, if_true] at h
    cases hc : checkForActive env s2 fuel t [] with
    | none =>
      rw [hc] at h
      cases h
    | some r =>
      obtain ⟨r1, sl⟩ := r
      cases r1 with
      | true => exact ⟨sl, rfl⟩
      | false =>
        exfalso
        rw [hc] at h
        simp only [Option.some.injEq] at h
        have hmem := (checkForActive_sleepy env s2 fuel t [] sl false hc).1
        have := putToSleep_truckAt sl s2 t
        rw [h, hb2, if_pos ⟨ht, by simpa using hmem⟩] at this
        simp only [Option.map_some', Option.some.injEq] at this
        rw [this] at hm2
        simp [GOSLEEP, MAYSLEEP] at hm2
  · exfalso
    have hmem := (checkForActive_sleepy env s fuel t [] sl false hc).1
    rw [putToSleep_truckAt, if_pos ⟨ht, by simpa using hmem⟩, hb] at hb2
    simp only [Option.map_some', Option.some.injEq] at hb2
    rw [← hb2] at hm2
    simp [GOSLEEP, MAYSLEEP] at hm2

theorem lifted_sameGraph_of_sleeps {s s2 : BeamFactory Box} (h : Lifted Beam.sleeps s s2) :
    Lifted Beam.sameGraph s s2 :=
  lifted_mono sameGraph_of_sleeps h

theorem sleepLoop_spec (env : Env Box) (fuel : Nat) (l : List Nat) (s s2 : BeamFactory Box)
    (hl : ∀ t ∈ l, (t : Int) < s.free_truck)
    (h : l.foldlM (sleepStep env fuel) s = some s2) :
    Lifted Beam.sleeps s s2 ∧ ∀ t ∈ l, ∀ b2 : Beam Box, s2.truckAt (t : Int) = some b2 →
      b2.state = MAYSLEEP → ∃ sl, checkForActive env s2 fuel t [] = some (true, sl) := by
  induction l generalizing s with
  | nil =>
    simp only [List.foldlM_nil, Option.pure_def, Option.some.injEq] at h
    subst h
    exact ⟨lifted_refl sleeps_refl _, fun t ht => by cases ht⟩
  | cons t rest ih =>
    obtain ⟨s1, h1, h2⟩ := (foldlM_cons_eq_some _ _ _ _ _).mp h
    have l1 := sleepStep_lifted env fuel s s1 t h1
    obtain ⟨l2, a2⟩ := ih s1
      (fun u hu => by rw [l1.1]; exact hl u (List.mem_cons_of_mem _ hu)) h2
    refine ⟨lifted_trans sleeps_trans l1 l2, fun u hu b2 hb2 hm2 => ?_⟩
    rcases List.mem_cons.mp hu with rfl | hu
    · obtain ⟨b1, hb1, r⟩ := slotRel_some_right (hb2 ▸ l2.2.2.2 (u : Int))
      rcases r with rfl | ⟨_, rfl⟩
      · obtain ⟨sl, hsl⟩ := sleepStep_settled env fuel s s1 u
          (hl u (List.mem_cons_self _ _)) h1 b2 hb1 hm2
        exact ⟨sl, by rw [checkForActive_congr env (lifted_sameGraph_of_sleeps l2)]; exact hsl⟩
      · simp [GOSLEEP, MAYSLEEP] at hm2
    · exact a2 u hu b2 hb2 hm2

theorem sleepLoop_stable (env : Env Box) (fuel : Nat) (s s2 : BeamFactory Box)
    (h : (List.range s.free_truck.toNat).foldlM (sleepStep env fuel) s = some s2) :
    Lifted Beam.sleeps s s2 ∧ SleepStable env fuel s2 := by
  obtain ⟨a1, a2⟩ := sleepLoop_spec env fuel _ s s2
    (fun t ht => by have := List.mem_range.mp ht; omega) h
  refine ⟨a1, fun t ht b hb hm => a2 t ?_ b hb hm⟩
  rw [a1.1] at ht
  exact List.mem_range.mpr (by omega)

theorem sleepLoop_eq_self (env : Env Box) (fuel : Nat) (s : BeamFactory Box)
    (h : SleepStable env fuel s) :
    (List.range s.free_truck.toNat).foldlM (sleepStep env fuel) s = some s := by
  apply foldlM_eq_self
  intro t ht
  have ht2 : (t : Int) < s.free_truck := by have := List.mem_range.mp ht; omega
  unfold sleepStep
  cases hb : s.truckAt (t : Int) with
  | none => rfl
  | some b =>
    simp only
    by_cases hm : b.state = MAYSLEEP
    · obtain ⟨sl, hsl⟩ := h t ht2 b hb hm
      rw [if_pos hm, hsl]
    · rw [if_neg hm]

theorem sleepStep_isSome (env : Env Box) (fuel : Nat) (s : BeamFactory Box) (t : Nat)
    (hf : s.free_truck.toNat < fuel) : ∃ s2, sleepStep env fuel s t = some s2 := by
  unfold sleepStep
  cases hb : s.truckAt (t : Int) with
  | none => exact ⟨s, rfl⟩
  | some b =>
    simp only
    by_cases hm : b.state = MAYSLEEP
    · rw [if_pos hm]
      have := checkForActive_isSome env s fuel t [] hf
      cases hc : checkForActive env s fuel t [] with
      | none =>
        rw [hc] at this
        cases this
      | some r =>
        obtain ⟨r1, sl⟩ := r
        cases r1 with
        | true => exact ⟨s, rfl⟩
        | false => exact ⟨putToSleep sl s, rfl⟩
    · rw [if_neg hm]
      exact ⟨s, rfl⟩

theorem sleepLoop_isSome (env : Env Box) (fuel : Nat) (l : List Nat) (s : BeamFactory Box)
    (hf : s.free_truck.toNat < fuel) : ∃ s2, l.foldlM (sleepStep env fuel) s = some s2 := by
  induction l generalizing s with
  | nil => exact ⟨s, rfl⟩
  | cons t rest ih =>
    obtain ⟨s1, h1⟩ := sleepStep_isSome env fuel s t hf
    have l1 := sleepStep_lifted env fuel s s1 t h1
    obtain ⟨s2, h2⟩ := ih s1 (by rw [l1.1]; exact hf)
    exact ⟨s2, (foldlM_cons_eq_some _ _ _ _ _).mpr ⟨s1, h1, h2⟩⟩

/-! ### `recursiveActivation` -/

theorem setTruck_setTruck (s : BeamFactory Box) (t : Int) (x y : Option (Beam Box)) :
    (s.setTruck t x).setTruck t y = s.setTruck t y := by
  unfold setTruck
  split_ifs
  · rfl
  · simp [List.set_set]

theorem wakeTruck_eq (env : Env Box) (s : BeamFactory Box) (t : Nat) (b : Beam Box)
    (hb : s.truckAt (t : Int) = some b) :
    ∃ d : Bool, wakeTruck env s t b =
      s.setTruck (t : Int) (some { b.desactivate with disableDrag := d }) := by
  obtain ⟨h0, h1⟩ := truckAt_lt_length s _ b hb
  unfold wakeTruck
  simp only
  cases (s.setTruck (t : Int) (some b.desactivate)).getTruck
      (s.setTruck (t : Int) (some b.desactivate)).simulatedTruck with
  | none => exact ⟨b.disableDrag, rfl⟩
  | some sim =>
    simp only [truckAt_setTruck_same s _ _ h0 h1, setTruck_setTruck]
    exact ⟨_, rfl⟩

theorem wakeTruck_lifted (env : Env Box) (s : BeamFactory Box) (t : Nat) (b : Beam Box)
    (hb : s.truckAt (t : Int) = some b) (hd : b.dormantEligible = true) :
    Lifted Beam.wakes s (wakeTruck env s t b) := by
  obtain ⟨d, e⟩ := wakeTruck_eq env s t b hb
  rw [e]
  exact lifted_setTruck wakes_refl s _ b _ hb (Or.inr ⟨hd, rfl, rfl, rfl, rfl⟩)

theorem wakeTruck_truckAt_self (env : Env Box) (s : BeamFactory Box) (t : Nat) (b : Beam Box)
    (hb : s.truckAt (t : Int) = some b) :
    ∃ bw : Beam Box, (wakeTruck env s t b).truckAt (t : Int) = some bw ∧
      bw.state = DESACTIVATED ∧ bw.sleepcount = 0 := by
  obtain ⟨d, e⟩ := wakeTruck_eq env s t b hb
  obtain ⟨h0, h1⟩ := truckAt_lt_length s _ b hb
  rw [e, truckAt_setTruck_same s _ _ h0 h1]
  exact ⟨_, rfl, rfl, rfl⟩

theorem wakeTruck_truckAt_ne (env : Env Box) (s : BeamFactory Box) (t u : Nat) (b : Beam Box)
    (hb : s.truckAt (t : Int) = some b) (hu : u ≠ t) :
    (wakeTruck env s t b).truckAt (u : Int) = s.truckAt (u : Int) := by
  obtain ⟨d, e⟩ := wakeTruck_eq env s t b hb
  rw [e, truckAt_setTruck_ne s _ _ _ (by omega)]

theorem lifted_sameBoxes_of_wakes {s s2 : BeamFactory Box} (h : Lifted Beam.wakes s s2) :
    Lifted Beam.sameBoxes s s2 :=
  lifted_mono sameBoxes_of_wakes h

theorem closed_of_wakes (env : Env Box) {s s2 : BeamFactory Box} (h : Lifted Beam.wakes s s2)
    (j : Nat) (hc : Closed env s j) : Closed env s2 j := by
  apply closed_congr env (lifted_sameBoxes_of_wakes h) _ j hc
  intro t b b2 hb hb2 hd2
  have r := h.2.2.2 t
  rw [hb, hb2] at r
  rcases r with rfl | ⟨hd, _⟩
  · exact hd2
  · exact hd

theorem truckAt_of_wakes_of_not_dormant {s s2 : BeamFactory Box} (h : Lifted Beam.wakes s s2)
    (t : Int) (b : Beam Box) (hb : s.truckAt t = some b) (hd : b.dormantEligible = false) :
    s2.truckAt t = some b := by
  obtain ⟨b2, hb2, r⟩ := slotRel_some_left (hb ▸ h.2.2.2 t)
  rcases r with rfl | ⟨hd2, _⟩
  · exact hb2
  · rw [hd] at hd2
    cases hd2

theorem dormant_of_wakes {s s2 : BeamFactory Box} (h : Lifted Beam.wakes s s2)
    (t : Int) (b2 : Beam Box) (hb2 : s2.truckAt t = some b2) (hd : b2.dormantEligible = true) :
    s.truckAt t = some b2 := by
  obtain ⟨b, hb, r⟩ := slotRel_some_right (hb2 ▸ h.2.2.2 t)
  rcases r with rfl | ⟨_, hs, hc, _⟩
  · exact hb
  · rw [dormantEligible_desactivated b2 hs hc] at hd
    cases hd

theorem recursiveActivationStep_cases (env : Env Box)
    (recurse : Nat → BeamFactory Box → Option (BeamFactory Box)) (j : Nat)
    (s s1 : BeamFactory Box) (t : Nat) (h : recursiveActivationStep env recurse j s t = some s1) :
    (s1 = s ∧ (t ≠ j → ∀ b : Beam Box, s.truckAt (t : Int) = some b →
        b.dormantEligible = true → predictTruckIntersectionCollAABB env s t j = false)) ∨
    (∃ b : Beam Box, t ≠ j ∧ s.truckAt (t : Int) = some b ∧ b.dormantEligible = true ∧
      recurse t (wakeTruck env s t b) = some s1) := by
  unfold recursiveActivationStep at h
  by_cases htj : t = j
  · rw [if_pos htj] at h
    simp only [Option.some.injEq] at h
    exact Or.inl ⟨h.symm, fun hne => absurd htj hne⟩
  · rw [if_neg htj] at h
    cases hb : s.truckAt (t : Int) with
    | none =>
      rw [hb] at h
      simp only [Option.some.injEq] at h
      exact Or.inl ⟨h.symm, fun _ b hb2 => by cases hb2⟩
    | some b =>
      rw [hb] at h
      simp only at h
      by_cases hc : (b.dormantEligible && predictTruckIntersectionCollAABB env s t j) = true
      · rw [if_pos hc] at h
        simp only [Bool.and_eq_true] at hc
        exact Or.inr ⟨b, htj, rfl, hc.1, h⟩
      · rw [if_neg hc] at h
        simp only [Option.some.injEq] at h
        refine Or.inl ⟨h.symm, fun _ b2 hb2 hd => ?_⟩
        cases hb2
        simpa [hd] using hc

theorem recursiveActivationLoop_spec (env : Env Box)
    (recurse : Nat → BeamFactory Box → Option (BeamFactory Box))
    (hrec : ∀ t s s2, recurse t s = some s2 → WakeSpec env t s s2)
    (j : Nat) (l : List Nat) (s s2 : BeamFactory Box)
    (h : l.foldlM (recursiveActivationStep env recurse j) s = some s2) :
    Lifted Beam.wakes s s2 ∧
    (∀ t ∈ l, t ≠ j → ∀ bt : Beam Box, s2.truckAt (t : Int) = some bt →
      bt.dormantEligible = true → predictTruckIntersectionCollAABB env s2 t j = false) ∧
    ∀ t : Nat, s2.truckAt (t : Int) ≠ s.truckAt (t : Int) → Closed env s2 t := by
  induction l generalizing s with
  | nil =>
    simp only [List.foldlM_nil, Option.pure_def, Option.some.injEq] at h
    subst h
    exact ⟨lifted_refl wakes_refl _, fun t ht => absurd ht (List.not_mem_nil t),
      fun t ht => absurd rfl ht⟩
  | cons t rest ih =>
    obtain ⟨s1, h1, h2⟩ := (foldlM_cons_eq_some _ _ _ _ _).mp h
    obtain ⟨l2, a2, c2⟩ := ih s1 h2
    rcases recursiveActivationStep_cases env recurse j s s1 t h1 with
      ⟨rfl, hA⟩ | ⟨b, htj, hb, hd, hr⟩
    · refine ⟨l2, fun u hu huj bt hbt hdt => ?_, c2⟩
      rcases List.mem_cons.mp hu with rfl | hu
      · rw [predict_congr env (lifted_sameBoxes_of_wakes l2)]
        exact hA huj bt (dormant_of_wakes l2 _ bt hbt hdt) hdt
      · exact a2 u hu huj bt hbt hdt
    · obtain ⟨lw, cw, dw⟩ := hrec t _ s1 hr
      have l0 := wakeTruck_lifted env s t b hb hd
      obtain ⟨bw, hbw, hs, hc⟩ := wakeTruck_truckAt_self env s t b hb
      have hnd := dormantEligible_desactivated bw hs hc
      have ht1 : s1.truckAt (t : Int) = some bw :=
        truckAt_of_wakes_of_not_dormant lw _ bw hbw hnd
      have ht2 : s2.truckAt (t : Int) = some bw :=
        truckAt_of_wakes_of_not_dormant l2 _ bw ht1 hnd
      have hclosed_t : Closed env s1 t := cw ⟨bw, hbw, by rw [hs]⟩
      refine ⟨lifted_trans wakes_trans (lifted_trans wakes_trans l0 lw) l2,
        fun u hu huj bt hbt hdt => ?_, fun u hu => ?_⟩
      · rcases List.mem_cons.mp hu with rfl | hu
        · rw [ht2] at hbt
          cases hbt
          rw [hnd] at hdt
          cases hdt
        · exact a2 u hu huj bt hbt hdt
      · by_cases e2 : s2.truckAt (u : Int) = s1.truckAt (u : Int)
        · apply closed_of_wakes env l2
          by_cases e1 : s1.truckAt (u : Int) = (wakeTruck env s t b).truckAt (u : Int)
          · by_cases hut : u = t
            · rw [hut]
              exact hclosed_t
            · exfalso
              apply hu
              rw [e2, e1, wakeTruck_truckAt_ne env s t u b hb hut]
          · exact dw u e1
        · exact c2 u e2

theorem recursiveActivation_spec (env : Env Box) (fuel j : Nat) (s s2 : BeamFactory Box)
    (h : recursiveActivation env fuel j s = some s2) : WakeSpec env j s s2 := by
  induction fuel generalizing j s s2 with
  | zero => simp [recursiveActivation] at h
  | succ fuel ih =>
    unfold recursiveActivation at h
    have trivial_case : s2 = s → (¬ ∃ bj : Beam Box, s.truckAt (j : Int) = some bj ∧
        bj.state ≤ DESACTIVATED) → WakeSpec env j s s2 := by
      rintro rfl hg
      exact ⟨lifted_refl wakes_refl _, fun hp => absurd hp hg, fun t ht => absurd rfl ht⟩
    cases hb : s.truckAt (j : Int) with
    | none =>
      rw [hb] at h
      simp only [Option.some.injEq] at h
      exact trivial_case h.symm (by rintro ⟨bj, hbj, _⟩; rw [hb] at hbj; cases hbj)
    | some bj =>
      rw [hb] at h
      simp only at h
      by_cases hg : bj.state > DESACTIVATED
      · rw [if_pos hg] at h
        simp only [Option.some.injEq] at h
        apply trivial_case h.symm
        rintro ⟨b2, hb2, hle⟩
        rw [hb] at hb2
        cases hb2
        omega
      · rw [if_neg hg] at h
        obtain ⟨a1, a2, a3⟩ := recursiveActivationLoop_spec env _ (fun t s s2 hr => ih t s s2 hr)
          j _ s s2 h
        refine ⟨a1, fun _ => ?_, a3⟩
        intro t ht htj bt hbt hdt
        rw [a1.1] at ht
        exact a2 t (List.mem_range.mpr (by omega)) htj bt hbt hdt

theorem recursiveActivation_eq_self (env : Env Box) (fuel j : Nat) (s : BeamFactory Box)
    (hf : 0 < fuel) (hc : Closed env s j) : recursiveActivation env fuel j s = some s := by
  cases fuel with
  | zero => omega
  | succ fuel =>
    unfold recursiveActivation
    cases hb : s.truckAt (j : Int) with
    | none => rfl
    | some bj =>
      simp only
      split_ifs
      · rfl
      · apply foldlM_eq_self
        intro t ht
        have ht2 : (t : Int) < s.free_truck := by have := List.mem_range.mp ht; omega
        unfold recursiveActivationStep
        by_cases htj : t = j
        · rw [if_pos htj]
        · rw [if_neg htj]
          cases hbt : s.truckAt (t : Int) with
          | none => rfl
          | some b =>
            simp only
            by_cases hd : b.dormantEligible = true
            · rw [hc t ht2 htj b hbt hd]
              simp
            · simp [hd]

/-! ### The first loop of `checkSleepingState` -/

theorem wakeStep_cases (env : Env Box) (fuel : Nat) (s s1 : BeamFactory Box) (t : Nat)
    (h : wakeStep env fuel s t = some s1) :
    (s1 = s ∧ ¬ SourceNow s t) ∨
    ((∃ b : Beam Box, s.truckAt (t : Int) = some b ∧ b.state ≤ DESACTIVATED) ∧
      recursiveActivation env fuel t s = some s1) := by
  unfold wakeStep at h
  cases hb : s.truckAt (t : Int) with
  | none =>
    rw [hb] at h
    simp only [Option.some.injEq] at h
    refine Or.inl ⟨h.symm, ?_⟩
    rintro ⟨b, hb2, _⟩
    rw [hb] at hb2
    cases hb2
  | some b =>
    rw [hb] at h
    simp only at h
    by_cases hc : b.state ≤ DESACTIVATED ∧ ((t : Int) = s.simulatedTruck ∨ b.sleepcount ≤ 7)
    · rw [if_pos hc] at h
      exact Or.inr ⟨⟨b, rfl, hc.1⟩, h⟩
    · rw [if_neg hc] at h
      simp only [Option.some.injEq] at h
      refine Or.inl ⟨h.symm, ?_⟩
      rintro ⟨b2, hb2, h2⟩
      rw [hb] at hb2
      cases hb2
      exact hc h2

theorem wakeLoop_spec (env : Env Box) (fuel : Nat) (l : List Nat) (s s2 : BeamFactory Box)
    (h : l.foldlM (wakeStep env fuel) s = some s2) :
    Lifted Beam.wakes s s2 ∧ (∀ j ∈ l, SourceNow s2 j → Closed env s2 j) ∧
    ∀ t : Nat, s2.truckAt (t : Int) ≠ s.truckAt (t : Int) → Closed env s2 t := by
  induction l generalizing s with
  | nil =>
    simp only [List.foldlM_nil, Option.pure_def, Option.some.injEq] at h
    subst h
    exact ⟨lifted_refl wakes_refl _, fun t ht => absurd ht (List.not_mem_nil t),
      fun t ht => absurd rfl ht⟩
  | cons t rest ih =>
    obtain ⟨s1, h1, h2⟩ := (foldlM_cons_eq_some _ _ _ _ _).mp h
    obtain ⟨l2, a2, c2⟩ := ih s1 h2
    rcases wakeStep_cases env fuel s s1 t h1 with ⟨rfl, hns⟩ | ⟨hg, hr⟩
    · refine ⟨l2, fun j hj hsrc => ?_, c2⟩
      rcases List.mem_cons.mp hj with rfl | hj
      · by_cases e : s2.truckAt (j : Int) = s1.truckAt (j : Int)
        · exfalso
          apply hns
          obtain ⟨b, hb, hs⟩ := hsrc
          exact ⟨b, by rw [← e]; exact hb, hs.1, by rw [← l2.2.1]; exact hs.2⟩
        · exact c2 j e
      · exact a2 j hj hsrc
    · obtain ⟨lw, cw, dw⟩ := recursiveActivation_spec env fuel t s s1 hr
      refine ⟨lifted_trans wakes_trans lw l2, fun j hj hsrc => ?_, fun u hu => ?_⟩
      · rcases List.mem_cons.mp hj with rfl | hj
        · by_cases e : s2.truckAt (j : Int) = s1.truckAt (j : Int)
          · exact closed_of_wakes env l2 j (cw hg)
          · exact c2 j e
        · exact a2 j hj hsrc
      · by_cases e2 : s2.truckAt (u : Int) = s1.truckAt (u : Int)
        · apply closed_of_wakes env l2
          apply dw u
          rw [← e2]
          exact hu
        · exact c2 u e2

theorem wakeLoop_closed (env : Env Box) (fuel : Nat) (s s2 : BeamFactory Box)
    (h : (List.range s.free_truck.toNat).foldlM (wakeStep env fuel) s = some s2) :
    Lifted Beam.wakes s s2 ∧ WakeClosed env s2 := by
  obtain ⟨a1, a2, _⟩ := wakeLoop_spec env fuel _ s s2 h
  refine ⟨a1, fun j hj hsrc => a2 j ?_ hsrc⟩
  rw [a1.1] at hj
  exact List.mem_range.mpr (by omega)

theorem wakeLoop_eq_self (env : Env Box) (fuel : Nat) (s : BeamFactory Box) (hf : 0 < fuel)
    (h : WakeClosed env s) :
    (List.range s.free_truck.toNat).foldlM (wakeStep env fuel) s = some s := by
  apply foldlM_eq_self
  intro t ht
  have ht2 : (t : Int) < s.free_truck := by have := List.mem_range.mp ht; omega
  unfold wakeStep
  cases hb : s.truckAt (t : Int) with
  | none => rfl
  | some b =>
    simp only
    split_ifs with hc
    · exact recursiveActivation_eq_self env fuel t s hf (h t ht2 ⟨b, hb, hc.1, hc.2⟩)
    · rfl

/-! ### Enough fuel -/

theorem dormantCount_le (s : BeamFactory Box) : dormantCount s ≤ s.free_truck.toNat := by
  unfold dormantCount
  exact (List.countP_le_length _).trans (by simp)

theorem dormantCount_mono {s s2 : BeamFactory Box} (h : Lifted Beam.wakes s s2) :
    dormantCount s2 ≤ dormantCount s := by
  unfold dormantCount
  rw [h.1]
  apply List.countP_mono_left
  intro t _ ht
  cases hb2 : s2.truckAt (t : Int) with
  | none =>
    rw [hb2] at ht
    cases ht
  | some b2 =>
    rw [hb2] at ht
    simp only at ht
    rw [dormant_of_wakes h _ b2 hb2 ht]
    exact ht

theorem dormantCount_wakeTruck_lt (env : Env Box) (s : BeamFactory Box) (t : Nat) (b : Beam Box)
    (ht : (t : Int) < s.free_truck) (hb : s.truckAt (t : Int) = some b)
    (hd : b.dormantEligible = true) : dormantCount (wakeTruck env s t b) < dormantCount s := by
  have l0 := wakeTruck_lifted env s t b hb hd
  obtain ⟨bw, hbw, hs, hc⟩ := wakeTruck_truckAt_self env s t b hb
  unfold dormantCount
  rw [l0.1]
  apply countP_lt_countP_of_mem t
  · intro u _ hu
    cases hb2 : (wakeTruck env s t b).truckAt (u : Int) with
    | none =>
      rw [hb2] at hu
      cases hu
    | some b2 =>
      rw [hb2] at hu
      simp only at hu
      rw [dormant_of_wakes l0 _ b2 hb2 hu]
      exact hu
  · exact List.mem_range.mpr (by omega)
  · rw [hb]
    exact hd
  · rw [hbw]
    exact dormantEligible_desactivated bw hs hc

theorem recursiveActivationLoop_isSome (env : Env Box) (fuel : Nat)
    (ih : ∀ (j : Nat) (s : BeamFactory Box), dormantCount s < fuel →
      ∃ s2, recursiveActivation env fuel j s = some s2)
    (j : Nat) (l : List Nat) (s : BeamFactory Box) (hl : ∀ t ∈ l, (t : Int) < s.free_truck)
    (hd : dormantCount s ≤ fuel) :
    ∃ s2, l.foldlM (recursiveActivationStep env (recursiveActivation env fuel) j) s = some s2 := by
  induction l generalizing s with
  | nil => exact ⟨s, rfl⟩
  | cons t rest ihl =>
    have step : ∃ s1, recursiveActivationStep env (recursiveActivation env fuel) j s t = some s1 ∧
        s1.free_truck = s.free_truck ∧ dormantCount s1 ≤ fuel := by
      unfold recursiveActivationStep
      by_cases htj : t = j
      · rw [if_pos htj]
        exact ⟨s, rfl, rfl, hd⟩
      · rw [if_neg htj]
        cases hb : s.truckAt (t : Int) with
        | none => exact ⟨s, rfl, rfl, hd⟩
        | some b =>
          simp only
          by_cases hc : (b.dormantEligible && predictTruckIntersectionCollAABB env s t j) = true
          · rw [if_pos hc]
            simp only [Bool.and_eq_true] at hc
            have hlt := dormantCount_wakeTruck_lt env s t b (hl t (List.mem_cons_self _ _)) hb hc.1
            obtain ⟨s1, h1⟩ := ih t (wakeTruck env s t b) (by omega)
            have lw := (recursiveActivation_spec env fuel t _ s1 h1).1
            have l0 := wakeTruck_lifted env s t b hb hc.1
            refine ⟨s1, h1, lw.1.trans l0.1, ?_⟩
            have := dormantCount_mono lw
            omega
          · rw [if_neg hc]
            exact ⟨s, rfl, rfl, hd⟩
    obtain ⟨s1, h1, f1, d1⟩ := step
    obtain ⟨s2, h2⟩ := ihl s1
      (fun u hu => by rw [f1]; exact hl u (List.mem_cons_of_mem _ hu)) d1
    exact ⟨s2, (foldlM_cons_eq_some _ _ _ _ _).mpr ⟨s1, h1, h2⟩⟩

theorem recursiveActivation_isSome_of_dormantCount (env : Env Box) (fuel j : Nat)
    (s : BeamFactory Box) (h : dormantCount s < fuel) :
    ∃ s2, recursiveActivation env fuel j s = some s2 := by
  induction fuel generalizing j s with
  | zero => omega
  | succ fuel ih =>
    unfold recursiveActivation
    cases hb : s.truckAt (j : Int) with
    | none => exact ⟨s, rfl⟩
    | some bj =>
      simp only
      split_ifs
      · exact ⟨s, rfl⟩
      · exact recursiveActivationLoop_isSome env fuel ih j _ s
          (fun t ht => by have := List.mem_range.mp ht; omega) (by omega)

/-- With `free_truck + 1` units of fuel `recursiveActivation` returns. -/
theorem recursiveActivation_isSome (env : Env Box) (fuel j : Nat) (s : BeamFactory Box)
    (h : s.free_truck.toNat < fuel) : ∃ s2, recursiveActivation env fuel j s = some s2 :=
  recursiveActivation_isSome_of_dormantCount env fuel j s
    (Nat.lt_of_le_of_lt (dormantCount_le s) h)

theorem wakeLoop_isSome (env : Env Box) (fuel : Nat) (l : List Nat) (s : BeamFactory Box)
    (hf : s.free_truck.toNat < fuel) : ∃ s2, l.foldlM (wakeStep env fuel) s = some s2 := by
  induction l generalizing s with
  | nil => exact ⟨s, rfl⟩
  | cons t rest ih =>
    have step : ∃ s1, wakeStep env fuel s t = some s1 := by
      unfold wakeStep
      cases hb : s.truckAt (t : Int) with
      | none => exact ⟨s, rfl⟩
      | some b =>
        simp only
        split_ifs
        · exact recursiveActivation_isSome env fuel t s hf
        · exact ⟨s, rfl⟩
    obtain ⟨s1, h1⟩ := step
    have l1 := (wakeLoop_spec env fuel [t] s s1
      ((foldlM_cons_eq_some _ _ _ _ _).mpr ⟨s1, h1, rfl⟩)).1
    obtain ⟨s2, h2⟩ := ih s1 (by rw [l1.1]; exact hf)
    exact ⟨s2, (foldlM_cons_eq_some _ _ _ _ _).mpr ⟨s1, h1, h2⟩⟩

/-! ### `checkForActive` stops at the first neighbour -/

/-- C5 at a concrete input: slot 0 is `MAYSLEEP`, slot 1 is `SLEEPING`, slot 2
is the leading truck (`ACTIVATED`); the predicted boxes of 0 and 1 intersect,
those of 0 and 2 intersect, those of 1 and 2 do not.  `checkForActive(0, {})`
follows truck 1, returns what the call for truck 1 returns, and so answers
false with `sleepy = {0, 1}`, although the active truck 2 intersects truck 0. -/
theorem checkForActive_misses_active :
    checkForActive (sampleEnv 3 true (adjOf [(0, 1), (0, 2)]))
      (sampleFactory [some (sampleBeam 0 MAYSLEEP 0), some (sampleBeam 1 SLEEPING 0),
        some (sampleBeam 2 ACTIVATED 0)] (-1)) 4 0 [] = some (false, [1, 0]) ∧
    predictTruckIntersectionCollAABB (sampleEnv 3 true (adjOf [(0, 1), (0, 2)]))
      (sampleFactory [some (sampleBeam 0 MAYSLEEP 0), some (sampleBeam 1 SLEEPING 0),
        some (sampleBeam 2 ACTIVATED 0)] (-1)) 2 0 = true ∧
    (sampleBeam 2 ACTIVATED 0).dormantEligible = false := by
  decide

/-- C3, as stated, fails: slot 0 holds the leading truck (`ACTIVATED`, not
dormant-eligible) with `sleepcount = 8`, and it is not the stepped truck; slot
1 is `MAYSLEEP` and its predicted box intersects that of slot 0; slot 2 is
`SLEEPING` and its predicted box intersects that of slot 1 but not that of
slot 0.  After `checkSleepingState` slot 1 is still `MAYSLEEP` and slot 2 is
still `SLEEPING`. -/
theorem checkSleepingState_no_wake_when_still :
    (sampleBeam 0 ACTIVATED 8).dormantEligible = false ∧
    predictTruckIntersectionCollAABB (sampleEnv 3 true (adjOf [(0, 1), (1, 2)]))
      (sampleFactory [some (sampleBeam 0 ACTIVATED 8), some (sampleBeam 1 MAYSLEEP 0),
        some (sampleBeam 2 SLEEPING 0)] (-1)) 1 0 = true ∧
    predictTruckIntersectionCollAABB (sampleEnv 3 true (adjOf [(0, 1), (1, 2)]))
      (sampleFactory [some (sampleBeam 0 ACTIVATED 8), some (sampleBeam 1 MAYSLEEP 0),
        some (sampleBeam 2 SLEEPING 0)] (-1)) 2 1 = true ∧
    predictTruckIntersectionCollAABB (sampleEnv 3 true (adjOf [(0, 1), (1, 2)]))
      (sampleFactory [some (sampleBeam 0 ACTIVATED 8), some (sampleBeam 1 MAYSLEEP 0),
        some (sampleBeam 2 SLEEPING 0)] (-1)) 2 0 = false ∧
    (checkSleepingState (sampleEnv 3 true (adjOf [(0, 1), (1, 2)]))
      4 (sampleFactory [some (sampleBeam 0 ACTIVATED 8), some (sampleBeam 1 MAYSLEEP 0),
        some (sampleBeam 2 SLEEPING 0)] (-1))).map
      (fun s1 => s1.trucks.map (Option.map Beam.state)) =
      some [some ACTIVATED, some MAYSLEEP, some SLEEPING] := by
  decide

/-! ### `checkSleepingState` -/

theorem clearDisableDrag_lifted (s : BeamFactory Box) :
    Lifted Beam.sameState s (clearDisableDrag s) := by
  unfold clearDisableDrag
  cases hg : s.getTruck s.simulatedTruck with
  | none => exact lifted_refl sameState_refl s
  | some sim =>
    simp only
    have hb : s.truckAt s.simulatedTruck = some sim := by
      unfold getTruck at hg
      split_ifs at hg
      exact hg
    exact lifted_setTruck sameState_refl s _ sim _ hb ⟨rfl, rfl, rfl, rfl⟩

theorem lifted_sameGraph_of_sameState {s s2 : BeamFactory Box}
    (h : Lifted Beam.sameState s s2) : Lifted Beam.sameGraph s s2 :=
  lifted_mono sameGraph_of_sameState h

theorem closed_of_sameGraph (env : Env Box) {s s2 : BeamFactory Box}
    (h : Lifted Beam.sameGraph s s2) (j : Nat) (hc : Closed env s j) : Closed env s2 j := by
  apply closed_congr env (lifted_mono (fun _ _ r => r.2) h) _ j hc
  intro t b b2 hb hb2 hd2
  have r := h.2.2.2 t
  rw [hb, hb2] at r
  rw [← r.1]
  exact hd2

theorem wakeClosed_of_sleeps (env : Env Box) {s s2 : BeamFactory Box}
    (h : Lifted Beam.sleeps s s2) (hw : WakeClosed env s) : WakeClosed env s2 := by
  intro j hj hsrc
  obtain ⟨b2, hb2, hs, hsim⟩ := hsrc
  obtain ⟨b, hb, r⟩ := slotRel_some_right (hb2 ▸ h.2.2.2 (j : Int))
  apply closed_of_sameGraph env (lifted_sameGraph_of_sleeps h)
  apply hw j (by rw [← h.1]; exact hj)
  rcases r with rfl | ⟨_, rfl⟩
  · exact ⟨b2, hb, hs, by rw [← h.2.1]; exact hsim⟩
  · simp [GOSLEEP, DESACTIVATED] at hs

theorem wakeClosed_of_sameState (env : Env Box) {s s2 : BeamFactory Box}
    (h : Lifted Beam.sameState s s2) (hw : WakeClosed env s) : WakeClosed env s2 := by
  intro j hj hsrc
  obtain ⟨b2, hb2, hs, hsim⟩ := hsrc
  obtain ⟨b, hb, r⟩ := slotRel_some_right (hb2 ▸ h.2.2.2 (j : Int))
  apply closed_of_sameGraph env (lifted_sameGraph_of_sameState h)
  apply hw j (by rw [← h.1]; exact hj)
  exact ⟨b, hb, by rw [← r.1]; exact hs, by rw [← h.2.1, ← r.2.1]; exact hsim⟩

theorem sleepStable_of_sameState (env : Env Box) (fuel : Nat) {s s2 : BeamFactory Box}
    (h : Lifted Beam.sameState s s2) (hs : SleepStable env fuel s) : SleepStable env fuel s2 := by
  intro t ht b2 hb2 hm
  obtain ⟨b, hb, r⟩ := slotRel_some_right (hb2 ▸ h.2.2.2 (t : Int))
  obtain ⟨sl, hsl⟩ := hs t (by rw [← h.1]; exact ht) b hb (by rw [← r.1]; exact hm)
  exact ⟨sl, by rw [checkForActive_congr env (lifted_sameGraph_of_sameState h)]; exact hsl⟩

theorem checkSleepingState_spec (env : Env Box) (fuel : Nat) (s s1 : BeamFactory Box)
    (h : checkSleepingState env fuel s = some s1) :
    ∃ sA, Lifted Beam.wakes (clearDisableDrag s) sA ∧ WakeClosed env sA ∧
      Lifted Beam.sleeps sA s1 ∧ (s.forcedActive = false → SleepStable env fuel s1) := by
  unfold checkSleepingState at h
  simp only at h
  cases hw : (List.range (clearDisableDrag s).free_truck.toNat).foldlM (wakeStep env fuel)
      (clearDisableDrag s) with
  | none =>
    rw [hw] at h
    cases h
  | some sA =>
    rw [hw] at h
    simp only at h
    obtain ⟨lw, cw⟩ := wakeLoop_closed env fuel _ sA hw
    have hfa : sA.forcedActive = s.forcedActive :=
      lw.2.2.1.trans (clearDisableDrag_lifted s).2.2.1
    refine ⟨sA, lw, cw, ?_⟩
    by_cases hf : sA.forcedActive = true
    · simp only [hf, Bool.not_true, Bool.false_eq_true, if_false, Option.some.injEq] at h
      subst h
      exact ⟨lifted_refl sleeps_refl _, fun hff => by rw [hfa, hff] at hf; cases hf⟩
    · have hf2 : sA.forcedActive = false := by simpa using hf
      simp only [hf2, Bool.not_false, if_true] at h
      obtain ⟨ls, st⟩ := sleepLoop_stable env fuel sA s1 h
      exact ⟨ls, fun _ => st⟩

theorem checkSleepingState_of_wakeClosed (env : Env Box) (fuel : Nat) (s : BeamFactory Box)
    (hf : 0 < fuel) (hw : WakeClosed env (clearDisableDrag s)) :
    checkSleepingState env fuel s =
      if !(clearDisableDrag s).forcedActive then
        (List.range (clearDisableDrag s).free_truck.toNat).foldlM (sleepStep env fuel)
          (clearDisableDrag s)
      else some (clearDisableDrag s) := by
  unfold checkSleepingState
  simp only [wakeLoop_eq_self env fuel _ hf hw]

theorem checkSleepingState_isSome (env : Env Box) (fuel : Nat) (s : BeamFactory Box)
    (hf : s.free_truck.toNat < fuel) : ∃ s1, checkSleepingState env fuel s = some s1 := by
  have l0 := clearDisableDrag_lifted s
  obtain ⟨sA, hA⟩ := wakeLoop_isSome env fuel (List.range (clearDisableDrag s).free_truck.toNat)
    (clearDisableDrag s) (by rw [l0.1]; exact hf)
  have lw := (wakeLoop_closed env fuel _ sA hA).1
  unfold checkSleepingState
  simp only [hA]
  split_ifs
  · exact sleepLoop_isSome env fuel _ sA (by rw [lw.1, l0.1]; exact hf)
  · exact ⟨sA, rfl⟩

/-- C6: with enough fuel for the two graph walks (`free_truck + 1`),
`checkSleepingState` returns, and running it again on the result changes
nothing but the `disableDrag` flag of the stepped truck: every slot has the
same state and the same sleep counter after the second pass as after the
first.  (The pass itself never touches bounding volumes or `simulatedTruck`.) -/
theorem checkSleepingState_idempotent (env : Env Box) (fuel : Nat) (s : BeamFactory Box)
    (hf : s.free_truck.toNat < fuel) :
    ∃ s1 s2, checkSleepingState env fuel s = some s1 ∧
      checkSleepingState env fuel s1 = some s2 ∧ s2 = clearDisableDrag s1 ∧
      ∀ t : Int, (s2.truckAt t).map Beam.state = (s1.truckAt t).map Beam.state ∧
        (s2.truckAt t).map Beam.sleepcount = (s1.truckAt t).map Beam.sleepcount := by
  obtain ⟨s1, h1⟩ := checkSleepingState_isSome env fuel s hf
  obtain ⟨sA, lw, cw, ls, st⟩ := checkSleepingState_spec env fuel s s1 h1
  have l1 := clearDisableDrag_lifted s1
  have l0 := clearDisableDrag_lifted s
  have hw1 : WakeClosed env (clearDisableDrag s1) :=
    wakeClosed_of_sameState env l1 (wakeClosed_of_sleeps env ls cw)
  have hfa : (clearDisableDrag s1).forcedActive = s.forcedActive :=
    l1.2.2.1.trans (ls.2.2.1.trans (lw.2.2.1.trans l0.2.2.1))
  have h2 : checkSleepingState env fuel s1 = some (clearDisableDrag s1) := by
    rw [checkSleepingState_of_wakeClosed env fuel s1 (by omega) hw1]
    by_cases hff : s.forcedActive = true
    · simp [hfa, hff]
    · have hff2 : s.forcedActive = false := by simpa using hff
      simp only [hfa, hff2, Bool.not_false, if_true]
      exact sleepLoop_eq_self env fuel _ (sleepStable_of_sameState env fuel l1 (st hff2))
  refine ⟨s1, clearDisableDrag s1, h1, h2, rfl, fun t => ?_⟩
  have r := l1.2.2.2 t
  cases hb : s1.truckAt t with
  | none =>
    rw [hb] at r
    rw [slotRel_none_left r]
    exact ⟨rfl, rfl⟩
  | some b =>
    rw [hb] at r
    obtain ⟨b2, hb2, rr⟩ := slotRel_some_left r
    rw [hb2]
    simp only [Option.map_some', rr.1, rr.2.1, and_self]

theorem checkSleepingState_idempotent_witness :
    ∃ s1 s2, checkSleepingState (sampleEnv 3 true (adjOf [(0, 1), (1, 2)])) 4
        (sampleFactory [some (sampleBeam 0 ACTIVATED 0), some (sampleBeam 1 MAYSLEEP 0),
          some (sampleBeam 2 SLEEPING 0)] 0) = some s1 ∧
      checkSleepingState (sampleEnv 3 true (adjOf [(0, 1), (1, 2)])) 4 s1 = some s2 ∧
      s2 = clearDisableDrag s1 ∧
      ∀ t : Int, (s2.truckAt t).map Beam.state = (s1.truckAt t).map Beam.state ∧
        (s2.truckAt t).map Beam.sleepcount = (s1.truckAt t).map Beam.sleepcount :=
  checkSleepingState_idempotent (sampleEnv 3 true (adjOf [(0, 1), (1, 2)])) 4
    (sampleFactory [some (sampleBeam 0 ACTIVATED 0), some (sampleBeam 1 MAYSLEEP 0),
      some (sampleBeam 2 SLEEPING 0)] 0) (by decide)

theorem woken_of_closed_neighbour (env : Env Box) {s0 sA : BeamFactory Box}
    (lw : Lifted Beam.wakes s0 sA) (A B : Nat) (hAB : B ≠ A) (hBn : (B : Int) < s0.free_truck)
    (hc : Closed env sA A) (b0 : Beam Box) (hb0 : s0.truckAt (B : Int) = some b0)
    (hd : b0.dormantEligible = true)
    (hp : predictTruckIntersectionCollAABB env s0 B A = true) :
    ∃ bw : Beam Box, sA.truckAt (B : Int) = some bw ∧ bw.state = DESACTIVATED ∧
      bw.sleepcount = 0 := by
  obtain ⟨bw, hbw, r⟩ := slotRel_some_left (hb0 ▸ lw.2.2.2 (B : Int))
  rcases r with rfl | ⟨_, hs, hcnt, _⟩
  · exfalso
    have := hc B (by rw [lw.1]; exact hBn) hAB bw hbw hd
    rw [predict_congr env (lifted_sameBoxes_of_wakes lw), hp] at this
    cases this
  · exact ⟨bw, hbw, hs, hcnt⟩

/-- C3, amended: if A is active-or-better (`state <= DESACTIVATED`) and is the
stepped truck or has `sleepcount <= 7`, B is `MAYSLEEP` and its predicted
volume intersects that of A, and C is `SLEEPING` and its predicted volume
intersects that of B, then, with enough fuel for the graph walks,
`checkSleepingState` returns and leaves both B and C in state `DESACTIVATED`
(active, not leading), hence in none of `MAYSLEEP`, `GOSLEEP`, `SLEEPING`. -/
theorem checkSleepingState_transitive_wake (env : Env Box) (fuel : Nat) (s : BeamFactory Box)
    (hf : s.free_truck.toNat < fuel) (A B C : Nat) (bA bB bC : Beam Box)
    (hAn : (A : Int) < s.free_truck) (hBn : (B : Int) < s.free_truck)
    (hCn : (C : Int) < s.free_truck)
    (hA : s.truckAt (A : Int) = some bA) (hB : s.truckAt (B : Int) = some bB)
    (hC : s.truckAt (C : Int) = some bC)
    (hAs : bA.state ≤ DESACTIVATED)
    (hAsrc : (A : Int) = s.simulatedTruck ∨ bA.sleepcount ≤ 7)
    (hBs : bB.state = MAYSLEEP) (hCs : bC.state = SLEEPING)
    (hBA : predictTruckIntersectionCollAABB env s B A = true)
    (hCB : predictTruckIntersectionCollAABB env s C B = true) :
    ∃ (s1 : BeamFactory Box) (b1 c1 : Beam Box), checkSleepingState env fuel s = some s1 ∧
      s1.truckAt (B : Int) = some b1 ∧ b1.state = DESACTIVATED ∧
      s1.truckAt (C : Int) = some c1 ∧ c1.state = DESACTIVATED := by
  obtain ⟨s1, h1⟩ := checkSleepingState_isSome env fuel s hf
  obtain ⟨sA, lw, cw, ls, _⟩ := checkSleepingState_spec env fuel s s1 h1
  have l0 := clearDisableDrag_lifted s
  have lb0 : Lifted Beam.sameBoxes s (clearDisableDrag s) :=
    lifted_mono (fun _ _ r => r.2.2) l0
  obtain ⟨a0, ha0, ra⟩ := slotRel_some_left (hA ▸ l0.2.2.2 (A : Int))
  obtain ⟨b0, hb0, rb⟩ := slotRel_some_left (hB ▸ l0.2.2.2 (B : Int))
  obtain ⟨c0, hc0, rc⟩ := slotRel_some_left (hC ▸ l0.2.2.2 (C : Int))
  have hBA0 : predictTruckIntersectionCollAABB env (clearDisableDrag s) B A = true := by
    rw [predict_congr env lb0]; exact hBA
  have hCB0 : predictTruckIntersectionCollAABB env (clearDisableDrag s) C B = true := by
    rw [predict_congr env lb0]; exact hCB
  have hAB : B ≠ A := by
    rintro rfl
    rw [hA] at hB
    cases hB
    rw [hBs] at hAs
    simp [MAYSLEEP, DESACTIVATED] at hAs
  have hBC : C ≠ B := by
    rintro rfl
    rw [hB] at hC
    cases hC
    rw [hBs] at hCs
    simp [MAYSLEEP, SLEEPING] at hCs
  -- A starts a recursive activation in the state after the first loop
  have hsrcA : SourceNow sA A := by
    obtain ⟨aA, haA, r⟩ := slotRel_some_left (ha0 ▸ lw.2.2.2 (A : Int))
    rcases r with rfl | ⟨_, hs, hcnt, _⟩
    · refine ⟨aA, haA, by rw [ra.1]; exact hAs, ?_⟩
      rw [lw.2.1, l0.2.1, ra.2.1]
      exact hAsrc
    · exact ⟨aA, haA, by rw [hs], Or.inr (by rw [hcnt]; decide)⟩
  have hclA : Closed env sA A := cw A (by rw [lw.1, l0.1]; exact hAn) hsrcA
  obtain ⟨bw, hbw, hbs, hbc⟩ := woken_of_closed_neighbour env lw A B hAB
    (by rw [l0.1]; exact hBn) hclA b0 hb0 (dormantEligible_of_maysleep _ (by rw [rb.1]; exact hBs))
    hBA0
  have hsrcB : SourceNow sA B := ⟨bw, hbw, by rw [hbs], Or.inr (by rw [hbc]; decide)⟩
  have hclB : Closed env sA B := cw B (by rw [lw.1, l0.1]; exact hBn) hsrcB
  obtain ⟨cw2, hcw, hcs, hcc⟩ := woken_of_closed_neighbour env lw B C hBC
    (by rw [l0.1]; exact hCn) hclB c0 hc0 (dormantEligible_of_sleeping _ (by rw [rc.1]; exact hCs))
    hCB0
  have stay : ∀ (t : Int) (x : Beam Box), sA.truckAt t = some x → x.state = DESACTIVATED →
      x.sleepcount = 0 → s1.truckAt t = some x := by
    intro t x hx hxs hxc
    obtain ⟨y, hy, r⟩ := slotRel_some_left (hx ▸ ls.2.2.2 t)
    rcases r with rfl | ⟨hd, _⟩
    · exact hy
    · rw [dormantEligible_desactivated x hxs hxc] at hd
      cases hd
  exact ⟨s1, bw, cw2, h1, stay _ bw hbw hbs hbc, hbs, stay _ cw2 hcw hcs hcc, hcs⟩

theorem checkSleepingState_transitive_wake_witness :
    ∃ (s1 : BeamFactory Nat) (b1 c1 : Beam Nat),
      checkSleepingState (sampleEnv 3 true (adjOf [(0, 1), (1, 2)])) 4
        (sampleFactory [some (sampleBeam 0 ACTIVATED 0), some (sampleBeam 1 MAYSLEEP 0),
          some (sampleBeam 2 SLEEPING 0)] (-1)) = some s1 ∧
      s1.truckAt ((1 : Nat) : Int) = some b1 ∧ b1.state = DESACTIVATED ∧
      s1.truckAt ((2 : Nat) : Int) = some c1 ∧ c1.state = DESACTIVATED :=
  checkSleepingState_transitive_wake (sampleEnv 3 true (adjOf [(0, 1), (1, 2)])) 4
    (sampleFactory [some (sampleBeam 0 ACTIVATED 0), some (sampleBeam 1 MAYSLEEP 0),
      some (sampleBeam 2 SLEEPING 0)] (-1)) (by decide) 0 1 2
    (sampleBeam 0 ACTIVATED 0) (sampleBeam 1 MAYSLEEP 0) (sampleBeam 2 SLEEPING 0)
    (by decide) (by decide) (by decide) (by decide) (by decide) (by decide) (by decide)
    (Or.inr (by decide)) (by decide) (by decide) (by decide) (by decide)

/-- C4: when the only live trucks are two `MAYSLEEP` trucks and the
force-all-active flag is clear, then, with enough fuel for the graph walks,
`checkSleepingState` returns and leaves both in state `GOSLEEP`.  (This holds
whether or not their predicted volumes intersect: no active truck is reachable
from either.) -/
theorem checkSleepingState_isolated_pair (env : Env Box) (fuel : Nat) (s : BeamFactory Box)
    (hf : s.free_truck.toNat < fuel) (a b : Nat) (ba bb : Beam Box)
    (han : (a : Int) < s.free_truck) (hbn : (b : Int) < s.free_truck)
    (ha : s.truckAt (a : Int) = some ba) (hb : s.truckAt (b : Int) = some bb)
    (hsa : ba.state = MAYSLEEP) (hsb : bb.state = MAYSLEEP)
    (honly : ∀ t : Nat, (t : Int) < s.free_truck → t ≠ a → t ≠ b → s.truckAt (t : Int) = none)
    (hfa : s.forcedActive = false) :
    ∃ (s1 : BeamFactory Box) (a1 b1 : Beam Box), checkSleepingState env fuel s = some s1 ∧
      s1.truckAt (a : Int) = some a1 ∧ a1.state = GOSLEEP ∧
      s1.truckAt (b : Int) = some b1 ∧ b1.state = GOSLEEP := by
  have l0 := clearDisableDrag_lifted s
  -- every live truck below the mark is `MAYSLEEP`
  have hall : ∀ (t : Nat) (x : Beam Box), (t : Int) < s.free_truck →
      (clearDisableDrag s).truckAt (t : Int) = some x → x.state = MAYSLEEP := by
    intro t x ht hx
    obtain ⟨y, hy, r⟩ := slotRel_some_right (hx ▸ l0.2.2.2 (t : Int))
    rw [r.1]
    by_cases hta : t = a
    · rw [hta, ha] at hy
      cases hy
      exact hsa
    · by_cases htb : t = b
      · rw [htb, hb] at hy
        cases hy
        exact hsb
      · rw [honly t ht hta htb] at hy
        cases hy
  have hw : WakeClosed env (clearDisableDrag s) := by
    intro j hj hsrc
    obtain ⟨x, hx, hs, _⟩ := hsrc
    rw [l0.1] at hj
    rw [hall j x hj hx] at hs
    simp [MAYSLEEP, DESACTIVATED] at hs
  have hfa0 : (clearDisableDrag s).forcedActive = false := l0.2.2.1.trans hfa
  have hcss := checkSleepingState_of_wakeClosed env fuel s (by omega) hw
  simp only [hfa0, Bool.not_false, if_true] at hcss
  obtain ⟨s1, h1⟩ := sleepLoop_isSome env fuel (List.range (clearDisableDrag s).free_truck.toNat)
    (clearDisableDrag s) (by rw [l0.1]; exact hf)
  obtain ⟨ls, st⟩ := sleepLoop_stable env fuel _ s1 h1
  have key : ∀ (t : Nat) (x : Beam Box), (t : Int) < s.free_truck → s.truckAt (t : Int) = some x →
      ∃ x1 : Beam Box, s1.truckAt (t : Int) = some x1 ∧ x1.state = GOSLEEP := by
    intro t x ht hx
    obtain ⟨x0, hx0, _⟩ := slotRel_some_left (hx ▸ l0.2.2.2 (t : Int))
    obtain ⟨x1, hx1, r⟩ := slotRel_some_left (hx0 ▸ ls.2.2.2 (t : Int))
    refine ⟨x1, hx1, ?_⟩
    rcases r with rfl | ⟨_, rfl⟩
    · exfalso
      obtain ⟨sl, hsl⟩ := st t (by rw [ls.1, l0.1]; exact ht) x1 hx1 (hall t x1 ht hx0)
      obtain ⟨u, hu, y1, hy1, hnd⟩ := checkForActive_true env s1 fuel t [] sl hsl
      rw [ls.1, l0.1] at hu
      obtain ⟨y0, hy0, ry⟩ := slotRel_some_right (hy1 ▸ ls.2.2.2 (u : Int))
      have hy0d := dormantEligible_of_maysleep y0 (hall u y0 hu hy0)
      rw [← (sameGraph_of_sleeps y0 y1 ry).1, hnd] at hy0d
      cases hy0d
    · rfl
  obtain ⟨a1, ha1, hga⟩ := key a ba han ha
  obtain ⟨b1, hb1, hgb⟩ := key b bb hbn hb
  exact ⟨s1, a1, b1, hcss.trans h1, ha1, hga, hb1, hgb⟩

theorem checkSleepingState_isolated_pair_witness :
    ∃ (s1 : BeamFactory Nat) (a1 b1 : Beam Nat),
      checkSleepingState (sampleEnv 3 true (adjOf [(0, 2)])) 4
        (sampleFactory [some (sampleBeam 0 MAYSLEEP 0), none, some (sampleBeam 2 MAYSLEEP 0)]
          (-1)) = some s1 ∧
      s1.truckAt ((0 : Nat) : Int) = some a1 ∧ a1.state = GOSLEEP ∧
      s1.truckAt ((2 : Nat) : Int) = some b1 ∧ b1.state = GOSLEEP :=
  checkSleepingState_isolated_pair (sampleEnv 3 true (adjOf [(0, 2)])) 4
    (sampleFactory [some (sampleBeam 0 MAYSLEEP 0), none, some (sampleBeam 2 MAYSLEEP 0)] (-1))
    (by decide) 0 2 (sampleBeam 0 MAYSLEEP 0) (sampleBeam 2 MAYSLEEP 0)
    (by decide) (by decide) (by decide) (by decide) (by decide) (by decide)
    (by
      intro t ht h0 h2
      have h3 : t < 3 := by
        have : (t : Int) < 3 := ht
        omega
      interval_cases t
      · exact absurd rfl h0
      · decide
      · exact absurd rfl h2)
    (by decide)

/-! ### Resolving a stream -/

theorem getBeam_eq_streamEntry (s : BeamFactory Box) (source_id stream_id : Int) :
    getBeam s source_id stream_id =
      (streamEntry s.streamables source_id (toUnsigned stream_id)).getD 0 := by
  unfold getBeam streamEntry
  cases h1 : mapFind s.streamables source_id with
  | none => rfl
  | some inner =>
    simp only [Option.some_bind]
    cases inner with
    | nil => simp [mapFind]
    | cons e rest =>
      simp only [List.isEmpty_cons, Bool.not_false, if_true]
      cases h2 : mapFind (e :: rest) (toUnsigned stream_id) with
      | none => rfl
      | some p =>
        simp only [Option.getD_some]
        split_ifs with h0
        · rfl
        · exact (not_not.mp h0).symm

/-- C16: `getBeam(source_id, stream_id)` returns the pointer stored under the
pair when the pair is present with a non-null pointer, and returns null when
the source is absent, when the stream is absent under that source, and when the
entry is the null marker.  The lookup goes through `find` only, never through
`operator[]`, which is why its embedding is a function of the state that yields
no new state: the table cannot change. -/
theorem getBeam_resolve (s : BeamFactory Box) (source_id stream_id : Int) :
    (∀ p : BeamPtr, streamEntry s.streamables source_id (toUnsigned stream_id) = some p →
      p ≠ 0 → getBeam s source_id stream_id = p) ∧
    (mapFind s.streamables source_id = none → getBeam s source_id stream_id = 0) ∧
    (∀ inner, mapFind s.streamables source_id = some inner →
      mapFind inner (toUnsigned stream_id) = none → getBeam s source_id stream_id = 0) ∧
    (streamEntry s.streamables source_id (toUnsigned stream_id) = some 0 →
      getBeam s source_id stream_id = 0) := by
  rw [getBeam_eq_streamEntry]
  refine ⟨fun p hp _ => by rw [hp]; rfl, fun h => by simp [streamEntry, h],
    fun inner h1 h2 => by simp [streamEntry, h1, h2], fun h => by rw [h]; rfl⟩

/-! ### The predicted-volume test -/

/-- C20: for two occupied slots, `predictTruckIntersectionCollAABB(a, b)` is
true exactly when neither truck has predicted sub-volumes and the coarse
predicted volumes intersect, or only `b` has sub-volumes and one of them
intersects the coarse volume of `a`, or only `a` has sub-volumes and one of
them intersects the coarse volume of `b`, or both have sub-volumes and some
pair, one from each, intersects. -/
theorem predictTruckIntersectionCollAABB_iff (env : Env Box) (s : BeamFactory Box) (a b : Nat)
    (x y : Beam Box) (hx : s.truckAt (a : Int) = some x) (hy : s.truckAt (b : Int) = some y) :
    predictTruckIntersectionCollAABB env s a b = true ↔
      (x.predictedCollisionBoundingBoxes = [] ∧ y.predictedCollisionBoundingBoxes = [] ∧
        env.intersects x.predictedBoundingBox y.predictedBoundingBox = true) ∨
      (x.predictedCollisionBoundingBoxes = [] ∧ y.predictedCollisionBoundingBoxes ≠ [] ∧
        ∃ it ∈ y.predictedCollisionBoundingBoxes,
          env.intersects it x.predictedBoundingBox = true) ∨
      (x.predictedCollisionBoundingBoxes ≠ [] ∧ y.predictedCollisionBoundingBoxes = [] ∧
        ∃ it ∈ x.predictedCollisionBoundingBoxes,
          env.intersects it y.predictedBoundingBox = true) ∨
      (x.predictedCollisionBoundingBoxes ≠ [] ∧ y.predictedCollisionBoundingBoxes ≠ [] ∧
        ∃ it_a ∈ x.predictedCollisionBoundingBoxes, ∃ it_b ∈ y.predictedCollisionBoundingBoxes,
          env.intersects it_a it_b = true) := by
  unfold predictTruckIntersectionCollAABB
  rw [hx, hy]
  simp only [predictIntersectionColl]
  cases hxa : x.predictedCollisionBoundingBoxes with
  | nil =>
    cases hyb : y.predictedCollisionBoundingBoxes with
    | nil => simp
    | cons e rest => simp
  | cons d more =>
    cases hyb : y.predictedCollisionBoundingBoxes with
    | nil => simp
    | cons e rest => simp

theorem predictTruckIntersectionCollAABB_iff_witness :
    predictTruckIntersectionCollAABB (sampleEnv 2 true (adjOf [(0, 1)]))
      (sampleFactory [some (sampleBeam 0 0 0), some (sampleBeam 1 0 0)] 0) 0 1 = true ↔
      ((sampleBeam 0 0 0).predictedCollisionBoundingBoxes = [] ∧
        (sampleBeam 1 0 0).predictedCollisionBoundingBoxes = [] ∧
        (sampleEnv 2 true (adjOf [(0, 1)])).intersects (sampleBeam 0 0 0).predictedBoundingBox
          (sampleBeam 1 0 0).predictedBoundingBox = true) ∨
      ((sampleBeam 0 0 0).predictedCollisionBoundingBoxes = [] ∧
        (sampleBeam 1 0 0).predictedCollisionBoundingBoxes ≠ [] ∧
        ∃ it ∈ (sampleBeam 1 0 0).predictedCollisionBoundingBoxes,
          (sampleEnv 2 true (adjOf [(0, 1)])).intersects it
            (sampleBeam 0 0 0).predictedBoundingBox = true) ∨
      ((sampleBeam 0 0 0).predictedCollisionBoundingBoxes ≠ [] ∧
        (sampleBeam 1 0 0).predictedCollisionBoundingBoxes = [] ∧
        ∃ it ∈ (sampleBeam 0 0 0).predictedCollisionBoundingBoxes,
          (sampleEnv 2 true (adjOf [(0, 1)])).intersects it
            (sampleBeam 1 0 0).predictedBoundingBox = true) ∨
      ((sampleBeam 0 0 0).predictedCollisionBoundingBoxes ≠ [] ∧
        (sampleBeam 1 0 0).predictedCollisionBoundingBoxes ≠ [] ∧
        ∃ it_a ∈ (sampleBeam 0 0 0).predictedCollisionBoundingBoxes,
          ∃ it_b ∈ (sampleBeam 1 0 0).predictedCollisionBoundingBoxes,
          (sampleEnv 2 true (adjOf [(0, 1)])).intersects it_a it_b = true) :=
  predictTruckIntersectionCollAABB_iff (sampleEnv 2 true (adjOf [(0, 1)]))
    (sampleFactory [some (sampleBeam 0 0 0), some (sampleBeam 1 0 0)] 0) 0 1
    (sampleBeam 0 0 0) (sampleBeam 1 0 0) (by decide) (by decide)

/-! ### Slots below the mark are not handed out again -/

/-- C13, as stated, fails: with one slot, after `createLocal` and
`removeTruck(0)` slot `0` is empty and lies below the mark
(`free_truck = MAX_TRUCKS = 1`), and `getFreeTruckSlot` returns `-1`. -/
theorem getFreeTruckSlot_no_reuse_example :
    (run (sampleEnv 1 true (fun _ _ => false)) (init (sampleEnv 1 true (fun _ _ => false)))
      [Op.createLocal 1 (sampleBeam 0 0 0), Op.removeTruck 0]).truckAt 0 = none ∧
    (run (sampleEnv 1 true (fun _ _ => false)) (init (sampleEnv 1 true (fun _ _ => false)))
      [Op.createLocal 1 (sampleBeam 0 0 0), Op.removeTruck 0]).free_truck = 1 ∧
    (getFreeTruckSlot (sampleEnv 1 true (fun _ _ => false))
      (run (sampleEnv 1 true (fun _ _ => false)) (init (sampleEnv 1 true (fun _ _ => false)))
        [Op.createLocal 1 (sampleBeam 0 0 0), Op.removeTruck 0])).1 = -1 := by
  decide

/-- C13, amended: `getFreeTruckSlot` never returns an index below the mark,
whether or not the slot there has been released; and when the mark has reached
`MAX_TRUCKS` it returns `-1` and changes nothing, even if slots below the mark
are empty. -/
theorem getFreeTruckSlot_never_below_mark (env : Env Box) (s : BeamFactory Box) :
    ((getFreeTruckSlot env s).1 = -1 ∨ s.free_truck ≤ (getFreeTruckSlot env s).1) ∧
    ((env.MAX_TRUCKS : Int) ≤ s.free_truck → getFreeTruckSlot env s = (-1, s)) := by
  refine ⟨?_, getFreeTruckSlot_full env s⟩
  rcases getFreeTruckSlot_cases env s with h | ⟨t, _, h2, _, _, h5⟩
  · exact Or.inl (by rw [h])
  · exact Or.inr (by rw [h5]; exact h2)

/-! ### Removing a truck by a stale index -/

/-- C12 at a concrete input: the registry is empty (`free_truck = 0`) and the
table holds the null marker for stream `(5, 1)`, left by a
`createRemoteInstance` whose asset was not loaded.  `removeTruck(0)` passes the
guard `truck > free_truck`, calls `removeBeam` on the null pointer in slot `0`,
which matches the marker, and the marker is erased from the table. -/
theorem removeTruck_erases_marker :
    (createRemoteInstance (sampleEnv 2 false (fun _ _ => false)) 7 (sampleBeam 0 0 0) sampleReg
      (init (sampleEnv 2 false (fun _ _ => false)))).2.free_truck = 0 ∧
    streamEntry (createRemoteInstance (sampleEnv 2 false (fun _ _ => false)) 7 (sampleBeam 0 0 0)
      sampleReg (init (sampleEnv 2 false (fun _ _ => false)))).2.streamables 5 1 = some 0 ∧
    streamEntry (removeTruck (sampleEnv 2 false (fun _ _ => false)) 0
      (createRemoteInstance (sampleEnv 2 false (fun _ _ => false)) 7 (sampleBeam 0 0 0) sampleReg
        (init (sampleEnv 2 false (fun _ _ => false)))).2).streamables 5 1 = none ∧
    (removeTruck (sampleEnv 2 false (fun _ _ => false)) 0
      (createRemoteInstance (sampleEnv 2 false (fun _ _ => false)) 7 (sampleBeam 0 0 0) sampleReg
        (init (sampleEnv 2 false (fun _ _ => false)))).2).events =
      [Event.removeStream 5 1, Event.triggerUpdateVehicleList] := by
  decide

/-! ### Rebinding the local origin -/

/-- C17 at a concrete input: after `createLocal` on the empty registry the
instance at address `1` is registered under `(-1, 10)`.
`localUserAttributesChanged(7)` copies `streamables[-1][0]`, which `createLocal`
never sets, so it creates null entries under `(-1, 0)` and `(7, 0)`;
`getBeam(7, 10)` returns null, while the slot array is unchanged. -/
theorem localUserAttributesChanged_aliases_stream_zero :
    streamEntry (createLocal (sampleEnv 2 true (fun _ _ => false)) 1 (sampleBeam 0 0 0)
      (init (sampleEnv 2 true (fun _ _ => false)))).2.streamables (-1) 10 = some 1 ∧
    getBeam (localUserAttributesChanged 7
      (createLocal (sampleEnv 2 true (fun _ _ => false)) 1 (sampleBeam 0 0 0)
        (init (sampleEnv 2 true (fun _ _ => false)))).2) 7 10 = 0 ∧
    streamEntry (localUserAttributesChanged 7
      (createLocal (sampleEnv 2 true (fun _ _ => false)) 1 (sampleBeam 0 0 0)
        (init (sampleEnv 2 true (fun _ _ => false)))).2).streamables 7 0 = some 0 ∧
    streamEntry (localUserAttributesChanged 7
      (createLocal (sampleEnv 2 true (fun _ _ => false)) 1 (sampleBeam 0 0 0)
        (init (sampleEnv 2 true (fun _ _ => false)))).2).streamables (-1) 0 = some 0 ∧
    (localUserAttributesChanged 7
      (createLocal (sampleEnv 2 true (fun _ _ => false)) 1 (sampleBeam 0 0 0)
        (init (sampleEnv 2 true (fun _ _ => false)))).2).trucks =
      (createLocal (sampleEnv 2 true (fun _ _ => false)) 1 (sampleBeam 0 0 0)
        (init (sampleEnv 2 true (fun _ _ => false)))).2.trucks := by
  decide

/-! ### The truck chosen for stepping -/

/-- C14, as stated, fails: the focus is slot 1, whose truck is `SLEEPING` (not
active-or-better), and slot 0 holds the leading truck.  `calcPhysics` chooses
slot 1, not slot 0, and calls `frameStep` on the truck in slot 1 (address 2). -/
theorem calcPhysics_steps_sleeping_focus :
    (calcPhysics { sampleFactory [some (sampleBeam 0 ACTIVATED 0),
      some (sampleBeam 1 SLEEPING 0)] 0 with current_truck := 1 }).simulatedTruck = 1 ∧
    (calcPhysics { sampleFactory [some (sampleBeam 0 ACTIVATED 0),
      some (sampleBeam 1 SLEEPING 0)] 0 with current_truck := 1 }).events =
      [Event.frameStep 2] := by
  decide

theorem calcPhysics_simulatedTruck (s : BeamFactory Box) :
    (calcPhysics s).simulatedTruck = selectSimulatedTruck s := by
  unfold calcPhysics
  simp only
  split_ifs <;> rfl

/-- C14, amended: the truck chosen for stepping is the current focus whenever
`current_truck` is not `-1`, whatever its state; only when there is no focus
(`current_truck = -1`) is it the lowest-indexed occupied slot below the mark
whose state is active-or-better (`state <= DESACTIVATED`), and `-1` (none) when
there is no such slot. -/
theorem calcPhysics_selection (s : BeamFactory Box) :
    (s.current_truck ≠ -1 → (calcPhysics s).simulatedTruck = s.current_truck) ∧
    (s.current_truck = -1 →
      (∀ t : Nat, (t : Int) < s.free_truck →
        (∃ b : Beam Box, s.truckAt (t : Int) = some b ∧ b.state ≤ DESACTIVATED) →
        (∀ u : Nat, u < t → ¬ ∃ b : Beam Box, s.truckAt (u : Int) = some b ∧
          b.state ≤ DESACTIVATED) →
        (calcPhysics s).simulatedTruck = (t : Int)) ∧
      ((¬ ∃ t : Nat, (t : Int) < s.free_truck ∧
          ∃ b : Beam Box, s.truckAt (t : Int) = some b ∧ b.state ≤ DESACTIVATED) →
        (calcPhysics s).simulatedTruck = -1)) := by
  rw [calcPhysics_simulatedTruck]
  have hp : ∀ u : Nat, activeOrBetterAt s u = true ↔
      ∃ b : Beam Box, s.truckAt (u : Int) = some b ∧ b.state ≤ DESACTIVATED := by
    intro u
    unfold activeOrBetterAt
    cases hb : s.truckAt (u : Int) with
    | none => simp
    | some b => simp
  refine ⟨fun h => by simp [selectSimulatedTruck, h], fun h => ⟨?_, ?_⟩⟩
  · intro t ht hb hleast
    have hfind : (List.range s.free_truck.toNat).find? (activeOrBetterAt s) = some t := by
      rw [find?_range_eq_some]
      refine ⟨by omega, (hp t).mpr hb, fun u hu => ?_⟩
      have := hleast u hu
      rw [← hp u] at this
      simpa using this
    simp only [selectSimulatedTruck, h, if_true, hfind]
  · intro hnone
    have hfind : (List.range s.free_truck.toNat).find? (activeOrBetterAt s) = none := by
      rw [find?_range_eq_none]
      intro u hu
      have : ¬ ∃ b : Beam Box, s.truckAt (u : Int) = some b ∧ b.state ≤ DESACTIVATED :=
        fun hb => hnone ⟨u, by omega, hb⟩
      rw [← hp u] at this
      simpa using this
    simp only [selectSimulatedTruck, h, if_true, hfind]

/-! ### Unregistering a stream -/

/-- C18, as stated, fails: after a `createRemoteInstance` for stream `(5, 1)` on
the empty registry, `removeInstance` for `(5, 1)` leaves the entry in the table
and the truck in slot `0`; so does `removeInstance` with the wildcard `-1`. -/
theorem removeInstance_entry_and_slot_stay :
    streamEntry (removeInstance (sampleEnv 2 true (fun _ _ => false))
      { sourceid := 5, streamid := 1 }
      (createRemoteInstance (sampleEnv 2 true (fun _ _ => false)) 7 (sampleBeam 0 0 0) sampleReg
        (init (sampleEnv 2 true (fun _ _ => false)))).2).streamables 5 1 = some 7 ∧
    ((removeInstance (sampleEnv 2 true (fun _ _ => false)) { sourceid := 5, streamid := 1 }
      (createRemoteInstance (sampleEnv 2 true (fun _ _ => false)) 7 (sampleBeam 0 0 0) sampleReg
        (init (sampleEnv 2 true (fun _ _ => false)))).2).truckAt 0).isSome = true ∧
    streamEntry (removeInstance (sampleEnv 2 true (fun _ _ => false))
      { sourceid := 5, streamid := -1 }
      (createRemoteInstance (sampleEnv 2 true (fun _ _ => false)) 7 (sampleBeam 0 0 0) sampleReg
        (init (sampleEnv 2 true (fun _ _ => false)))).2).streamables 5 1 = some 7 ∧
    ((removeInstance (sampleEnv 2 true (fun _ _ => false)) { sourceid := 5, streamid := -1 }
      (createRemoteInstance (sampleEnv 2 true (fun _ _ => false)) 7 (sampleBeam 0 0 0) sampleReg
        (init (sampleEnv 2 true (fun _ _ => false)))).2).truckAt 0).isSome = true := by
  decide

theorem removeInstanceBeam_keeps (env : Env Box) (s : BeamFactory Box) (p : BeamPtr) :
    (removeInstanceBeam env s p).streamables = s.streamables ∧
    (removeInstanceBeam env s p).free_truck = s.free_truck ∧
    ∀ t : Int, ((removeInstanceBeam env s p).truckAt t).isSome = (s.truckAt t).isSome := by
  unfold removeInstanceBeam
  split_ifs
  · exact ⟨rfl, rfl, fun _ => rfl⟩
  · cases slotOf s p with
    | none => exact ⟨rfl, rfl, fun _ => rfl⟩
    | some u =>
      simp only
      cases hb : s.truckAt (u : Int) with
      | none => exact ⟨rfl, rfl, fun _ => rfl⟩
      | some b =>
        refine ⟨by simp, by simp, fun t => ?_⟩
        simp only [emit_truckAt]
        by_cases h : (u : Int) = t
        · obtain ⟨h0, h1⟩ := truckAt_lt_length s _ b hb
          rw [← h, truckAt_setTruck_same s _ _ h0 h1, hb]
          rfl
        · rw [truckAt_setTruck_ne s _ _ _ h]

theorem removeInstance_fold_keeps (env : Env Box) (l : List (Nat × BeamPtr))
    (s : BeamFactory Box) :
    (l.foldl (fun acc e => removeInstanceBeam env acc e.2) s).streamables = s.streamables ∧
    (l.foldl (fun acc e => removeInstanceBeam env acc e.2) s).free_truck = s.free_truck ∧
    ∀ t : Int, ((l.foldl (fun acc e => removeInstanceBeam env acc e.2) s).truckAt t).isSome =
      (s.truckAt t).isSome := by
  induction l generalizing s with
  | nil => exact ⟨rfl, rfl, fun _ => rfl⟩
  | cons e rest ih =>
    rw [List.foldl_cons]
    obtain ⟨a1, a2, a3⟩ := ih (removeInstanceBeam env s e.2)
    obtain ⟨b1, b2, b3⟩ := removeInstanceBeam_keeps env s e.2
    exact ⟨a1.trans b1, a2.trans b2, fun t => (a3 t).trans (b3 t)⟩

/-- Neither form of `removeInstance` erases an entry or empties a slot: the
stream table and the mark are unchanged and every slot that was occupied is
still occupied. -/
theorem removeInstance_keeps (env : Env Box) (del : stream_del_t) (s : BeamFactory Box) :
    (removeInstance env del s).streamables = s.streamables ∧
    (removeInstance env del s).free_truck = s.free_truck ∧
    ∀ t : Int, ((removeInstance env del s).truckAt t).isSome = (s.truckAt t).isSome := by
  unfold removeInstance
  cases mapFind s.streamables del.sourceid with
  | none => exact ⟨rfl, rfl, fun _ => rfl⟩
  | some inner =>
    simp only
    split_ifs
    · exact ⟨rfl, rfl, fun _ => rfl⟩
    · exact removeInstance_fold_keeps env inner s
    · cases mapFind inner (toUnsigned del.streamid) with
      | none => exact ⟨rfl, rfl, fun _ => rfl⟩
      | some p => exact removeInstanceBeam_keeps env s p

/-! ### Finding the truck inside a box -/

theorem findTruckInsideBoxLoop_cons (inside : Beam Box → Bool) (s : BeamFactory Box) (t : Nat)
    (rest : List Nat) (id : Int) :
    findTruckInsideBoxLoop inside s (t :: rest) id =
      if ∃ b : Beam Box, s.truckAt (t : Int) = some b ∧ inside b = true then
        if id = -1 then findTruckInsideBoxLoop inside s rest (t : Int) else -1
      else findTruckInsideBoxLoop inside s rest id := by
  rw [findTruckInsideBoxLoop]
  cases hb : s.truckAt (t : Int) with
  | none => simp
  | some b =>
    by_cases hi : inside b = true
    · simp [hi]
    · simp [hi]

theorem findTruckInsideBoxLoop_of_found (inside : Beam Box → Bool) (s : BeamFactory Box)
    (l : List Nat) (id : Int) (hid : id ≠ -1) :
    findTruckInsideBoxLoop inside s l id =
      if ∃ t ∈ l, ∃ b : Beam Box, s.truckAt (t : Int) = some b ∧ inside b = true then -1
      else id := by
  induction l with
  | nil => simp [findTruckInsideBoxLoop]
  | cons t rest ih =>
    rw [findTruckInsideBoxLoop_cons]
    by_cases hp : ∃ b : Beam Box, s.truckAt (t : Int) = some b ∧ inside b = true
    · rw [if_pos hp, if_neg hid, if_pos ⟨t, List.mem_cons_self _ _, hp⟩]
    · rw [if_neg hp, ih]
      by_cases hr : ∃ u ∈ rest, ∃ b : Beam Box, s.truckAt (u : Int) = some b ∧ inside b = true
      · obtain ⟨u, hu, hb⟩ := hr
        rw [if_pos ⟨u, hu, hb⟩, if_pos ⟨u, List.mem_cons_of_mem _ hu, hb⟩]
      · rw [if_neg hr, if_neg]
        rintro ⟨u, hu, hb⟩
        rcases List.mem_cons.mp hu with rfl | hu
        · exact hp hb
        · exact hr ⟨u, hu, hb⟩

theorem findTruckInsideBoxLoop_eq_iff (inside : Beam Box → Bool) (s : BeamFactory Box)
    (l : List Nat) (hnd : l.Nodup) (x : Nat) :
    findTruckInsideBoxLoop inside s l (-1) = (x : Int) ↔
      x ∈ l ∧ (∃ b : Beam Box, s.truckAt (x : Int) = some b ∧ inside b = true) ∧
        ∀ u ∈ l, (∃ b : Beam Box, s.truckAt (u : Int) = some b ∧ inside b = true) → u = x := by
  induction l with
  | nil =>
    simp only [findTruckInsideBoxLoop, List.not_mem_nil, false_and, iff_false]
    omega
  | cons t rest ih =>
    obtain ⟨hnt, hndr⟩ := List.nodup_cons.mp hnd
    rw [findTruckInsideBoxLoop_cons]
    by_cases hp : ∃ b : Beam Box, s.truckAt (t : Int) = some b ∧ inside b = true
    · rw [if_pos hp, if_pos rfl, findTruckInsideBoxLoop_of_found inside s rest _ (by omega)]
      by_cases hr : ∃ u ∈ rest, ∃ b : Beam Box, s.truckAt (u : Int) = some b ∧ inside b = true
      · rw [if_pos hr]
        constructor
        · intro h; omega
        · rintro ⟨_, _, huniq⟩
          exfalso
          obtain ⟨u, hu, hb⟩ := hr
          have h1 := huniq u (List.mem_cons_of_mem _ hu) hb
          have h2 := huniq t (List.mem_cons_self _ _) hp
          rw [h1, ← h2] at hu
          exact hnt hu
      · rw [if_neg hr]
        constructor
        · intro h
          have hx : t = x := by omega
          subst hx
          refine ⟨List.mem_cons_self _ _, hp, fun u hu hb => ?_⟩
          rcases List.mem_cons.mp hu with rfl | hu
          · rfl
          · exact absurd ⟨u, hu, hb⟩ hr
        · rintro ⟨_, _, huniq⟩
          rw [huniq t (List.mem_cons_self _ _) hp]
    · rw [if_neg hp, ih hndr]
      constructor
      · rintro ⟨hx, hb, huniq⟩
        refine ⟨List.mem_cons_of_mem _ hx, hb, fun u hu hbu => ?_⟩
        rcases List.mem_cons.mp hu with rfl | hu
        · exact absurd hbu hp
        · exact huniq u hu hbu
      · rintro ⟨hx, hb, huniq⟩
        refine ⟨?_, hb, fun u hu hbu => huniq u (List.mem_cons_of_mem _ hu) hbu⟩
        rcases List.mem_cons.mp hx with rfl | hx
        · exact absurd hb hp
        · exact hx

theorem findTruckInsideBoxLoop_range (inside : Beam Box → Bool) (s : BeamFactory Box)
    (l : List Nat) (id : Int) :
    findTruckInsideBoxLoop inside s l id = -1 ∨ findTruckInsideBoxLoop inside s l id = id ∨
      ∃ x ∈ l, findTruckInsideBoxLoop inside s l id = (x : Int) := by
  induction l generalizing id with
  | nil => exact Or.inr (Or.inl rfl)
  | cons t rest ih =>
    rw [findTruckInsideBoxLoop_cons]
    split_ifs with hp hid
    · rcases ih (t : Int) with h | h | ⟨x, hx, h⟩
      · exact Or.inl h
      · exact Or.inr (Or.inr ⟨t, List.mem_cons_self _ _, h⟩)
      · exact Or.inr (Or.inr ⟨x, List.mem_cons_of_mem _ hx, h⟩)
    · exact Or.inl rfl
    · rcases ih id with h | h | ⟨x, hx, h⟩
      · exact Or.inl h
      · exact Or.inr (Or.inl h)
      · exact Or.inr (Or.inr ⟨x, List.mem_cons_of_mem _ hx, h⟩)

/-- C11: `findTruckInsideBox` returns the index `t` if and only if `t` is the
only occupied slot below the mark whose truck is inside the box; and it returns
`-1` exactly when there is no such unique slot, in particular when no occupied
slot is inside and when two or more are. -/
theorem findTruckInsideBox_unique (inside : Beam Box → Bool) (s : BeamFactory Box) :
    (∀ t : Nat, findTruckInsideBox inside s = (t : Int) ↔
      ((t : Int) < s.free_truck ∧
        (∃ b : Beam Box, s.truckAt (t : Int) = some b ∧ inside b = true) ∧
        ∀ u : Nat, (u : Int) < s.free_truck →
          (∃ b : Beam Box, s.truckAt (u : Int) = some b ∧ inside b = true) → u = t)) ∧
    (findTruckInsideBox inside s = -1 ↔
      ¬ ∃ t : Nat, (t : Int) < s.free_truck ∧
        (∃ b : Beam Box, s.truckAt (t : Int) = some b ∧ inside b = true) ∧
        ∀ u : Nat, (u : Int) < s.free_truck →
          (∃ b : Beam Box, s.truckAt (u : Int) = some b ∧ inside b = true) → u = t) ∧
    ((¬ ∃ t : Nat, (t : Int) < s.free_truck ∧
        ∃ b : Beam Box, s.truckAt (t : Int) = some b ∧ inside b = true) →
      findTruckInsideBox inside s = -1) ∧
    ((∃ t u : Nat, t ≠ u ∧ (t : Int) < s.free_truck ∧ (u : Int) < s.free_truck ∧
        (∃ b : Beam Box, s.truckAt (t : Int) = some b ∧ inside b = true) ∧
        (∃ b : Beam Box, s.truckAt (u : Int) = some b ∧ inside b = true)) →
      findTruckInsideBox inside s = -1) := by
  have hmem : ∀ u : Nat, u ∈ List.range s.free_truck.toNat ↔ (u : Int) < s.free_truck := by
    intro u
    rw [List.mem_range]
    omega
  have hiff : ∀ t : Nat, findTruckInsideBox inside s = (t : Int) ↔
      ((t : Int) < s.free_truck ∧
        (∃ b : Beam Box, s.truckAt (t : Int) = some b ∧ inside b = true) ∧
        ∀ u : Nat, (u : Int) < s.free_truck →
          (∃ b : Beam Box, s.truckAt (u : Int) = some b ∧ inside b = true) → u = t) := by
    intro t
    unfold findTruckInsideBox
    rw [findTruckInsideBoxLoop_eq_iff inside s _ (List.nodup_range _) t, hmem]
    constructor
    · rintro ⟨h1, h2, h3⟩
      exact ⟨h1, h2, fun u hu hb => h3 u ((hmem u).mpr hu) hb⟩
    · rintro ⟨h1, h2, h3⟩
      exact ⟨h1, h2, fun u hu hb => h3 u ((hmem u).mp hu) hb⟩
  have hneg : findTruckInsideBox inside s = -1 ↔
      ¬ ∃ t : Nat, (t : Int) < s.free_truck ∧
        (∃ b : Beam Box, s.truckAt (t : Int) = some b ∧ inside b = true) ∧
        ∀ u : Nat, (u : Int) < s.free_truck →
          (∃ b : Beam Box, s.truckAt (u : Int) = some b ∧ inside b = true) → u = t := by
    constructor
    · rintro h ⟨t, ht⟩
      have := (hiff t).mpr ht
      omega
    · intro h
      rcases findTruckInsideBoxLoop_range inside s (List.range s.free_truck.toNat) (-1) with
        h1 | h1 | ⟨x, _, h1⟩
      · exact h1
      · exact h1
      · exact absurd ⟨x, (hiff x).mp h1⟩ h
  refine ⟨hiff, hneg, fun h => hneg.mpr ?_, fun h => hneg.mpr ?_⟩
  · rintro ⟨t, ht, hb, _⟩
    exact h ⟨t, ht, hb⟩
  · rintro ⟨x, _, _, huniq⟩
    obtain ⟨t, u, htu, ht, hu, hbt, hbu⟩ := h
    exact htu ((huniq t ht hbt).trans (huniq u hu hbu).symm)

/-! ### What `recursiveActivation` wakes -/

theorem wakeEdge_of_wakes (env : Env Box) {s s2 : BeamFactory Box}
    (h : Lifted Beam.wakes s s2) (u t : Nat) (he : WakeEdge env s2 u t) : WakeEdge env s u t := by
  obtain ⟨h1, h2, b, hb, hd, hp⟩ := he
  refine ⟨h1, by rw [← h.1]; exact h2, b, dormant_of_wakes h _ b hb hd, hd, ?_⟩
  rw [← predict_congr env (lifted_sameBoxes_of_wakes h)]
  exact hp

theorem wakeReach_of_wakes (env : Env Box) {s s2 : BeamFactory Box}
    (h : Lifted Beam.wakes s s2) (j t : Nat) (hr : WakeReach env s2 j t) :
    WakeReach env s j t := by
  induction hr with
  | direct t he => exact WakeReach.direct t (wakeEdge_of_wakes env h j t he)
  | next u t _ he ih => exact WakeReach.next u t ih (wakeEdge_of_wakes env h u t he)

theorem wakeReach_trans (env : Env Box) (s : BeamFactory Box) (j u t : Nat)
    (h1 : WakeReach env s j u) (h2 : WakeReach env s u t) : WakeReach env s j t := by
  induction h2 with
  | direct t he => exact WakeReach.next u t h1 he
  | next v t _ he ih => exact WakeReach.next v t ih he

theorem recursiveActivationStep_wakeEdge (env : Env Box)
    (recurse : Nat → BeamFactory Box → Option (BeamFactory Box)) (j : Nat)
    (s s1 : BeamFactory Box) (t : Nat) (ht : (t : Int) < s.free_truck)
    (h : recursiveActivationStep env recurse j s t = some s1) :
    s1 = s ∨ (∃ b : Beam Box, s.truckAt (t : Int) = some b ∧ b.dormantEligible = true ∧
      WakeEdge env s j t ∧ recurse t (wakeTruck env s t b) = some s1) := by
  unfold recursiveActivationStep at h
  by_cases htj : t = j
  · rw [if_pos htj] at h
    simp only [Option.some.injEq] at h
    exact Or.inl h.symm
  · rw [if_neg htj] at h
    cases hb : s.truckAt (t : Int) with
    | none =>
      rw [hb] at h
      simp only [Option.some.injEq] at h
      exact Or.inl h.symm
    | some b =>
      rw [hb] at h
      simp only at h
      by_cases hc : (b.dormantEligible && predictTruckIntersectionCollAABB env s t j) = true
      · rw [if_pos hc] at h
        simp only [Bool.and_eq_true] at hc
        exact Or.inr ⟨b, rfl, hc.1, ⟨htj, ht, b, hb, hc.1, hc.2⟩, h⟩
      · rw [if_neg hc] at h
        simp only [Option.some.injEq] at h
        exact Or.inl h.symm

theorem recursiveActivationLoop_reach (env : Env Box) (fuel : Nat)
    (ih : ∀ (t : Nat) (s s2 : BeamFactory Box), recursiveActivation env fuel t s = some s2 →
      ∀ u : Nat, s2.truckAt (u : Int) ≠ s.truckAt (u : Int) → WakeReach env s t u)
    (j : Nat) (l : List Nat) (s s2 : BeamFactory Box) (hl : ∀ t ∈ l, (t : Int) < s.free_truck)
    (h : l.foldlM (recursiveActivationStep env (recursiveActivation env fuel) j) s = some s2)
    (u : Nat) (hu : s2.truckAt (u : Int) ≠ s.truckAt (u : Int)) : WakeReach env s j u := by
  induction l generalizing s with
  | nil =>
    simp only [List.foldlM_nil, Option.pure_def, Option.some.injEq] at h
    subst h
    exact absurd rfl hu
  | cons t rest ihl =>
    obtain ⟨s1, h1, h2⟩ := (foldlM_cons_eq_some _ _ _ _ _).mp h
    rcases recursiveActivationStep_wakeEdge env _ j s s1 t (hl t (List.mem_cons_self _ _)) h1 with
      rfl | ⟨b, hb, hd, he, hr⟩
    · exact ihl s1 (fun v hv => hl v (List.mem_cons_of_mem _ hv)) h2 hu
    · have l0 := wakeTruck_lifted env s t b hb hd
      have lw := (recursiveActivation_spec env fuel t _ s1 hr).1
      have l01 : Lifted Beam.wakes s s1 := lifted_trans wakes_trans l0 lw
      by_cases e2 : s2.truckAt (u : Int) = s1.truckAt (u : Int)
      · by_cases e1 : s1.truckAt (u : Int) = (wakeTruck env s t b).truckAt (u : Int)
        · by_cases hut : u = t
          · rw [hut]
            exact WakeReach.direct t he
          · exfalso
            apply hu
            rw [e2, e1, wakeTruck_truckAt_ne env s t u b hb hut]
        · exact wakeReach_trans env s j t u (WakeReach.direct t he)
            (wakeReach_of_wakes env l0 t u (ih t _ s1 hr u e1))
      · exact wakeReach_of_wakes env l01 j u
          (ihl s1 (fun v hv => by rw [l01.1]; exact hl v (List.mem_cons_of_mem _ hv)) h2 e2)

theorem recursiveActivation_reach (env : Env Box) (fuel j : Nat) (s s2 : BeamFactory Box)
    (h : recursiveActivation env fuel j s = some s2) (u : Nat)
    (hu : s2.truckAt (u : Int) ≠ s.truckAt (u : Int)) : WakeReach env s j u := by
  induction fuel generalizing j s s2 u with
  | zero => simp [recursiveActivation] at h
  | succ fuel ih =>
    unfold recursiveActivation at h
    cases hb : s.truckAt (j : Int) with
    | none =>
      rw [hb] at h
      simp only [Option.some.injEq] at h
      subst h
      exact absurd rfl hu
    | some bj =>
      rw [hb] at h
      simp only at h
      by_cases hg : bj.state > DESACTIVATED
      · rw [if_pos hg] at h
        simp only [Option.some.injEq] at h
        subst h
        exact absurd rfl hu
      · rw [if_neg hg] at h
        exact recursiveActivationLoop_reach env fuel (fun t s s2 hr u hu => ih t s s2 hr u hu)
          j _ s s2 (fun t ht => by have := List.mem_range.mp ht; omega) h u hu

theorem woken_of_wakeReach (env : Env Box) (j : Nat) (s s2 : BeamFactory Box)
    (hspec : WakeSpec env j s s2)
    (hg : ∃ bj : Beam Box, s.truckAt (j : Int) = some bj ∧ bj.state ≤ DESACTIVATED)
    (t : Nat) (hr : WakeReach env s j t) :
    ∃ b b2 : Beam Box, s.truckAt (t : Int) = some b ∧ b.dormantEligible = true ∧
      s2.truckAt (t : Int) = some b2 ∧ b2.state = DESACTIVATED ∧ b2.sleepcount = 0 := by
  obtain ⟨lw, hcl, hch⟩ := hspec
  have edge : ∀ u t : Nat, Closed env s2 u → WakeEdge env s u t →
      ∃ b b2 : Beam Box, s.truckAt (t : Int) = some b ∧ b.dormantEligible = true ∧
        s2.truckAt (t : Int) = some b2 ∧ b2.state = DESACTIVATED ∧ b2.sleepcount = 0 := by
    rintro u t hc ⟨htu, ht, b, hb, hd, hp⟩
    obtain ⟨bw, hbw, hs, hcnt⟩ := woken_of_closed_neighbour env lw u t htu ht hc b hb hd hp
    exact ⟨b, bw, hb, hd, hbw, hs, hcnt⟩
  induction hr with
  | direct t he => exact edge j t (hcl hg) he
  | next u t _ he ih =>
    obtain ⟨b, b2, hb, hd, hb2, hs, hcnt⟩ := ih
    apply edge u t _ he
    apply hch u
    rw [hb, hb2]
    intro e
    cases e
    rw [dormantEligible_desactivated b hs hcnt] at hd
    cases hd

/-- C19, amended: for a live truck `j` that is active-or-better
(`state <= DESACTIVATED`, the guard of `recursiveActivation`), and with enough
fuel for the walk, the call returns; it desactivates exactly the trucks
reachable from `j` by a chain of predicted-volume intersections whose members
after `j` are live and dormant-eligible, each of which ends with state
`DESACTIVATED` and sleep counter `0`, no longer dormant-eligible; and it leaves
every other slot as it was. -/
theorem recursiveActivation_wakes_reachable (env : Env Box) (fuel j : Nat)
    (s : BeamFactory Box) (bj : Beam Box) (hf : s.free_truck.toNat < fuel)
    (hj : s.truckAt (j : Int) = some bj) (hs : bj.state ≤ DESACTIVATED) :
    ∃ s2, recursiveActivation env fuel j s = some s2 ∧ ∀ t : Nat,
      (WakeReach env s j t →
        ∃ b b2 : Beam Box, s.truckAt (t : Int) = some b ∧ b.dormantEligible = true ∧
          s2.truckAt (t : Int) = some b2 ∧ b2.state = DESACTIVATED ∧ b2.sleepcount = 0 ∧
          b2.dormantEligible = false) ∧
      (¬ WakeReach env s j t → s2.truckAt (t : Int) = s.truckAt (t : Int)) := by
  obtain ⟨s2, h⟩ := recursiveActivation_isSome env fuel j s hf
  have hspec := recursiveActivation_spec env fuel j s s2 h
  refine ⟨s2, h, fun t => ⟨fun hr => ?_, fun hn => ?_⟩⟩
  · obtain ⟨b, b2, hb, hd, hb2, hst, hcnt⟩ := woken_of_wakeReach env j s s2 hspec ⟨bj, hj, hs⟩ t hr
    exact ⟨b, b2, hb, hd, hb2, hst, hcnt, dormantEligible_desactivated b2 hst hcnt⟩
  · by_contra hne
    exact hn (recursiveActivation_reach env fuel j s s2 h t hne)

theorem recursiveActivation_wakes_reachable_witness :
    ∃ s2, recursiveActivation (sampleEnv 3 true (adjOf [(0, 1), (1, 2)])) 4 0
        (sampleFactory [some (sampleBeam 0 ACTIVATED 0), some (sampleBeam 1 MAYSLEEP 0),
          some (sampleBeam 2 SLEEPING 0)] 0) = some s2 ∧ ∀ t : Nat,
      (WakeReach (sampleEnv 3 true (adjOf [(0, 1), (1, 2)]))
          (sampleFactory [some (sampleBeam 0 ACTIVATED 0), some (sampleBeam 1 MAYSLEEP 0),
            some (sampleBeam 2 SLEEPING 0)] 0) 0 t →
        ∃ b b2 : Beam Nat,
          (sampleFactory [some (sampleBeam 0 ACTIVATED 0), some (sampleBeam 1 MAYSLEEP 0),
            some (sampleBeam 2 SLEEPING 0)] 0).truckAt (t : Int) = some b ∧
          b.dormantEligible = true ∧
          s2.truckAt (t : Int) = some b2 ∧ b2.state = DESACTIVATED ∧ b2.sleepcount = 0 ∧
          b2.dormantEligible = false) ∧
      (¬ WakeReach (sampleEnv 3 true (adjOf [(0, 1), (1, 2)]))
          (sampleFactory [some (sampleBeam 0 ACTIVATED 0), some (sampleBeam 1 MAYSLEEP 0),
            some (sampleBeam 2 SLEEPING 0)] 0) 0 t →
        s2.truckAt (t : Int) =
          (sampleFactory [some (sampleBeam 0 ACTIVATED 0), some (sampleBeam 1 MAYSLEEP 0),
            some (sampleBeam 2 SLEEPING 0)] 0).truckAt (t : Int)) :=
  recursiveActivation_wakes_reachable (sampleEnv 3 true (adjOf [(0, 1), (1, 2)])) 4 0
    (sampleFactory [some (sampleBeam 0 ACTIVATED 0), some (sampleBeam 1 MAYSLEEP 0),
      some (sampleBeam 2 SLEEPING 0)] 0) (sampleBeam 0 ACTIVATED 0) (by decide) (by decide)
    (by decide)

/-! ### Termination of `recursiveActivation` -/

theorem dormantCount_le_liveCount (s : BeamFactory Box) : dormantCount s ≤ liveCount s := by
  unfold dormantCount liveCount
  apply List.countP_mono_left
  intro t _ ht
  cases hb : s.truckAt (t : Int) with
  | none =>
    rw [hb] at ht
    cases ht
  | some b => rfl

theorem foldlM_some_mono {σ α : Type} (f g : σ → α → Option σ)
    (h : ∀ s a s1, f s a = some s1 → g s a = some s1) (l : List α) (s s2 : σ)
    (hf : l.foldlM f s = some s2) : l.foldlM g s = some s2 := by
  induction l generalizing s with
  | nil => exact hf
  | cons a rest ih =>
    obtain ⟨s1, h1, h2⟩ := (foldlM_cons_eq_some f a rest s s2).mp hf
    exact (foldlM_cons_eq_some g a rest s s2).mpr ⟨s1, h s a s1 h1, ih s1 h2⟩

theorem recursiveActivationStep_mono (env : Env Box)
    (r r2 : Nat → BeamFactory Box → Option (BeamFactory Box))
    (h : ∀ t s s1, r t s = some s1 → r2 t s = some s1) (j : Nat) (s : BeamFactory Box) (t : Nat)
    (s1 : BeamFactory Box) (hs : recursiveActivationStep env r j s t = some s1) :
    recursiveActivationStep env r2 j s t = some s1 := by
  unfold recursiveActivationStep at hs ⊢
  by_cases htj : t = j
  · rw [if_pos htj] at hs ⊢
    exact hs
  · rw [if_neg htj] at hs ⊢
    cases hb : s.truckAt (t : Int) with
    | none =>
      rw [hb] at hs
      exact hs
    | some b =>
      rw [hb] at hs
      simp only at hs ⊢
      split_ifs at hs ⊢
      · exact h _ _ _ hs
      · exact hs

theorem recursiveActivation_fuel_mono (env : Env Box) (fuel fuel2 j : Nat)
    (s s2 : BeamFactory Box) (hle : fuel ≤ fuel2)
    (h : recursiveActivation env fuel j s = some s2) :
    recursiveActivation env fuel2 j s = some s2 := by
  induction fuel generalizing fuel2 j s s2 with
  | zero => simp [recursiveActivation] at h
  | succ fuel ih =>
    obtain ⟨k, rfl⟩ : ∃ k, fuel2 = k + 1 := ⟨fuel2 - 1, by omega⟩
    unfold recursiveActivation at h ⊢
    cases hb : s.truckAt (j : Int) with
    | none =>
      rw [hb] at h
      exact h
    | some bj =>
      rw [hb] at h
      simp only at h ⊢
      split_ifs at h ⊢
      · exact h
      · exact foldlM_some_mono _ _
          (recursiveActivationStep_mono env _ _
            (fun t s s1 hr => ih k t s s1 (by omega) hr) j) _ s s2 h

/-- C21: `recursiveActivation` terminates on every registry state.  A truck
that has been desactivated is not dormant-eligible; the registry passed to a
recursive call (the one in which truck `t` has just been woken) has strictly
fewer dormant-eligible live trucks than the registry of the calling loop
iteration; that number is at most the number of occupied slots below the mark.
So a nesting depth of one call more than the number of occupied slots is
enough for the call to return, it does not add dormant-eligible trucks, and
every depth bound above the number of dormant-eligible trucks yields the same
result. -/
theorem recursiveActivation_terminates (env : Env Box) (j : Nat) (s : BeamFactory Box) :
    (∀ b : Beam Box, b.desactivate.dormantEligible = false) ∧
    (∀ (recurse : Nat → BeamFactory Box → Option (BeamFactory Box)) (t : Nat) (b : Beam Box),
      t ≠ j → (t : Int) < s.free_truck → s.truckAt (t : Int) = some b →
      b.dormantEligible = true → predictTruckIntersectionCollAABB env s t j = true →
      recursiveActivationStep env recurse j s t = recurse t (wakeTruck env s t b) ∧
        dormantCount (wakeTruck env s t b) < dormantCount s) ∧
    dormantCount s ≤ liveCount s ∧
    ∃ s2, recursiveActivation env (liveCount s + 1) j s = some s2 ∧
      dormantCount s2 ≤ dormantCount s ∧
      ∀ fuel : Nat, dormantCount s < fuel → recursiveActivation env fuel j s = some s2 := by
  refine ⟨fun b => dormantEligible_desactivated _ rfl rfl, ?_, dormantCount_le_liveCount s, ?_⟩
  · intro recurse t b htj ht hb hd hp
    refine ⟨?_, dormantCount_wakeTruck_lt env s t b ht hb hd⟩
    unfold recursiveActivationStep
    rw [if_neg htj, hb]
    simp only [hd, hp, Bool.and_self, if_true]
  · obtain ⟨s2, h⟩ := recursiveActivation_isSome_of_dormantCount env (dormantCount s + 1) j s
      (Nat.lt_succ_self _)
    have hl := dormantCount_le_liveCount s
    refine ⟨s2, recursiveActivation_fuel_mono env _ _ j s s2 (by omega) h,
      dormantCount_mono (recursiveActivation_spec env _ j s s2 h).1, fun fuel hf => ?_⟩
    exact recursiveActivation_fuel_mono env _ _ j s s2 (by omega) h

/-! ### The high-water mark over operation sequences -/

theorem run_append (env : Env Box) (s : BeamFactory Box) (ops ops2 : List (Op Box)) :
    run env s (ops ++ ops2) = run env (run env s ops) ops2 := by
  unfold run
  exact List.foldl_append _ _ _ _

/-- C22: in every state reached from the initial registry by a sequence of
`createLocal`, `createRemoteInstance`, `removeTruck` and `_deleteTruck` whose
array accesses stay inside `trucks[0 .. MAX_TRUCKS)`, the mark satisfies
`0 <= free_truck <= MAX_TRUCKS`, every slot at an index at or above the mark
is empty, every occupied slot has an index in `[0, free_truck)` and is
returned by `getTruck`, and no further such sequence of these operations makes
the mark smaller. -/
theorem registry_high_water (env : Env Box) (ops ops2 : List (Op Box))
    (_hin : inBounds env (init env) (ops ++ ops2) = true) :
    0 ≤ (run env (init env) ops).free_truck ∧
    (run env (init env) ops).free_truck ≤ (env.MAX_TRUCKS : Int) ∧
    (∀ t : Int, (run env (init env) ops).free_truck ≤ t →
      (run env (init env) ops).truckAt t = none) ∧
    (∀ (t : Int) (b : Beam Box), (run env (init env) ops).truckAt t = some b →
      0 ≤ t ∧ t < (run env (init env) ops).free_truck ∧
        getTruck (run env (init env) ops) t = some b) ∧
    (run env (init env) ops).free_truck ≤ (run env (init env) (ops ++ ops2)).free_truck := by
  obtain ⟨hw, hid, _⟩ := run_invariants env ops (init env) (highWater_init env) (idsMatch_init env)
  obtain ⟨_, _, hf⟩ := run_invariants env ops2 (run env (init env) ops) hw hid
  refine ⟨hw.2.1, hw.2.2.1, hw.2.2.2, ?_, ?_⟩
  · intro t b hb
    have h0 : 0 ≤ t := (truckAt_lt_length _ t b hb).1
    have h1 : t < (run env (init env) ops).free_truck := by
      by_contra hge
      rw [hw.2.2.2 t (by omega)] at hb
      cases hb
    refine ⟨h0, h1, ?_⟩
    unfold getTruck
    rw [if_pos ⟨h0, h1⟩]
    exact hb
  · rw [run_append, hf]
    omega

theorem registry_high_water_witness :
    inBounds (sampleEnv 2 true (fun _ _ => false)) (init (sampleEnv 2 true (fun _ _ => false)))
      ([Op.createLocal 1 (sampleBeam 0 0 0), Op.createLocal 2 (sampleBeam 0 0 0),
        Op.removeTruck 0] ++ [Op.removeTruck 5, Op.createLocal 3 (sampleBeam 0 0 0)]) = true ∧
    (run (sampleEnv 2 true (fun _ _ => false)) (init (sampleEnv 2 true (fun _ _ => false)))
      [Op.createLocal 1 (sampleBeam 0 0 0), Op.createLocal 2 (sampleBeam 0 0 0),
        Op.removeTruck 0]).free_truck ≤ ((2 : Nat) : Int) ∧
    ∀ t : Int,
      (run (sampleEnv 2 true (fun _ _ => false)) (init (sampleEnv 2 true (fun _ _ => false)))
        [Op.createLocal 1 (sampleBeam 0 0 0), Op.createLocal 2 (sampleBeam 0 0 0),
          Op.removeTruck 0]).free_truck ≤ t →
      (run (sampleEnv 2 true (fun _ _ => false)) (init (sampleEnv 2 true (fun _ _ => false)))
        [Op.createLocal 1 (sampleBeam 0 0 0), Op.createLocal 2 (sampleBeam 0 0 0),
          Op.removeTruck 0]).truckAt t = none :=
  ⟨by decide,
    (registry_high_water (sampleEnv 2 true (fun _ _ => false))
      [Op.createLocal 1 (sampleBeam 0 0 0), Op.createLocal 2 (sampleBeam 0 0 0),
        Op.removeTruck 0] [Op.removeTruck 5, Op.createLocal 3 (sampleBeam 0 0 0)]
      (by decide)).2.1,
    (registry_high_water (sampleEnv 2 true (fun _ _ => false))
      [Op.createLocal 1 (sampleBeam 0 0 0), Op.createLocal 2 (sampleBeam 0 0 0),
        Op.removeTruck 0] [Op.removeTruck 5, Op.createLocal 3 (sampleBeam 0 0 0)]
      (by decide)).2.2.1⟩

/-! ### Stepping the truck in focus -/

/-- C23 at a concrete input: `createLocal` puts a truck in slot `0`,
`setCurrentTruck(0)` gives it the focus, and `removeBeam` on that truck empties
slot `0` without touching `current_truck`.  `calcPhysics` then selects index
`0`, which lies in `[0, free_truck)`, and calls `frameStep` through the null
pointer in slot `0`.  The same happens after `createLocal`, `removeTruck(0)`
and `setCurrentTruck(0)`. -/
theorem calcPhysics_steps_empty_slot :
    (removeBeam
      ((setCurrentTruck (sampleEnv 2 true (fun _ _ => false)) 0
        (createLocal (sampleEnv 2 true (fun _ _ => false)) 1 (sampleBeam 0 0 0)
          (init (sampleEnv 2 true (fun _ _ => false)))).2).truckAt 0)
      (setCurrentTruck (sampleEnv 2 true (fun _ _ => false)) 0
        (createLocal (sampleEnv 2 true (fun _ _ => false)) 1 (sampleBeam 0 0 0)
          (init (sampleEnv 2 true (fun _ _ => false)))).2)).1 = true ∧
    (removeBeam
      ((setCurrentTruck (sampleEnv 2 true (fun _ _ => false)) 0
        (createLocal (sampleEnv 2 true (fun _ _ => false)) 1 (sampleBeam 0 0 0)
          (init (sampleEnv 2 true (fun _ _ => false)))).2).truckAt 0)
      (setCurrentTruck (sampleEnv 2 true (fun _ _ => false)) 0
        (createLocal (sampleEnv 2 true (fun _ _ => false)) 1 (sampleBeam 0 0 0)
          (init (sampleEnv 2 true (fun _ _ => false)))).2)).2.free_truck = 1 ∧
    (calcPhysics (removeBeam
      ((setCurrentTruck (sampleEnv 2 true (fun _ _ => false)) 0
        (createLocal (sampleEnv 2 true (fun _ _ => false)) 1 (sampleBeam 0 0 0)
          (init (sampleEnv 2 true (fun _ _ => false)))).2).truckAt 0)
      (setCurrentTruck (sampleEnv 2 true (fun _ _ => false)) 0
        (createLocal (sampleEnv 2 true (fun _ _ => false)) 1 (sampleBeam 0 0 0)
          (init (sampleEnv 2 true (fun _ _ => false)))).2)).2).simulatedTruck = 0 ∧
    (calcPhysics (removeBeam
      ((setCurrentTruck (sampleEnv 2 true (fun _ _ => false)) 0
        (createLocal (sampleEnv 2 true (fun _ _ => false)) 1 (sampleBeam 0 0 0)
          (init (sampleEnv 2 true (fun _ _ => false)))).2).truckAt 0)
      (setCurrentTruck (sampleEnv 2 true (fun _ _ => false)) 0
        (createLocal (sampleEnv 2 true (fun _ _ => false)) 1 (sampleBeam 0 0 0)
          (init (sampleEnv 2 true (fun _ _ => false)))).2)).2).truckAt 0 = none ∧
    (calcPhysics (removeBeam
      ((setCurrentTruck (sampleEnv 2 true (fun _ _ => false)) 0
        (createLocal (sampleEnv 2 true (fun _ _ => false)) 1 (sampleBeam 0 0 0)
          (init (sampleEnv 2 true (fun _ _ => false)))).2).truckAt 0)
      (setCurrentTruck (sampleEnv 2 true (fun _ _ => false)) 0
        (createLocal (sampleEnv 2 true (fun _ _ => false)) 1 (sampleBeam 0 0 0)
          (init (sampleEnv 2 true (fun _ _ => false)))).2)).2).events.getLast? =
      some (Event.frameStep 0) ∧
    (calcPhysics (setCurrentTruck (sampleEnv 2 true (fun _ _ => false)) 0
      (removeTruck (sampleEnv 2 true (fun _ _ => false)) 0
        (createLocal (sampleEnv 2 true (fun _ _ => false)) 1 (sampleBeam 0 0 0)
          (init (sampleEnv 2 true (fun _ _ => false)))).2))).events.getLast? =
      some (Event.frameStep 0) := by
  decide

/-- C19, as stated, fails: truck `0` is live with state `5`, a state above
`SLEEPING` (the source tests `state <= SLEEPING` where it means the sleep
states only), so it is neither in `MAYSLEEP`, `GOSLEEP` or `SLEEPING` nor
dormant-eligible; truck `1` is `SLEEPING` and its predicted volume intersects
that of truck `0`, so it is reachable from `0`.  `recursiveActivation(0)`
returns at its guard `state > DESACTIVATED` and leaves truck `1` sleeping. -/
theorem recursiveActivation_guard_skips_walk :
    (sampleFactory [some (sampleBeam 0 5 0), some (sampleBeam 1 SLEEPING 0)] 0).truckAt 0 =
      some (sampleBeam 0 5 0) ∧
    (sampleBeam 0 5 0).dormantEligible = false ∧
    (sampleBeam 0 5 0).state ≠ MAYSLEEP ∧ (sampleBeam 0 5 0).state ≠ GOSLEEP ∧
    (sampleBeam 0 5 0).state ≠ SLEEPING ∧
    (sampleBeam 1 SLEEPING 0).dormantEligible = true ∧
    WakeReach (sampleEnv 2 true (adjOf [(0, 1)]))
      (sampleFactory [some (sampleBeam 0 5 0), some (sampleBeam 1 SLEEPING 0)] 0) 0 1 ∧
    (∀ fuel : Nat, recursiveActivation (sampleEnv 2 true (adjOf [(0, 1)])) (fuel + 1) 0
      (sampleFactory [some (sampleBeam 0 5 0), some (sampleBeam 1 SLEEPING 0)] 0) =
      some (sampleFactory [some (sampleBeam 0 5 0), some (sampleBeam 1 SLEEPING 0)] 0)) ∧
    (sampleFactory [some (sampleBeam 0 5 0), some (sampleBeam 1 SLEEPING 0)] 0).truckAt 1 =
      some (sampleBeam 1 SLEEPING 0) := by
  refine ⟨by decide, by decide, by decide, by decide, by decide, by decide, ?_, ?_, by decide⟩
  · exact WakeReach.direct 1 ⟨by decide, by decide, sampleBeam 1 SLEEPING 0, by decide, by decide,
      by decide⟩
  · intro fuel
    rfl

/-! ### What `removeInstance` does to the referenced instances -/

theorem find?_congr_mem {α : Type} {p q : α → Bool} {l : List α}
    (h : ∀ x ∈ l, p x = q x) : l.find? p = l.find? q := by
  induction l with
  | nil => rfl
  | cons a rest ih =>
    rw [List.find?_cons, List.find?_cons, h a (List.mem_cons_self _ _),
      ih (fun x hx => h x (List.mem_cons_of_mem _ hx))]

theorem mapFind_mem {κ V : Type} [DecidableEq κ] (m : List (κ × V)) (k : κ) (v : V)
    (h : mapFind m k = some v) : (k, v) ∈ m := by
  induction m with
  | nil => simp [mapFind] at h
  | cons e rest ih =>
    obtain ⟨k1, v1⟩ := e
    unfold mapFind at h
    by_cases hk : k = k1
    · rw [if_pos hk] at h
      simp only [Option.some.injEq] at h
      rw [hk, h]
      exact List.mem_cons_self _ _
    · rw [if_neg hk] at h
      exact List.mem_cons_of_mem _ (ih h)

theorem slotOf_some (s : BeamFactory Box) (p : BeamPtr) (t : Nat) (h : slotOf s p = some t) :
    ∃ b : Beam Box, s.truckAt (t : Int) = some b ∧ b.addr = p := by
  unfold slotOf at h
  have h2 := List.find?_some h
  cases hb : s.truckAt (t : Int) with
  | none =>
    rw [hb] at h2
    cases h2
  | some b =>
    rw [hb] at h2
    exact ⟨b, rfl, by simpa using h2⟩

theorem slotOf_congr (s s2 : BeamFactory Box) (p : BeamPtr)
    (hl : s2.trucks.length = s.trucks.length)
    (h : ∀ t : Nat, (s2.truckAt (t : Int)).map (fun b => b.addr) =
      (s.truckAt (t : Int)).map (fun b => b.addr)) : slotOf s2 p = slotOf s p := by
  unfold slotOf
  rw [hl]
  apply find?_congr_mem
  intro t _
  have ht := h t
  cases h1 : s.truckAt (t : Int) with
  | none =>
    cases h2 : s2.truckAt (t : Int) with
    | none => rfl
    | some b2 => rw [h1, h2] at ht; cases ht
  | some b =>
    cases h2 : s2.truckAt (t : Int) with
    | none => rw [h1, h2] at ht; cases ht
    | some b2 =>
      rw [h1, h2] at ht
      simp only [Option.map_some', Option.some.injEq] at ht
      simp only [ht]

theorem removeInstanceBeam_owned (env : Env Box) (s : BeamFactory Box) (p : BeamPtr) (t : Nat)
    (hp : p ≠ 0) (ht : slotOf s p = some t) :
    ∃ b : Beam Box, s.truckAt (t : Int) = some b ∧ b.addr = p ∧
      removeInstanceBeam env s p =
        (s.setTruck (t : Int) (some (env.deleteNetTruck b))).emit (Event.deleteNetTruck p) := by
  obtain ⟨b, hb, ha⟩ := slotOf_some s p t ht
  refine ⟨b, hb, ha, ?_⟩
  unfold removeInstanceBeam
  rw [if_neg hp, ht]
  simp only [hb]

theorem removeInstanceBeam_slotOf (env : Env Box)
    (haddr : ∀ b : Beam Box, (env.deleteNetTruck b).addr = b.addr)
    (s : BeamFactory Box) (q p : BeamPtr) :
    slotOf (removeInstanceBeam env s q) p = slotOf s p := by
  by_cases hq : q = 0
  · simp [removeInstanceBeam, hq]
  · cases ht : slotOf s q with
    | none => simp [removeInstanceBeam, hq, ht]
    | some t =>
      obtain ⟨b, hb, _, he⟩ := removeInstanceBeam_owned env s q t hq ht
      rw [he]
      obtain ⟨h0, h1⟩ := truckAt_lt_length s _ b hb
      apply slotOf_congr
      · simp
      · intro u
        simp only [emit_truckAt]
        by_cases hu : (t : Int) = (u : Int)
        · rw [← hu, truckAt_setTruck_same s _ _ h0 h1, hb]
          simp [haddr]
        · rw [truckAt_setTruck_ne s _ _ _ hu]

theorem removeInstanceBeam_events (env : Env Box) (s : BeamFactory Box) (p : BeamPtr)
    (hown : p ≠ 0 → (slotOf s p).isSome = true) :
    (removeInstanceBeam env s p).events =
      s.events ++ (if p ≠ 0 then [Event.deleteNetTruck p] else []) := by
  by_cases hp : p = 0
  · simp [removeInstanceBeam, hp]
  · obtain ⟨t, ht⟩ := Option.isSome_iff_exists.mp (hown hp)
    obtain ⟨b, _, _, he⟩ := removeInstanceBeam_owned env s p t hp ht
    rw [he, if_pos hp]
    simp [emit]

theorem removeInstance_fold_events (env : Env Box)
    (haddr : ∀ b : Beam Box, (env.deleteNetTruck b).addr = b.addr)
    (l : List (Nat × BeamPtr)) (s : BeamFactory Box)
    (hown : ∀ e ∈ l, e.2 ≠ 0 → (slotOf s e.2).isSome = true) :
    (l.foldl (fun acc e => removeInstanceBeam env acc e.2) s).events =
      s.events ++ (l.filter (fun e => decide (e.2 ≠ 0))).map (fun e => Event.deleteNetTruck e.2) := by
  induction l generalizing s with
  | nil => simp
  | cons e rest ih =>
    rw [List.foldl_cons, ih (removeInstanceBeam env s e.2) (fun x hx hx0 => by
      rw [removeInstanceBeam_slotOf env haddr]
      exact hown x (List.mem_cons_of_mem _ hx) hx0),
      removeInstanceBeam_events env s e.2 (hown e (List.mem_cons_self _ _))]
    by_cases he : e.2 = 0
    · simp [he]
    · simp [he]

/-- C18, amended: `removeInstance(del)` only hides the referenced instances.
Nothing is erased from the stream table, the mark stays and every occupied
slot stays occupied.  When every non-null pointer stored under the origin is
owned by a slot: with the wildcard stream-id `-1` the calls made are exactly
one `deleteNetTruck` on each non-null pointer stored under the origin, in
stream-id order; with another stream-id whose entry is the non-null pointer
`p`, the result is the registry in which the slot owning `p` holds the object
after `deleteNetTruck`, and the one call made is `deleteNetTruck` on `p`.
Here `deleteNetTruck` is any effect on the object that keeps its address. -/
theorem removeInstance_hides_only (env : Env Box) (del : stream_del_t) (s : BeamFactory Box)
    (haddr : ∀ b : Beam Box, (env.deleteNetTruck b).addr = b.addr) :
    (removeInstance env del s).streamables = s.streamables ∧
    (removeInstance env del s).free_truck = s.free_truck ∧
    (∀ t : Int, ((removeInstance env del s).truckAt t).isSome = (s.truckAt t).isSome) ∧
    ∀ inner, mapFind s.streamables del.sourceid = some inner →
      (∀ e ∈ inner, e.2 ≠ 0 → (slotOf s e.2).isSome = true) →
      (del.streamid = -1 →
        (removeInstance env del s).events = s.events ++
          (inner.filter (fun e => decide (e.2 ≠ 0))).map (fun e => Event.deleteNetTruck e.2)) ∧
      (del.streamid ≠ -1 → ∀ p : BeamPtr, mapFind inner (toUnsigned del.streamid) = some p →
        p ≠ 0 → ∃ (t : Nat) (b : Beam Box), slotOf s p = some t ∧ s.truckAt (t : Int) = some b ∧
          b.addr = p ∧ removeInstance env del s =
            (s.setTruck (t : Int) (some (env.deleteNetTruck b))).emit (Event.deleteNetTruck p)) := by
  obtain ⟨k1, k2, k3⟩ := removeInstance_keeps env del s
  refine ⟨k1, k2, k3, ?_⟩
  intro inner hin hown
  constructor
  · intro hw
    unfold removeInstance
    rw [hin]
    simp only [hw, if_true]
    by_cases he : inner.isEmpty = true
    · rw [if_pos he]
      rw [List.isEmpty_iff] at he
      simp [he]
    · rw [if_neg he]
      exact removeInstance_fold_events env haddr inner s hown
  · intro hw p hp hp0
    have hmem := mapFind_mem inner _ p hp
    obtain ⟨t, ht⟩ := Option.isSome_iff_exists.mp (hown _ hmem hp0)
    obtain ⟨b, hb, ha, he⟩ := removeInstanceBeam_owned env s p t hp0 ht
    refine ⟨t, b, ht, hb, ha, ?_⟩
    unfold removeInstance
    rw [hin]
    have hne : inner.isEmpty ≠ true := by
      intro h
      rw [List.isEmpty_iff] at h
      rw [h] at hmem
      cases hmem
    simp only [hne, if_false, hw, hp]
    exact he

theorem removeInstance_hides_only_witness :
    (removeInstance (sampleEnv 2 true (fun _ _ => false)) { sourceid := 5, streamid := -1 }
      (createRemoteInstance (sampleEnv 2 true (fun _ _ => false)) 7 (sampleBeam 0 0 0) sampleReg
        (init (sampleEnv 2 true (fun _ _ => false)))).2).events =
      (createRemoteInstance (sampleEnv 2 true (fun _ _ => false)) 7 (sampleBeam 0 0 0) sampleReg
        (init (sampleEnv 2 true (fun _ _ => false)))).2.events ++ [Event.deleteNetTruck 7] :=
  ((removeInstance_hides_only (sampleEnv 2 true (fun _ _ => false))
    { sourceid := 5, streamid := -1 }
    (createRemoteInstance (sampleEnv 2 true (fun _ _ => false)) 7 (sampleBeam 0 0 0) sampleReg
      (init (sampleEnv 2 true (fun _ _ => false)))).2 (fun _ => rfl)).2.2.2 [(1, 7)]
    (by decide) (by decide)).1 rfl

/-! ### The worker handoff -/

theorem handoff_inv_step (truck : BeamPtr) (h h2 : Handoff) (t : Tid)
    (hinv : h.inv = true) (hstep : handoffStep truck h t = some h2) : h2.inv = true := by
  obtain ⟨td, wd, dm, wm, w, o⟩ := h
  cases t <;> cases w <;> cases o <;>
    simp only [handoffStep, threadstartStep, orchestratorStep] at hstep <;>
    (try split at hstep) <;>
    (try simp only [Option.some.injEq, reduceCtorEq] at hstep) <;>
    (try subst hstep) <;>
    simp_all [Handoff.inv, WorkerPc.idle]

theorem handoff_inv_run (truck : BeamPtr) (schedule : List Tid) (h h2 : Handoff)
    (hinv : h.inv = true) (hrun : handoffRun truck h schedule = some h2) : h2.inv = true := by
  induction schedule generalizing h with
  | nil =>
    simp only [handoffRun, List.foldlM_nil, Option.pure_def, Option.some.injEq] at hrun
    rw [← hrun]
    exact hinv
  | cons t rest ih =>
    obtain ⟨h1, hs, hr⟩ := (foldlM_cons_eq_some _ _ _ _ _).mp hrun
    exact ih h1 (handoff_inv_step truck h h1 t hinv hs) hr

theorem handoff_no_overlap_of_inv (h : Handoff) (hinv : h.inv = true) : h.overlap = false := by
  obtain ⟨td, wd, dm, wm, w, o⟩ := h
  cases w <;> cases o <;> simp_all [Handoff.inv, Handoff.overlap, WorkerPc.idle]

/-- Once the worker has executed its first `thread_done = true` before the
orchestrator's first "Prepare", the barrier does its work: on every schedule,
whenever the orchestrator is past the barrier the worker is not inside
`threadentry`. -/
theorem handoff_exclusive_once_idle (truck : BeamPtr) (schedule : List Tid)
    (h h2 : Handoff)
    (h0 : handoffRun truck Handoff.start
      [Tid.worker, Tid.worker, Tid.worker] = some h)
    (hrun : handoffRun truck h schedule = some h2) : h2.overlap = false := by
  have hh : h.inv = true := by
    have e : handoffRun truck Handoff.start [Tid.worker, Tid.worker, Tid.worker] =
        some
          { thread_done := true, work_done := false, thread_done_mutex := some Tid.worker,
            work_done_mutex := some Tid.worker, worker := WorkerPc.unlockDone,
            orchestrator := OrchPc.prepareLock } := rfl
    rw [e] at h0
    rw [← Option.some.inj h0]
    rfl
  exact handoff_no_overlap_of_inv h2 (handoff_inv_run truck schedule h h2 hh hrun)

/-- C15 on a concrete schedule: the registry holds one truck, in slot `0`, which
is the designated one (`simulatedTruck = 0`).  From the state the constructor
leaves, the orchestrator runs "Prepare" and "Signal start" before the worker
has executed the first statement of its loop.  The worker then enters its loop,
sets `thread_done = true` at the top of the loop body, finds `work_done`
already set, clears it and enters `threadentry` on the truck.  The
orchestrator's "Wait for sync" now finds `thread_done` true and returns, so the
orchestrator is past the barrier, free to access or delete the truck, while the
worker is stepping it. -/
theorem handoff_barrier_passes_while_stepping :
    ptrOf ((sampleFactory [some (sampleBeam 0 ACTIVATED 0)] 0).getTruck
      (sampleFactory [some (sampleBeam 0 ACTIVATED 0)] 0).simulatedTruck) = 1 ∧
    handoffRun (ptrOf ((sampleFactory [some (sampleBeam 0 ACTIVATED 0)] 0).getTruck
        (sampleFactory [some (sampleBeam 0 ACTIVATED 0)] 0).simulatedTruck)) Handoff.start
      [Tid.orchestrator, Tid.orchestrator, Tid.orchestrator,
        Tid.orchestrator, Tid.orchestrator, Tid.orchestrator, Tid.orchestrator] =
      some { thread_done := false, work_done := true, thread_done_mutex := none,
             work_done_mutex := none, worker := WorkerPc.lockWork,
             orchestrator := OrchPc.syncLock } ∧
    handoffRun (ptrOf ((sampleFactory [some (sampleBeam 0 ACTIVATED 0)] 0).getTruck
        (sampleFactory [some (sampleBeam 0 ACTIVATED 0)] 0).simulatedTruck)) Handoff.start
      [Tid.orchestrator, Tid.orchestrator, Tid.orchestrator,
        Tid.orchestrator, Tid.orchestrator, Tid.orchestrator, Tid.orchestrator,
        Tid.worker, Tid.worker, Tid.worker, Tid.worker, Tid.worker,
        Tid.worker, Tid.worker, Tid.worker, Tid.worker] =
      some { thread_done := true, work_done := false, thread_done_mutex := none,
             work_done_mutex := none, worker := WorkerPc.threadentry,
             orchestrator := OrchPc.syncLock } ∧
    handoffRun (ptrOf ((sampleFactory [some (sampleBeam 0 ACTIVATED 0)] 0).getTruck
        (sampleFactory [some (sampleBeam 0 ACTIVATED 0)] 0).simulatedTruck)) Handoff.start
      [Tid.orchestrator, Tid.orchestrator, Tid.orchestrator,
        Tid.orchestrator, Tid.orchestrator, Tid.orchestrator, Tid.orchestrator,
        Tid.worker, Tid.worker, Tid.worker, Tid.worker, Tid.worker,
        Tid.worker, Tid.worker, Tid.worker, Tid.worker,
        Tid.orchestrator, Tid.orchestrator, Tid.orchestrator] =
      some { thread_done := true, work_done := false, thread_done_mutex := none,
             work_done_mutex := none, worker := WorkerPc.threadentry,
             orchestrator := OrchPc.touch } ∧
    Handoff.overlap
      { thread_done := true, work_done := false, thread_done_mutex := none,
        work_done_mutex := none, worker := WorkerPc.threadentry,
        orchestrator := OrchPc.touch } = true := by
  decide

end RoR
